import Mathlib

/-!
Verification of the `pony-lang` repository: a shallow embedding of the
bytecode codec (`src/freyr/encoder.rs`) and of the semantic-analysis
pipeline (`src/semantic/*.rs`), with theorems checking the repository's
specification against the code.

Machine integers (`u32`, `u8`) are embedded as `Nat` with explicit
reductions `% 2 ^ 32` / `% 2 ^ 256` where the Rust code can wrap or
truncate.  Rust `panic!`/`unwrap` paths are embedded as `Option`/`Except`
failures.

The instruction table, the `get_part` decoder helper and the small field
enums live in `src/freyr/vm/instructions.rs`, a file of this repository
that is not part of the provided sources; those definitions are modelled
from the specification (each carries a doc comment saying so).  Everything
else is translated from the given source files.
-/

/-- `truncate_to_bits` from `src/freyr/encoder.rs`:
`(num << (32 - bits)) >> (32 - bits)` on `u32`. -/
def truncate_to_bits (num bits : Nat) : Nat :=
  ((num * 2 ^ (32 - bits)) % 2 ^ 32) / 2 ^ (32 - bits)

/-- `delete_msb_bits` from `src/freyr/encoder.rs`:
`(num << bits) >> bits` on `u32`. -/
def delete_msb_bits (num bits : Nat) : Nat :=
  ((num * 2 ^ bits) % 2 ^ 32) / 2 ^ bits

/-- `encode_stackoffset` from `src/freyr/encoder.rs`:
`(0b01101 << 27) + truncate_to_bits(offset, 27)`.
(The sum is below `2 ^ 32`, so the `u32` addition cannot wrap.) -/
def encode_stackoffset (offset : Nat) : Nat :=
  let bit_pattern : Nat := 13 * 2 ^ 27
  let bytes : Nat := truncate_to_bits offset 27
  bit_pattern + bytes

/-- One enumerated-variant pattern of a `BitPattern` layout part
(`value` is the semantic value, `pattern` the bit pattern). -/
structure Pattern where
  value : Nat
  pattern : Nat
deriving DecidableEq

/-- The kind of a layout part: an enumerated `BitPattern` or a raw
`Immediate` field. -/
inductive PartType where
  | BitPattern : List Pattern → PartType
  | Immediate : PartType
deriving DecidableEq

/-- One named part of an instruction layout. -/
structure LayoutPart where
  name : String
  length : Nat
  layout_type : PartType
deriving DecidableEq

/-- A 32-bit instruction layout: a 5-bit pseudo-op plus the ordered parts
that partition (a prefix of) the remaining 27 bits. -/
structure BitLayout where
  instruction_pseudoop : Nat
  layout : List LayoutPart
deriving DecidableEq

/-- Encoder state from `src/freyr/encoder.rs` (`InstructionEncoder`). -/
structure InstructionEncoder where
  layout : BitLayout
  current : Nat
deriving DecidableEq

/-- The loop body of `InstructionEncoder::encode`: scan the layout parts
accumulating `bit_offset` (started at 5); at the first part whose name
matches, mask the pattern/value with `delete_msb_bits(_, bit_offset)`,
shift it into position `(32 - bit_offset) - length` and add it to
`current`.  A missing part name or a `BitPattern` value with no matching
pattern is a panic in the source, embedded as `none`. -/
def encode_scan (parts : List LayoutPart) (bit_offset : Nat) (part : String)
    (value current : Nat) : Option Nat :=
  match parts with
  | [] => none
  | layout_part :: rest =>
    if layout_part.name = part then
      match layout_part.layout_type with
      | PartType.BitPattern patterns =>
        match patterns.find? (fun x => x.value == value) with
        | some pat =>
          let offseted := delete_msb_bits pat.pattern bit_offset
          let position_offset := (32 - bit_offset) - layout_part.length
          let positioned := (offseted * 2 ^ position_offset) % 2 ^ 32
          some ((current + positioned) % 2 ^ 32)
        | none => none
      | PartType.Immediate =>
        let offseted := delete_msb_bits value bit_offset
        let position_offset := (32 - bit_offset) - layout_part.length
        let positioned := (offseted * 2 ^ position_offset) % 2 ^ 32
        some ((current + positioned) % 2 ^ 32)
    else
      encode_scan rest (bit_offset + layout_part.length) part value current

/-- `InstructionEncoder::encode` from `src/freyr/encoder.rs`. -/
def InstructionEncoder.encode (e : InstructionEncoder) (part : String)
    (value : Nat) : Option InstructionEncoder :=
  match encode_scan e.layout.layout 5 part value e.current with
  | some current => some { e with current := current }
  | none => none

/-- `u32::from_le_bytes` on a 4-byte little-endian slice. -/
def u32_from_le_bytes (b0 b1 b2 b3 : Nat) : Nat :=
  b0 % 2 ^ 8 + (b1 % 2 ^ 8) * 2 ^ 8 + (b2 % 2 ^ 8) * 2 ^ 16 + (b3 % 2 ^ 8) * 2 ^ 24

/-- `InstructionEncoder::encode_bytes` from `src/freyr/encoder.rs`:
zero-pad the byte slice to 4 bytes, read it as a little-endian `u32`,
and dispatch to `encode`.  A slice longer than 4 bytes is a panic
(`try_into().unwrap()`), embedded as `none`. -/
def InstructionEncoder.encode_bytes (e : InstructionEncoder) (part : String)
    (value : List Nat) : Option InstructionEncoder :=
  match value with
  | [] => e.encode part (u32_from_le_bytes 0 0 0 0)
  | [b0] => e.encode part (u32_from_le_bytes b0 0 0 0)
  | [b0, b1] => e.encode part (u32_from_le_bytes b0 b1 0 0)
  | [b0, b1, b2] => e.encode part (u32_from_le_bytes b0 b1 b2 0)
  | [b0, b1, b2, b3] => e.encode part (u32_from_le_bytes b0 b1 b2 b3)
  | _ => none

/-- `InstructionEncoder::make` from `src/freyr/encoder.rs`. -/
def InstructionEncoder.make (e : InstructionEncoder) : Nat :=
  e.current

/-- Modelled from the spec: `BitLayout::get_part` lives in
`src/freyr/vm/instructions.rs`, which is not among the provided sources.
Per spec §4.7, for the named part it produces the raw bit field after
masking/shifting and, for a `BitPattern` part, the decoded variant value
(for `Immediate` the value equals the raw field).  The decoder arms in
`src/freyr/encoder.rs` use the first component as the decoded value and
the second as the raw field.  Offsets accumulate from 5 exactly as in the
encoder. -/
def get_part_scan (parts : List LayoutPart) (bit_offset : Nat) (name : String)
    (instruction : Nat) : Option (Nat × Nat) :=
  match parts with
  | [] => none
  | p :: rest =>
    if p.name = name then
      let raw := (instruction / 2 ^ ((32 - bit_offset) - p.length)) % 2 ^ p.length
      match p.layout_type with
      | PartType.BitPattern patterns =>
        match patterns.find? (fun x => x.pattern == raw) with
        | some pat => some (pat.value, raw)
        | none => none
      | PartType.Immediate => some (raw, raw)
    else
      get_part_scan rest (bit_offset + p.length) name instruction

/-- Modelled from the spec: entry point of `BitLayout::get_part`
(see `get_part_scan`). -/
def BitLayout.get_part (l : BitLayout) (name : String) (instruction : Nat) :
    Option (Nat × Nat) :=
  get_part_scan l.layout 5 name instruction

/-- Modelled from the spec: the `NumberOfBytes` operand-width enum of
`src/freyr/vm/instructions.rs` (values 1/2/4/8 per the encoder tests). -/
inductive NumberOfBytes where
  | Bytes1 | Bytes2 | Bytes4 | Bytes8
deriving DecidableEq

/-- Modelled from the spec: `NumberOfBytes::get_bytes`. -/
def NumberOfBytes.get_bytes : NumberOfBytes → Nat
  | .Bytes1 => 1
  | .Bytes2 => 2
  | .Bytes4 => 4
  | .Bytes8 => 8

/-- Modelled from the spec: `impl From<u8> for NumberOfBytes`, the inverse
of `get_bytes` (an unknown byte count is a panic, embedded as `none`). -/
def NumberOfBytes.from_u8 : Nat → Option NumberOfBytes
  | 1 => some .Bytes1
  | 2 => some .Bytes2
  | 4 => some .Bytes4
  | 8 => some .Bytes8
  | _ => none

/-- Modelled from the spec: the `LeftShift` enum of `PushImmediate`
(shift sizes 0/16/32/48; the tests pin 0 and 16). -/
inductive LeftShift where
  | None | Shift16 | Shift32 | Shift48
deriving DecidableEq

/-- Modelled from the spec: `LeftShift::get_shift_size`. -/
def LeftShift.get_shift_size : LeftShift → Nat
  | .None => 0
  | .Shift16 => 16
  | .Shift32 => 32
  | .Shift48 => 48

/-- Modelled from the spec: `impl From<u8> for LeftShift`. -/
def LeftShift.from_u8 : Nat → Option LeftShift
  | 0 => some .None
  | 16 => some .Shift16
  | 32 => some .Shift32
  | 48 => some .Shift48
  | _ => none

/-- Modelled from the spec: the addressing-mode enum of
`LoadAddress`/`StoreAddress` (patterns 0..3 per the encoder tests). -/
inductive LoadStoreAddressingMode where
  | Stack | RelativeForward | RelativeBackward | Absolute
deriving DecidableEq

/-- Modelled from the spec: `LoadStoreAddressingMode::get_bit_pattern`. -/
def LoadStoreAddressingMode.get_bit_pattern : LoadStoreAddressingMode → Nat
  | .Stack => 0
  | .RelativeForward => 1
  | .RelativeBackward => 2
  | .Absolute => 3

/-- Modelled from the spec: `impl From<u8> for LoadStoreAddressingMode`. -/
def LoadStoreAddressingMode.from_u8 : Nat → Option LoadStoreAddressingMode
  | 0 => some .Stack
  | 1 => some .RelativeForward
  | 2 => some .RelativeBackward
  | 3 => some .Absolute
  | _ => none

/-- Modelled from the spec: shift direction of `BitShift`. -/
inductive ShiftDirection where
  | Left | Right
deriving DecidableEq

/-- Modelled from the spec: `ShiftDirection::get_bit_pattern`. -/
def ShiftDirection.get_bit_pattern : ShiftDirection → Nat
  | .Left => 0
  | .Right => 1

/-- Modelled from the spec: `impl From<u8> for ShiftDirection`. -/
def ShiftDirection.from_u8 : Nat → Option ShiftDirection
  | 0 => some .Left
  | 1 => some .Right
  | _ => none

/-- Modelled from the spec: the stack/immediate operation mode. -/
inductive OperationMode where
  | PureStack | StackAndImmediate
deriving DecidableEq

/-- Modelled from the spec: `OperationMode::get_bit_pattern`. -/
def OperationMode.get_bit_pattern : OperationMode → Nat
  | .PureStack => 0
  | .StackAndImmediate => 1

/-- Modelled from the spec: `impl From<u8> for OperationMode`. -/
def OperationMode.from_u8 : Nat → Option OperationMode
  | 0 => some .PureStack
  | 1 => some .StackAndImmediate
  | _ => none

/-- Modelled from the spec: the signedness flag. -/
inductive SignFlag where
  | Unsigned | Signed
deriving DecidableEq

/-- Modelled from the spec: `SignFlag::get_bit_pattern`. -/
def SignFlag.get_bit_pattern : SignFlag → Nat
  | .Unsigned => 0
  | .Signed => 1

/-- Modelled from the spec: `impl From<u8> for SignFlag`. -/
def SignFlag.from_u8 : Nat → Option SignFlag
  | 0 => some .Unsigned
  | 1 => some .Signed
  | _ => none

/-- Modelled from the spec: bitwise operations (And/Or/Xor, patterns
0b00/0b01/0b10 per the encoder tests). -/
inductive BitwiseOperation where
  | And | Or | Xor
deriving DecidableEq

/-- Modelled from the spec: `BitwiseOperation::get_bit_pattern`. -/
def BitwiseOperation.get_bit_pattern : BitwiseOperation → Nat
  | .And => 0
  | .Or => 1
  | .Xor => 2

/-- Modelled from the spec: `impl From<u8> for BitwiseOperation`. -/
def BitwiseOperation.from_u8 : Nat → Option BitwiseOperation
  | 0 => some .And
  | 1 => some .Or
  | 2 => some .Xor
  | _ => none

/-- Modelled from the spec: integer/float arithmetic operations (the
encoder tests pin Sum=0b000, Multiply=0b010, Divide=0b011, Power=0b100). -/
inductive ArithmeticOperation where
  | Sum | Subtract | Multiply | Divide | Power
deriving DecidableEq

/-- Modelled from the spec: `ArithmeticOperation::get_bit_pattern`. -/
def ArithmeticOperation.get_bit_pattern : ArithmeticOperation → Nat
  | .Sum => 0
  | .Subtract => 1
  | .Multiply => 2
  | .Divide => 3
  | .Power => 4

/-- Modelled from the spec: `impl From<u8> for ArithmeticOperation`. -/
def ArithmeticOperation.from_u8 : Nat → Option ArithmeticOperation
  | 0 => some .Sum
  | 1 => some .Subtract
  | 2 => some .Multiply
  | 3 => some .Divide
  | 4 => some .Power
  | _ => none

/-- Modelled from the spec: comparison operations (the encoder tests pin
Equals=0b000 and GreaterThanOrEquals=0b101). -/
inductive CompareOperation where
  | Equals | NotEquals | LessThan | LessThanOrEquals | GreaterThan
  | GreaterThanOrEquals
deriving DecidableEq

/-- Modelled from the spec: `CompareOperation::get_bit_pattern`. -/
def CompareOperation.get_bit_pattern : CompareOperation → Nat
  | .Equals => 0
  | .NotEquals => 1
  | .LessThan => 2
  | .LessThanOrEquals => 3
  | .GreaterThan => 4
  | .GreaterThanOrEquals => 5

/-- Modelled from the spec: `impl From<u8> for CompareOperation`. -/
def CompareOperation.from_u8 : Nat → Option CompareOperation
  | 0 => some .Equals
  | 1 => some .NotEquals
  | 2 => some .LessThan
  | 3 => some .LessThanOrEquals
  | 4 => some .GreaterThan
  | 5 => some .GreaterThanOrEquals
  | _ => none

/-- Modelled from the spec: control registers (the encoder tests pin
BasePointer=0b00 and InstructionPointer=0b10). -/
inductive ControlRegister where
  | BasePointer | StackPointer | InstructionPointer
deriving DecidableEq

/-- Modelled from the spec: `ControlRegister::get_bit_pattern`. -/
def ControlRegister.get_bit_pattern : ControlRegister → Nat
  | .BasePointer => 0
  | .StackPointer => 1
  | .InstructionPointer => 2

/-- Modelled from the spec: `impl From<u8> for ControlRegister`. -/
def ControlRegister.from_u8 : Nat → Option ControlRegister
  | 0 => some .BasePointer
  | 1 => some .StackPointer
  | 2 => some .InstructionPointer
  | _ => none

/-- Modelled from the spec: the call/jump address source. -/
inductive AddressJumpAddressSource where
  | FromOperand | PopFromStack
deriving DecidableEq

/-- Modelled from the spec: `AddressJumpAddressSource::get_bit_pattern`. -/
def AddressJumpAddressSource.get_bit_pattern : AddressJumpAddressSource → Nat
  | .FromOperand => 0
  | .PopFromStack => 1

/-- Modelled from the spec: `impl From<u8> for AddressJumpAddressSource`. -/
def AddressJumpAddressSource.from_u8 : Nat → Option AddressJumpAddressSource
  | 0 => some .FromOperand
  | 1 => some .PopFromStack
  | _ => none

/-- The semantic `Instruction` enum (spec §3; defined in
`src/freyr/vm/instructions.rs`).  `[u8; 2]` immediates are embedded as
pairs of bytes (little-endian order), `u8`/`u27`/`u32` operands as `Nat`. -/
inductive Instruction where
  | Noop
  | StackOffset (bytes : Nat)
  | PushImmediate (bytes : NumberOfBytes) (lshift : LeftShift)
      (immediate : Nat × Nat)
  | LoadAddress (bytes : NumberOfBytes) (mode : LoadStoreAddressingMode)
      (operand : Nat)
  | StoreAddress (bytes : NumberOfBytes) (mode : LoadStoreAddressingMode)
      (operand : Nat)
  | BitShift (bytes : NumberOfBytes) (direction : ShiftDirection)
      (mode : OperationMode) (sign : SignFlag) (operand : Nat)
  | Bitwise (bytes : NumberOfBytes) (operation : BitwiseOperation)
      (sign : SignFlag) (mode : OperationMode) (operand : Nat × Nat)
  | IntegerArithmetic (bytes : NumberOfBytes) (operation : ArithmeticOperation)
      (sign : SignFlag) (mode : OperationMode) (operand : Nat × Nat)
  | IntegerCompare (bytes : NumberOfBytes) (operation : CompareOperation)
      (sign : SignFlag) (mode : OperationMode) (operand : Nat × Nat)
  | FloatArithmetic (bytes : NumberOfBytes) (operation : ArithmeticOperation)
  | FloatCompare (bytes : NumberOfBytes) (operation : CompareOperation)
  | PushFromRegister (control_register : ControlRegister)
  | PopIntoRegister (control_register : ControlRegister)
  | Pop (bytes : NumberOfBytes)
  | Call (source : AddressJumpAddressSource) (offset : Nat)
  | JumpIfZero (source : AddressJumpAddressSource) (offset : Nat)
  | JumpIfNotZero (source : AddressJumpAddressSource) (offset : Nat)
  | JumpUnconditional (source : AddressJumpAddressSource) (offset : Nat)
  | Return
  | Exit
deriving DecidableEq

/-- Modelled from the spec: the `noop` layout (pseudo-op 0, no parts). -/
def noop_layout : BitLayout := ⟨0, []⟩

/-- Modelled from the spec: the `push_imm` layout (pseudo-op 0b00001).
Part lengths are not given numerically by the spec; the widths chosen here
follow the operand types of spec §3 (`immediate: [u8;2]` is 16 bits) with
2-bit pattern parts for the two 4-variant enums. -/
def push_imm_layout : BitLayout :=
  ⟨1, [⟨"num bytes", 2, .BitPattern [⟨1, 0⟩, ⟨2, 1⟩, ⟨4, 2⟩, ⟨8, 3⟩]⟩,
       ⟨"lshift", 2, .BitPattern [⟨0, 0⟩, ⟨16, 1⟩, ⟨32, 2⟩, ⟨48, 3⟩]⟩,
       ⟨"immediate lsb", 16, .Immediate⟩]⟩

/-- Modelled from the spec: the `loadaddr` layout (pseudo-op 0b00010);
the operand takes the remaining 23 bits. -/
def loadaddr_layout : BitLayout :=
  ⟨2, [⟨"num bytes", 2, .BitPattern [⟨1, 0⟩, ⟨2, 1⟩, ⟨4, 2⟩, ⟨8, 3⟩]⟩,
       ⟨"mode", 2, .BitPattern [⟨0, 0⟩, ⟨1, 1⟩, ⟨2, 2⟩, ⟨3, 3⟩]⟩,
       ⟨"operand", 23, .Immediate⟩]⟩

/-- Modelled from the spec: the `storeaddr` layout (pseudo-op 0b00011). -/
def storeaddr_layout : BitLayout :=
  ⟨3, [⟨"num bytes", 2, .BitPattern [⟨1, 0⟩, ⟨2, 1⟩, ⟨4, 2⟩, ⟨8, 3⟩]⟩,
       ⟨"mode", 2, .BitPattern [⟨0, 0⟩, ⟨1, 1⟩, ⟨2, 2⟩, ⟨3, 3⟩]⟩,
       ⟨"operand", 23, .Immediate⟩]⟩

/-- Modelled from the spec: the `shift` layout (pseudo-op 0b00100);
the shift-amount operand is a `u8`, 8 bits. -/
def shift_layout : BitLayout :=
  ⟨4, [⟨"num bytes", 2, .BitPattern [⟨1, 0⟩, ⟨2, 1⟩, ⟨4, 2⟩, ⟨8, 3⟩]⟩,
       ⟨"direction", 1, .BitPattern [⟨0, 0⟩, ⟨1, 1⟩]⟩,
       ⟨"mode", 1, .BitPattern [⟨0, 0⟩, ⟨1, 1⟩]⟩,
       ⟨"keep sign", 1, .BitPattern [⟨0, 0⟩, ⟨1, 1⟩]⟩,
       ⟨"operand", 8, .Immediate⟩]⟩

/-- Modelled from the spec: the `bitwise` layout (pseudo-op 0b00101);
the immediate operand is `[u8;2]`, 16 bits. -/
def bitwise_layout : BitLayout :=
  ⟨5, [⟨"num bytes", 2, .BitPattern [⟨1, 0⟩, ⟨2, 1⟩, ⟨4, 2⟩, ⟨8, 3⟩]⟩,
       ⟨"operation", 2, .BitPattern [⟨0, 0⟩, ⟨1, 1⟩, ⟨2, 2⟩]⟩,
       ⟨"sign", 1, .BitPattern [⟨0, 0⟩, ⟨1, 1⟩]⟩,
       ⟨"mode", 1, .BitPattern [⟨0, 0⟩, ⟨1, 1⟩]⟩,
       ⟨"operand", 16, .Immediate⟩]⟩

/-- Modelled from the spec: the `integer_binary_op` layout
(pseudo-op 0b00110). -/
def integer_binary_op_layout : BitLayout :=
  ⟨6, [⟨"num bytes", 2, .BitPattern [⟨1, 0⟩, ⟨2, 1⟩, ⟨4, 2⟩, ⟨8, 3⟩]⟩,
       ⟨"operation", 3, .BitPattern [⟨0, 0⟩, ⟨1, 1⟩, ⟨2, 2⟩, ⟨3, 3⟩, ⟨4, 4⟩]⟩,
       ⟨"sign", 1, .BitPattern [⟨0, 0⟩, ⟨1, 1⟩]⟩,
       ⟨"mode", 1, .BitPattern [⟨0, 0⟩, ⟨1, 1⟩]⟩,
       ⟨"operand", 16, .Immediate⟩]⟩

/-- Modelled from the spec: the `integer_compare` layout
(pseudo-op 0b00111). -/
def integer_compare_layout : BitLayout :=
  ⟨7, [⟨"num bytes", 2, .BitPattern [⟨1, 0⟩, ⟨2, 1⟩, ⟨4, 2⟩, ⟨8, 3⟩]⟩,
       ⟨"operation", 3,
        .BitPattern [⟨0, 0⟩, ⟨1, 1⟩, ⟨2, 2⟩, ⟨3, 3⟩, ⟨4, 4⟩, ⟨5, 5⟩]⟩,
       ⟨"sign", 1, .BitPattern [⟨0, 0⟩, ⟨1, 1⟩]⟩,
       ⟨"mode", 1, .BitPattern [⟨0, 0⟩, ⟨1, 1⟩]⟩,
       ⟨"operand", 16, .Immediate⟩]⟩

/-- Modelled from the spec: the `float_binary_op` layout
(pseudo-op 0b01000). -/
def float_binary_op_layout : BitLayout :=
  ⟨8, [⟨"num bytes", 2, .BitPattern [⟨1, 0⟩, ⟨2, 1⟩, ⟨4, 2⟩, ⟨8, 3⟩]⟩,
       ⟨"operation", 3, .BitPattern [⟨0, 0⟩, ⟨1, 1⟩, ⟨2, 2⟩, ⟨3, 3⟩, ⟨4, 4⟩]⟩]⟩

/-- Modelled from the spec: the `float_compare_op` layout
(pseudo-op 0b01001). -/
def float_compare_op_layout : BitLayout :=
  ⟨9, [⟨"num bytes", 2, .BitPattern [⟨1, 0⟩, ⟨2, 1⟩, ⟨4, 2⟩, ⟨8, 3⟩]⟩,
       ⟨"operation", 3,
        .BitPattern [⟨0, 0⟩, ⟨1, 1⟩, ⟨2, 2⟩, ⟨3, 3⟩, ⟨4, 4⟩, ⟨5, 5⟩]⟩]⟩

/-- Modelled from the spec: the `push_reg` layout (pseudo-op 0b01010). -/
def push_reg_layout : BitLayout :=
  ⟨10, [⟨"register", 2, .BitPattern [⟨0, 0⟩, ⟨1, 1⟩, ⟨2, 2⟩]⟩]⟩

/-- Modelled from the spec: the `pop_reg` layout (pseudo-op 0b01011). -/
def pop_reg_layout : BitLayout :=
  ⟨11, [⟨"register", 2, .BitPattern [⟨0, 0⟩, ⟨1, 1⟩, ⟨2, 2⟩]⟩]⟩

/-- Modelled from the spec: the `pop` layout (pseudo-op 0b01100). -/
def pop_layout : BitLayout :=
  ⟨12, [⟨"num bytes", 2, .BitPattern [⟨1, 0⟩, ⟨2, 1⟩, ⟨4, 2⟩, ⟨8, 3⟩]⟩]⟩

/-- Modelled from the spec: the `stackoffset` layout (pseudo-op 0b01101);
per spec §6, the full 27-bit remainder is a single unsigned operand. -/
def stackoffset_layout : BitLayout :=
  ⟨13, [⟨"num bytes", 27, .Immediate⟩]⟩

/-- Modelled from the spec: the `call` layout (pseudo-op 0b01110);
the branch offset takes the remaining 26 bits. -/
def call_layout : BitLayout :=
  ⟨14, [⟨"source", 1, .BitPattern [⟨0, 0⟩, ⟨1, 1⟩]⟩,
        ⟨"offset", 26, .Immediate⟩]⟩

/-- Modelled from the spec: the `return` layout (pseudo-op 0b01111). -/
def return_layout : BitLayout := ⟨15, []⟩

/-- Modelled from the spec: the `jz` layout.  The spec leaves the opcode
assignments of the jump layouts and of `exit` open; 16..19 are used here.
The decoder has no arms for these pseudo-ops either way. -/
def jz_layout : BitLayout :=
  ⟨16, [⟨"source", 1, .BitPattern [⟨0, 0⟩, ⟨1, 1⟩]⟩,
        ⟨"offset", 26, .Immediate⟩]⟩

/-- Modelled from the spec: the `jnz` layout (see `jz_layout`). -/
def jnz_layout : BitLayout :=
  ⟨17, [⟨"source", 1, .BitPattern [⟨0, 0⟩, ⟨1, 1⟩]⟩,
        ⟨"offset", 26, .Immediate⟩]⟩

/-- Modelled from the spec: the `jmp` layout (see `jz_layout`). -/
def jmp_layout : BitLayout :=
  ⟨18, [⟨"source", 1, .BitPattern [⟨0, 0⟩, ⟨1, 1⟩]⟩,
        ⟨"offset", 26, .Immediate⟩]⟩

/-- Modelled from the spec: the `exit` layout (see `jz_layout`). -/
def exit_layout : BitLayout := ⟨19, []⟩

/-- Modelled from the spec: the `InstructionTable` built by
`get_all_instruction_layouts` — the name-to-layout map and the reverse
pseudo-op-to-name map. -/
structure InstructionTable where
  table : List (String × BitLayout)
  pseudoops : List (Nat × String)
deriving DecidableEq

/-- Modelled from the spec: the concrete instruction table. -/
def get_all_instruction_layouts : InstructionTable :=
  { table :=
      [("noop", noop_layout), ("push_imm", push_imm_layout),
       ("loadaddr", loadaddr_layout), ("storeaddr", storeaddr_layout),
       ("shift", shift_layout), ("bitwise", bitwise_layout),
       ("integer_binary_op", integer_binary_op_layout),
       ("integer_compare", integer_compare_layout),
       ("float_binary_op", float_binary_op_layout),
       ("float_compare_op", float_compare_op_layout),
       ("push_reg", push_reg_layout), ("pop_reg", pop_reg_layout),
       ("pop", pop_layout), ("stackoffset", stackoffset_layout),
       ("call", call_layout), ("return", return_layout),
       ("jz", jz_layout), ("jnz", jnz_layout), ("jmp", jmp_layout),
       ("exit", exit_layout)],
    pseudoops :=
      [(0, "noop"), (1, "push_imm"), (2, "loadaddr"), (3, "storeaddr"),
       (4, "shift"), (5, "bitwise"), (6, "integer_binary_op"),
       (7, "integer_compare"), (8, "float_binary_op"),
       (9, "float_compare_op"), (10, "push_reg"), (11, "pop_reg"),
       (12, "pop"), (13, "stackoffset"), (14, "call"), (15, "return"),
       (16, "jz"), (17, "jnz"), (18, "jmp"), (19, "exit")] }

/-- `LayoutHelper::begin_encode` from `src/freyr/encoder.rs`: look the
layout up by name and start with the pseudo-op in the top 5 bits. -/
def begin_encode (name : String) : Option InstructionEncoder :=
  match (get_all_instruction_layouts.table.find? (fun x => x.fst == name)) with
  | some (_, instruction) =>
    some { layout := instruction,
           current := (instruction.instruction_pseudoop * 2 ^ 27) % 2 ^ 32 }
  | none => none

/-- `LayoutHelper::encode_instruction` from `src/freyr/encoder.rs`:
per-variant chains of `begin_encode`/`encode`/`encode_bytes`/`make`. -/
def encode_instruction : Instruction → Option Nat
  | .Noop => some 0
  | .StackOffset bytes => do
      let e ← begin_encode "stackoffset"
      let e ← e.encode "num bytes" bytes
      return e.make
  | .PushImmediate bytes lshift immediate => do
      let e ← begin_encode "push_imm"
      let e ← e.encode "num bytes" bytes.get_bytes
      let e ← e.encode "lshift" lshift.get_shift_size
      let e ← e.encode_bytes "immediate lsb" [immediate.1, immediate.2]
      return e.make
  | .LoadAddress bytes mode operand => do
      let e ← begin_encode "loadaddr"
      let e ← e.encode "num bytes" bytes.get_bytes
      let e ← e.encode "mode" mode.get_bit_pattern
      let e ← e.encode "operand" operand
      return e.make
  | .StoreAddress bytes mode operand => do
      let e ← begin_encode "storeaddr"
      let e ← e.encode "num bytes" bytes.get_bytes
      let e ← e.encode "mode" mode.get_bit_pattern
      let e ← e.encode "operand" operand
      return e.make
  | .BitShift bytes direction mode sign operand => do
      let e ← begin_encode "shift"
      let e ← e.encode "num bytes" bytes.get_bytes
      let e ← e.encode "direction" direction.get_bit_pattern
      let e ← e.encode "mode" mode.get_bit_pattern
      let e ← e.encode "keep sign" sign.get_bit_pattern
      let e ← e.encode "operand" operand
      return e.make
  | .Bitwise bytes operation sign mode operand => do
      let e ← begin_encode "bitwise"
      let e ← e.encode "num bytes" bytes.get_bytes
      let e ← e.encode "operation" operation.get_bit_pattern
      let e ← e.encode "mode" mode.get_bit_pattern
      let e ← e.encode "sign" sign.get_bit_pattern
      let e ← e.encode_bytes "operand" [operand.1, operand.2]
      return e.make
  | .IntegerArithmetic bytes operation sign mode operand => do
      let e ← begin_encode "integer_binary_op"
      let e ← e.encode "num bytes" bytes.get_bytes
      let e ← e.encode "operation" operation.get_bit_pattern
      let e ← e.encode "sign" sign.get_bit_pattern
      let e ← e.encode "mode" mode.get_bit_pattern
      let e ← e.encode_bytes "operand" [operand.1, operand.2]
      return e.make
  | .IntegerCompare bytes operation sign mode operand => do
      let e ← begin_encode "integer_compare"
      let e ← e.encode "num bytes" bytes.get_bytes
      let e ← e.encode "operation" operation.get_bit_pattern
      let e ← e.encode "sign" sign.get_bit_pattern
      let e ← e.encode "mode" mode.get_bit_pattern
      let e ← e.encode_bytes "operand" [operand.1, operand.2]
      return e.make
  | .FloatArithmetic bytes operation => do
      let e ← begin_encode "float_binary_op"
      let e ← e.encode "num bytes" bytes.get_bytes
      let e ← e.encode "operation" operation.get_bit_pattern
      return e.make
  | .FloatCompare bytes operation => do
      let e ← begin_encode "float_compare_op"
      let e ← e.encode "num bytes" bytes.get_bytes
      let e ← e.encode "operation" operation.get_bit_pattern
      return e.make
  | .PushFromRegister control_register => do
      let e ← begin_encode "push_reg"
      let e ← e.encode "register" control_register.get_bit_pattern
      return e.make
  | .PopIntoRegister control_register => do
      let e ← begin_encode "pop_reg"
      let e ← e.encode "register" control_register.get_bit_pattern
      return e.make
  | .Pop bytes => do
      let e ← begin_encode "pop"
      let e ← e.encode "num bytes" bytes.get_bytes
      return e.make
  | .Call source offset => do
      let e ← begin_encode "call"
      let e ← e.encode "source" source.get_bit_pattern
      let e ← e.encode "offset" offset
      return e.make
  | .JumpIfZero source offset => do
      let e ← begin_encode "jz"
      let e ← e.encode "source" source.get_bit_pattern
      let e ← e.encode "offset" offset
      return e.make
  | .JumpIfNotZero source offset => do
      let e ← begin_encode "jnz"
      let e ← e.encode "source" source.get_bit_pattern
      let e ← e.encode "offset" offset
      return e.make
  | .JumpUnconditional source offset => do
      let e ← begin_encode "jmp"
      let e ← e.encode "source" source.get_bit_pattern
      let e ← e.encode "offset" offset
      return e.make
  | .Exit => do
      let e ← begin_encode "exit"
      return e.make
  | .Return => do
      let e ← begin_encode "return"
      return e.make

/-- Decoder state from `src/freyr/encoder.rs` (`InstructionDecoder`). -/
structure InstructionDecoder where
  layout : BitLayout
  instruction : Nat
deriving DecidableEq

/-- `InstructionDecoder::decode` from `src/freyr/encoder.rs`: match on the
layout's pseudo-op; each arm selects parts by name and rebuilds the
`Instruction`.  `as u8`/`as u16` casts are `% 2 ^ 8` / `% 2 ^ 16`;
`u16::to_le_bytes` splits into (low byte, high byte).  Pseudo-op 0
returns `Noop` without reading any part; an unknown pseudo-op panics
(`none`).  There are no arms for the jump layouts or `exit`. -/
def InstructionDecoder.decode (d : InstructionDecoder) : Option Instruction :=
  let pseudoop := d.layout.instruction_pseudoop
  if pseudoop = 0 then some .Noop else
  if pseudoop = 1 then (do
      let num_bytes_pattern ← d.layout.get_part "num bytes" d.instruction
      let shift_pattern ← d.layout.get_part "lshift" d.instruction
      let immediate_lsb ← d.layout.get_part "immediate lsb" d.instruction
      let bytes ← NumberOfBytes.from_u8 (num_bytes_pattern.1 % 2 ^ 8)
      let lshift ← LeftShift.from_u8 (shift_pattern.1 % 2 ^ 8)
      let imm := immediate_lsb.1 % 2 ^ 16
      return .PushImmediate bytes lshift (imm % 2 ^ 8, imm / 2 ^ 8)) else
  if pseudoop = 13 then (do
      let part ← d.layout.get_part "num bytes" d.instruction
      return .StackOffset part.2) else
  if pseudoop = 2 then (do
      let bytes_pattern ← d.layout.get_part "num bytes" d.instruction
      let mode_pattern ← d.layout.get_part "mode" d.instruction
      let operand ← d.layout.get_part "operand" d.instruction
      let bytes ← NumberOfBytes.from_u8 (bytes_pattern.1 % 2 ^ 8)
      let mode ← LoadStoreAddressingMode.from_u8 (mode_pattern.1 % 2 ^ 8)
      return .LoadAddress bytes mode operand.2) else
  if pseudoop = 3 then (do
      let bytes_pattern ← d.layout.get_part "num bytes" d.instruction
      let mode_pattern ← d.layout.get_part "mode" d.instruction
      let operand ← d.layout.get_part "operand" d.instruction
      let bytes ← NumberOfBytes.from_u8 (bytes_pattern.1 % 2 ^ 8)
      let mode ← LoadStoreAddressingMode.from_u8 (mode_pattern.1 % 2 ^ 8)
      return .StoreAddress bytes mode operand.2) else
  if pseudoop = 4 then (do
      let bytes_pattern ← d.layout.get_part "num bytes" d.instruction
      let direction_pattern ← d.layout.get_part "direction" d.instruction
      let mode_pattern ← d.layout.get_part "mode" d.instruction
      let sign_pattern ← d.layout.get_part "keep sign" d.instruction
      let operand ← d.layout.get_part "operand" d.instruction
      let bytes ← NumberOfBytes.from_u8 (bytes_pattern.1 % 2 ^ 8)
      let mode ← OperationMode.from_u8 (mode_pattern.1 % 2 ^ 8)
      let direction ← ShiftDirection.from_u8 (direction_pattern.1 % 2 ^ 8)
      let sign ← SignFlag.from_u8 (sign_pattern.1 % 2 ^ 8)
      return .BitShift bytes direction mode sign (operand.2 % 2 ^ 8)) else
  if pseudoop = 5 then (do
      let bytes_pattern ← d.layout.get_part "num bytes" d.instruction
      let operation_pattern ← d.layout.get_part "operation" d.instruction
      let sign_pattern ← d.layout.get_part "sign" d.instruction
      let mode_pattern ← d.layout.get_part "mode" d.instruction
      let operand ← d.layout.get_part "operand" d.instruction
      let bytes ← NumberOfBytes.from_u8 (bytes_pattern.1 % 2 ^ 8)
      let mode ← OperationMode.from_u8 (mode_pattern.1 % 2 ^ 8)
      let operation ← BitwiseOperation.from_u8 (operation_pattern.1 % 2 ^ 8)
      let sign ← SignFlag.from_u8 (sign_pattern.1 % 2 ^ 8)
      let v := operand.2 % 2 ^ 16
      return .Bitwise bytes operation sign mode (v % 2 ^ 8, v / 2 ^ 8)) else
  if pseudoop = 6 then (do
      let bytes_pattern ← d.layout.get_part "num bytes" d.instruction
      let operation_pattern ← d.layout.get_part "operation" d.instruction
      let sign_pattern ← d.layout.get_part "sign" d.instruction
      let mode_pattern ← d.layout.get_part "mode" d.instruction
      let operand ← d.layout.get_part "operand" d.instruction
      let bytes ← NumberOfBytes.from_u8 (bytes_pattern.1 % 2 ^ 8)
      let sign ← SignFlag.from_u8 (sign_pattern.1 % 2 ^ 8)
      let mode ← OperationMode.from_u8 (mode_pattern.1 % 2 ^ 8)
      let operation ← ArithmeticOperation.from_u8 (operation_pattern.1 % 2 ^ 8)
      let v := operand.2 % 2 ^ 16
      return .IntegerArithmetic bytes operation sign mode (v % 2 ^ 8, v / 2 ^ 8)) else
  if pseudoop = 7 then (do
      let bytes_pattern ← d.layout.get_part "num bytes" d.instruction
      let operation_pattern ← d.layout.get_part "operation" d.instruction
      let sign_pattern ← d.layout.get_part "sign" d.instruction
      let mode_pattern ← d.layout.get_part "mode" d.instruction
      let operand ← d.layout.get_part "operand" d.instruction
      let bytes ← NumberOfBytes.from_u8 (bytes_pattern.1 % 2 ^ 8)
      let sign ← SignFlag.from_u8 (sign_pattern.1 % 2 ^ 8)
      let mode ← OperationMode.from_u8 (mode_pattern.1 % 2 ^ 8)
      let operation ← CompareOperation.from_u8 (operation_pattern.1 % 2 ^ 8)
      let v := operand.2 % 2 ^ 16
      return .IntegerCompare bytes operation sign mode (v % 2 ^ 8, v / 2 ^ 8)) else
  if pseudoop = 8 then (do
      let bytes_pattern ← d.layout.get_part "num bytes" d.instruction
      let operation_pattern ← d.layout.get_part "operation" d.instruction
      let bytes ← NumberOfBytes.from_u8 (bytes_pattern.1 % 2 ^ 8)
      let operation ← ArithmeticOperation.from_u8 (operation_pattern.1 % 2 ^ 8)
      return .FloatArithmetic bytes operation) else
  if pseudoop = 9 then (do
      let bytes_pattern ← d.layout.get_part "num bytes" d.instruction
      let operation_pattern ← d.layout.get_part "operation" d.instruction
      let bytes ← NumberOfBytes.from_u8 (bytes_pattern.1 % 2 ^ 8)
      let operation ← CompareOperation.from_u8 (operation_pattern.1 % 2 ^ 8)
      return .FloatCompare bytes operation) else
  if pseudoop = 10 then (do
      let register_pattern ← d.layout.get_part "register" d.instruction
      let register ← ControlRegister.from_u8 (register_pattern.1 % 2 ^ 8)
      return .PushFromRegister register) else
  if pseudoop = 11 then (do
      let register_pattern ← d.layout.get_part "register" d.instruction
      let register ← ControlRegister.from_u8 (register_pattern.1 % 2 ^ 8)
      return .PopIntoRegister register) else
  if pseudoop = 12 then (do
      let bytes_pattern ← d.layout.get_part "num bytes" d.instruction
      let bytes ← NumberOfBytes.from_u8 (bytes_pattern.1 % 2 ^ 8)
      return .Pop bytes) else
  if pseudoop = 14 then (do
      let source_pattern ← d.layout.get_part "source" d.instruction
      let offset ← d.layout.get_part "offset" d.instruction
      let source ← AddressJumpAddressSource.from_u8 (source_pattern.1 % 2 ^ 8)
      return .Call source offset.2) else
  if pseudoop = 15 then some .Return else
  none

/-- `LayoutHelper::begin_decode` from `src/freyr/encoder.rs`: the top
5 bits select the layout through the reverse pseudo-op map; an unknown
pseudo-op panics (`none`). -/
def begin_decode (instruction : Nat) : Option InstructionDecoder :=
  let pseudo_op := instruction / 2 ^ 27
  match get_all_instruction_layouts.pseudoops.find? (fun x => x.fst == pseudo_op) with
  | some (_, name) =>
    match get_all_instruction_layouts.table.find? (fun x => x.fst == name) with
    | some (_, layout) => some { layout := layout, instruction := instruction }
    | none => none
  | none => none

/-- Decoding a whole word: `begin_decode` followed by `decode`. -/
def decode_word (instruction : Nat) : Option Instruction :=
  (begin_decode instruction).bind InstructionDecoder.decode

/-- Bit pattern assigned to each `NumberOfBytes` variant in the modelled
layouts (`value` 1/2/4/8 encodes to `pattern` 0/1/2/3). -/
def bytes_pat : NumberOfBytes → Nat
  | .Bytes1 => 0
  | .Bytes2 => 1
  | .Bytes4 => 2
  | .Bytes8 => 3

/-- Bit pattern assigned to each `LeftShift` variant in the modelled
layouts (`value` 0/16/32/48 encodes to `pattern` 0/1/2/3). -/
def lshift_pat : LeftShift → Nat
  | .None => 0
  | .Shift16 => 1
  | .Shift32 => 2
  | .Shift48 => 3

lemma bytes_pat_lt (b : NumberOfBytes) : bytes_pat b < 4 := by
  cases b <;> decide

lemma lshift_pat_lt (l : LeftShift) : lshift_pat l < 4 := by
  cases l <;> decide

lemma lsmode_pat_lt (m : LoadStoreAddressingMode) : m.get_bit_pattern < 4 := by
  cases m <;> decide

lemma dir_pat_lt (d : ShiftDirection) : d.get_bit_pattern < 2 := by
  cases d <;> decide

lemma opmode_pat_lt (m : OperationMode) : m.get_bit_pattern < 2 := by
  cases m <;> decide

lemma sign_pat_lt (s : SignFlag) : s.get_bit_pattern < 2 := by
  cases s <;> decide

lemma bw_pat_lt (op : BitwiseOperation) : op.get_bit_pattern < 3 := by
  cases op <;> decide

lemma arith_pat_lt (op : ArithmeticOperation) : op.get_bit_pattern < 5 := by
  cases op <;> decide

lemma cmp_pat_lt (op : CompareOperation) : op.get_bit_pattern < 6 := by
  cases op <;> decide

lemma reg_pat_lt (r : ControlRegister) : r.get_bit_pattern < 3 := by
  cases r <;> decide

lemma src_pat_lt (s : AddressJumpAddressSource) : s.get_bit_pattern < 2 := by
  cases s <;> decide

lemma bytes_find_value (b : NumberOfBytes) :
    List.find? (fun x => x.value == b.get_bytes)
      ([⟨1, 0⟩, ⟨2, 1⟩, ⟨4, 2⟩, ⟨8, 3⟩] : List Pattern) =
      some ⟨b.get_bytes, bytes_pat b⟩ := by
  cases b <;> rfl

lemma bytes_find_pattern (b : NumberOfBytes) :
    List.find? (fun x => x.pattern == bytes_pat b)
      ([⟨1, 0⟩, ⟨2, 1⟩, ⟨4, 2⟩, ⟨8, 3⟩] : List Pattern) =
      some ⟨b.get_bytes, bytes_pat b⟩ := by
  cases b <;> rfl

lemma bytes_from_u8_get (b : NumberOfBytes) :
    NumberOfBytes.from_u8 (b.get_bytes % 256) = some b := by
  cases b <;> rfl

lemma lshift_find_value (l : LeftShift) :
    List.find? (fun x => x.value == l.get_shift_size)
      ([⟨0, 0⟩, ⟨16, 1⟩, ⟨32, 2⟩, ⟨48, 3⟩] : List Pattern) =
      some ⟨l.get_shift_size, lshift_pat l⟩ := by
  cases l <;> rfl

lemma lshift_find_pattern (l : LeftShift) :
    List.find? (fun x => x.pattern == lshift_pat l)
      ([⟨0, 0⟩, ⟨16, 1⟩, ⟨32, 2⟩, ⟨48, 3⟩] : List Pattern) =
      some ⟨l.get_shift_size, lshift_pat l⟩ := by
  cases l <;> rfl

lemma lshift_from_u8_get (l : LeftShift) :
    LeftShift.from_u8 (l.get_shift_size % 256) = some l := by
  cases l <;> rfl

lemma lsmode_find_value (m : LoadStoreAddressingMode) :
    List.find? (fun x => x.value == m.get_bit_pattern)
      ([⟨0, 0⟩, ⟨1, 1⟩, ⟨2, 2⟩, ⟨3, 3⟩] : List Pattern) =
      some ⟨m.get_bit_pattern, m.get_bit_pattern⟩ := by
  cases m <;> rfl

lemma lsmode_find_pattern (m : LoadStoreAddressingMode) :
    List.find? (fun x => x.pattern == m.get_bit_pattern)
      ([⟨0, 0⟩, ⟨1, 1⟩, ⟨2, 2⟩, ⟨3, 3⟩] : List Pattern) =
      some ⟨m.get_bit_pattern, m.get_bit_pattern⟩ := by
  cases m <;> rfl

lemma lsmode_from_u8_get (m : LoadStoreAddressingMode) :
    LoadStoreAddressingMode.from_u8 (m.get_bit_pattern % 256) = some m := by
  cases m <;> rfl

lemma dir_find_value (d : ShiftDirection) :
    List.find? (fun x => x.value == d.get_bit_pattern)
      ([⟨0, 0⟩, ⟨1, 1⟩] : List Pattern) =
      some ⟨d.get_bit_pattern, d.get_bit_pattern⟩ := by
  cases d <;> rfl

lemma dir_find_pattern (d : ShiftDirection) :
    List.find? (fun x => x.pattern == d.get_bit_pattern)
      ([⟨0, 0⟩, ⟨1, 1⟩] : List Pattern) =
      some ⟨d.get_bit_pattern, d.get_bit_pattern⟩ := by
  cases d <;> rfl

lemma dir_from_u8_get (d : ShiftDirection) :
    ShiftDirection.from_u8 (d.get_bit_pattern % 256) = some d := by
  cases d <;> rfl

lemma opmode_find_value (m : OperationMode) :
    List.find? (fun x => x.value == m.get_bit_pattern)
      ([⟨0, 0⟩, ⟨1, 1⟩] : List Pattern) =
      some ⟨m.get_bit_pattern, m.get_bit_pattern⟩ := by
  cases m <;> rfl

lemma opmode_find_pattern (m : OperationMode) :
    List.find? (fun x => x.pattern == m.get_bit_pattern)
      ([⟨0, 0⟩, ⟨1, 1⟩] : List Pattern) =
      some ⟨m.get_bit_pattern, m.get_bit_pattern⟩ := by
  cases m <;> rfl

lemma opmode_from_u8_get (m : OperationMode) :
    OperationMode.from_u8 (m.get_bit_pattern % 256) = some m := by
  cases m <;> rfl

lemma sign_find_value (s : SignFlag) :
    List.find? (fun x => x.value == s.get_bit_pattern)
      ([⟨0, 0⟩, ⟨1, 1⟩] : List Pattern) =
      some ⟨s.get_bit_pattern, s.get_bit_pattern⟩ := by
  cases s <;> rfl

lemma sign_find_pattern (s : SignFlag) :
    List.find? (fun x => x.pattern == s.get_bit_pattern)
      ([⟨0, 0⟩, ⟨1, 1⟩] : List Pattern) =
      some ⟨s.get_bit_pattern, s.get_bit_pattern⟩ := by
  cases s <;> rfl

lemma sign_from_u8_get (s : SignFlag) :
    SignFlag.from_u8 (s.get_bit_pattern % 256) = some s := by
  cases s <;> rfl

lemma bw_find_value (op : BitwiseOperation) :
    List.find? (fun x => x.value == op.get_bit_pattern)
      ([⟨0, 0⟩, ⟨1, 1⟩, ⟨2, 2⟩] : List Pattern) =
      some ⟨op.get_bit_pattern, op.get_bit_pattern⟩ := by
  cases op <;> rfl

lemma bw_find_pattern (op : BitwiseOperation) :
    List.find? (fun x => x.pattern == op.get_bit_pattern)
      ([⟨0, 0⟩, ⟨1, 1⟩, ⟨2, 2⟩] : List Pattern) =
      some ⟨op.get_bit_pattern, op.get_bit_pattern⟩ := by
  cases op <;> rfl

lemma bw_from_u8_get (op : BitwiseOperation) :
    BitwiseOperation.from_u8 (op.get_bit_pattern % 256) = some op := by
  cases op <;> rfl

lemma arith_find_value (op : ArithmeticOperation) :
    List.find? (fun x => x.value == op.get_bit_pattern)
      ([⟨0, 0⟩, ⟨1, 1⟩, ⟨2, 2⟩, ⟨3, 3⟩, ⟨4, 4⟩] : List Pattern) =
      some ⟨op.get_bit_pattern, op.get_bit_pattern⟩ := by
  cases op <;> rfl

lemma arith_find_pattern (op : ArithmeticOperation) :
    List.find? (fun x => x.pattern == op.get_bit_pattern)
      ([⟨0, 0⟩, ⟨1, 1⟩, ⟨2, 2⟩, ⟨3, 3⟩, ⟨4, 4⟩] : List Pattern) =
      some ⟨op.get_bit_pattern, op.get_bit_pattern⟩ := by
  cases op <;> rfl

lemma arith_from_u8_get (op : ArithmeticOperation) :
    ArithmeticOperation.from_u8 (op.get_bit_pattern % 256) = some op := by
  cases op <;> rfl

lemma cmp_find_value (op : CompareOperation) :
    List.find? (fun x => x.value == op.get_bit_pattern)
      ([⟨0, 0⟩, ⟨1, 1⟩, ⟨2, 2⟩, ⟨3, 3⟩, ⟨4, 4⟩, ⟨5, 5⟩] : List Pattern) =
      some ⟨op.get_bit_pattern, op.get_bit_pattern⟩ := by
  cases op <;> rfl

lemma cmp_find_pattern (op : CompareOperation) :
    List.find? (fun x => x.pattern == op.get_bit_pattern)
      ([⟨0, 0⟩, ⟨1, 1⟩, ⟨2, 2⟩, ⟨3, 3⟩, ⟨4, 4⟩, ⟨5, 5⟩] : List Pattern) =
      some ⟨op.get_bit_pattern, op.get_bit_pattern⟩ := by
  cases op <;> rfl

lemma cmp_from_u8_get (op : CompareOperation) :
    CompareOperation.from_u8 (op.get_bit_pattern % 256) = some op := by
  cases op <;> rfl

lemma reg_find_value (r : ControlRegister) :
    List.find? (fun x => x.value == r.get_bit_pattern)
      ([⟨0, 0⟩, ⟨1, 1⟩, ⟨2, 2⟩] : List Pattern) =
      some ⟨r.get_bit_pattern, r.get_bit_pattern⟩ := by
  cases r <;> rfl

lemma reg_find_pattern (r : ControlRegister) :
    List.find? (fun x => x.pattern == r.get_bit_pattern)
      ([⟨0, 0⟩, ⟨1, 1⟩, ⟨2, 2⟩] : List Pattern) =
      some ⟨r.get_bit_pattern, r.get_bit_pattern⟩ := by
  cases r <;> rfl

lemma reg_from_u8_get (r : ControlRegister) :
    ControlRegister.from_u8 (r.get_bit_pattern % 256) = some r := by
  cases r <;> rfl

lemma src_find_value (s : AddressJumpAddressSource) :
    List.find? (fun x => x.value == s.get_bit_pattern)
      ([⟨0, 0⟩, ⟨1, 1⟩] : List Pattern) =
      some ⟨s.get_bit_pattern, s.get_bit_pattern⟩ := by
  cases s <;> rfl

lemma src_find_pattern (s : AddressJumpAddressSource) :
    List.find? (fun x => x.pattern == s.get_bit_pattern)
      ([⟨0, 0⟩, ⟨1, 1⟩] : List Pattern) =
      some ⟨s.get_bit_pattern, s.get_bit_pattern⟩ := by
  cases s <;> rfl

lemma src_from_u8_get (s : AddressJumpAddressSource) :
    AddressJumpAddressSource.from_u8 (s.get_bit_pattern % 256) = some s := by
  cases s <;> rfl

lemma encode_form_stackoffset (b : Nat) (hb : b < 2 ^ 27) :
    encode_instruction (.StackOffset b) =
      some (13 * 2 ^ 27 + b) := by
  have hbe : begin_encode "stackoffset" = some ⟨stackoffset_layout, 13 * 2 ^ 27⟩ := by rfl
  simp [encode_instruction, hbe, InstructionEncoder.encode, InstructionEncoder.encode_bytes, encode_scan, stackoffset_layout, delete_msb_bits, u32_from_le_bytes, InstructionEncoder.make]
  all_goals omega

lemma decode_form_stackoffset (b : Nat) (hb : b < 2 ^ 27) :
    decode_word (13 * 2 ^ 27 + b) = some (.StackOffset b) := by
  generalize hW : 13 * 2 ^ 27 + b = W
  have hdiv : W / 2 ^ 27 = 13 := by omega
  have hbd : begin_decode W = some ⟨stackoffset_layout, W⟩ := by
    unfold begin_decode
    rw [hdiv]
    rfl
  have hg0 : stackoffset_layout.get_part "num bytes" W = some (b, b) := by
    unfold BitLayout.get_part stackoffset_layout
    simp only [get_part_scan, String.reduceEq, reduceIte]
    rw [show W / 2 ^ (32 - 5 - 27) % 2 ^ 27 = b by omega]
  unfold decode_word
  rw [hbd, Option.some_bind]
  simp only [InstructionDecoder.decode,
    show stackoffset_layout.instruction_pseudoop = 13 from rfl,
    Nat.reduceEqDiff, reduceIte]
  simp [hg0, Prod.ext_iff]

lemma encode_form_push_imm (b : NumberOfBytes) (l : LeftShift) (lo hi : Nat) (hlo : lo < 2 ^ 8) (hhi : hi < 2 ^ 8) :
    encode_instruction (.PushImmediate b l (lo, hi)) =
      some (1 * 2 ^ 27 + bytes_pat b * 2 ^ 25 + lshift_pat l * 2 ^ 23 + (lo + 256 * hi) * 2 ^ 7) := by
  have hp1 := bytes_pat_lt b
  have hp2 := lshift_pat_lt l
  have hbe : begin_encode "push_imm" = some ⟨push_imm_layout, 1 * 2 ^ 27⟩ := by rfl
  simp [encode_instruction, hbe, InstructionEncoder.encode, InstructionEncoder.encode_bytes, encode_scan, push_imm_layout, delete_msb_bits, u32_from_le_bytes, InstructionEncoder.make, bytes_find_value, lshift_find_value]
  all_goals omega

lemma decode_form_push_imm (b : NumberOfBytes) (l : LeftShift) (lo hi : Nat) (hlo : lo < 2 ^ 8) (hhi : hi < 2 ^ 8) :
    decode_word (1 * 2 ^ 27 + bytes_pat b * 2 ^ 25 + lshift_pat l * 2 ^ 23 + (lo + 256 * hi) * 2 ^ 7) = some (.PushImmediate b l (lo, hi)) := by
  have hp1 := bytes_pat_lt b
  have hp2 := lshift_pat_lt l
  generalize hW : 1 * 2 ^ 27 + bytes_pat b * 2 ^ 25 + lshift_pat l * 2 ^ 23 + (lo + 256 * hi) * 2 ^ 7 = W
  have hdiv : W / 2 ^ 27 = 1 := by omega
  have hbd : begin_decode W = some ⟨push_imm_layout, W⟩ := by
    unfold begin_decode
    rw [hdiv]
    rfl
  have hg0 : push_imm_layout.get_part "num bytes" W = some (b.get_bytes, bytes_pat b) := by
    unfold BitLayout.get_part push_imm_layout
    simp only [get_part_scan, String.reduceEq, reduceIte]
    rw [show W / 2 ^ (32 - 5 - 2) % 2 ^ 2 = bytes_pat b by omega]
    rw [bytes_find_pattern]
  have hg1 : push_imm_layout.get_part "lshift" W = some (l.get_shift_size, lshift_pat l) := by
    unfold BitLayout.get_part push_imm_layout
    simp only [get_part_scan, String.reduceEq, reduceIte]
    rw [show W / 2 ^ (32 - (5 + 2) - 2) % 2 ^ 2 = lshift_pat l by omega]
    rw [lshift_find_pattern]
  have hg2 : push_imm_layout.get_part "immediate lsb" W = some (lo + 256 * hi, lo + 256 * hi) := by
    unfold BitLayout.get_part push_imm_layout
    simp only [get_part_scan, String.reduceEq, reduceIte]
    rw [show W / 2 ^ (32 - (5 + 2 + 2) - 16) % 2 ^ 16 = lo + 256 * hi by omega]
  unfold decode_word
  rw [hbd, Option.some_bind]
  simp only [InstructionDecoder.decode,
    show push_imm_layout.instruction_pseudoop = 1 from rfl,
    Nat.reduceEqDiff, reduceIte]
  simp [hg0, hg1, hg2, bytes_from_u8_get, lshift_from_u8_get, Prod.ext_iff]
  all_goals omega

lemma encode_form_loadaddr (b : NumberOfBytes) (m : LoadStoreAddressingMode) (o : Nat) (ho : o < 2 ^ 23) :
    encode_instruction (.LoadAddress b m o) =
      some (2 * 2 ^ 27 + bytes_pat b * 2 ^ 25 + m.get_bit_pattern * 2 ^ 23 + o) := by
  have hp1 := bytes_pat_lt b
  have hp2 := lsmode_pat_lt m
  have hbe : begin_encode "loadaddr" = some ⟨loadaddr_layout, 2 * 2 ^ 27⟩ := by rfl
  simp [encode_instruction, hbe, InstructionEncoder.encode, InstructionEncoder.encode_bytes, encode_scan, loadaddr_layout, delete_msb_bits, u32_from_le_bytes, InstructionEncoder.make, bytes_find_value, lsmode_find_value]
  all_goals omega

lemma decode_form_loadaddr (b : NumberOfBytes) (m : LoadStoreAddressingMode) (o : Nat) (ho : o < 2 ^ 23) :
    decode_word (2 * 2 ^ 27 + bytes_pat b * 2 ^ 25 + m.get_bit_pattern * 2 ^ 23 + o) = some (.LoadAddress b m o) := by
  have hp1 := bytes_pat_lt b
  have hp2 := lsmode_pat_lt m
  generalize hW : 2 * 2 ^ 27 + bytes_pat b * 2 ^ 25 + m.get_bit_pattern * 2 ^ 23 + o = W
  have hdiv : W / 2 ^ 27 = 2 := by omega
  have hbd : begin_decode W = some ⟨loadaddr_layout, W⟩ := by
    unfold begin_decode
    rw [hdiv]
    rfl
  have hg0 : loadaddr_layout.get_part "num bytes" W = some (b.get_bytes, bytes_pat b) := by
    unfold BitLayout.get_part loadaddr_layout
    simp only [get_part_scan, String.reduceEq, reduceIte]
    rw [show W / 2 ^ (32 - 5 - 2) % 2 ^ 2 = bytes_pat b by omega]
    rw [bytes_find_pattern]
  have hg1 : loadaddr_layout.get_part "mode" W = some (m.get_bit_pattern, m.get_bit_pattern) := by
    unfold BitLayout.get_part loadaddr_layout
    simp only [get_part_scan, String.reduceEq, reduceIte]
    rw [show W / 2 ^ (32 - (5 + 2) - 2) % 2 ^ 2 = m.get_bit_pattern by omega]
    rw [lsmode_find_pattern]
  have hg2 : loadaddr_layout.get_part "operand" W = some (o, o) := by
    unfold BitLayout.get_part loadaddr_layout
    simp only [get_part_scan, String.reduceEq, reduceIte]
    rw [show W / 2 ^ (32 - (5 + 2 + 2) - 23) % 2 ^ 23 = o by omega]
  unfold decode_word
  rw [hbd, Option.some_bind]
  simp only [InstructionDecoder.decode,
    show loadaddr_layout.instruction_pseudoop = 2 from rfl,
    Nat.reduceEqDiff, reduceIte]
  simp [hg0, hg1, hg2, bytes_from_u8_get, lsmode_from_u8_get, Prod.ext_iff]

lemma encode_form_storeaddr (b : NumberOfBytes) (m : LoadStoreAddressingMode) (o : Nat) (ho : o < 2 ^ 23) :
    encode_instruction (.StoreAddress b m o) =
      some (3 * 2 ^ 27 + bytes_pat b * 2 ^ 25 + m.get_bit_pattern * 2 ^ 23 + o) := by
  have hp1 := bytes_pat_lt b
  have hp2 := lsmode_pat_lt m
  have hbe : begin_encode "storeaddr" = some ⟨storeaddr_layout, 3 * 2 ^ 27⟩ := by rfl
  simp [encode_instruction, hbe, InstructionEncoder.encode, InstructionEncoder.encode_bytes, encode_scan, storeaddr_layout, delete_msb_bits, u32_from_le_bytes, InstructionEncoder.make, bytes_find_value, lsmode_find_value]
  all_goals omega

lemma decode_form_storeaddr (b : NumberOfBytes) (m : LoadStoreAddressingMode) (o : Nat) (ho : o < 2 ^ 23) :
    decode_word (3 * 2 ^ 27 + bytes_pat b * 2 ^ 25 + m.get_bit_pattern * 2 ^ 23 + o) = some (.StoreAddress b m o) := by
  have hp1 := bytes_pat_lt b
  have hp2 := lsmode_pat_lt m
  generalize hW : 3 * 2 ^ 27 + bytes_pat b * 2 ^ 25 + m.get_bit_pattern * 2 ^ 23 + o = W
  have hdiv : W / 2 ^ 27 = 3 := by omega
  have hbd : begin_decode W = some ⟨storeaddr_layout, W⟩ := by
    unfold begin_decode
    rw [hdiv]
    rfl
  have hg0 : storeaddr_layout.get_part "num bytes" W = some (b.get_bytes, bytes_pat b) := by
    unfold BitLayout.get_part storeaddr_layout
    simp only [get_part_scan, String.reduceEq, reduceIte]
    rw [show W / 2 ^ (32 - 5 - 2) % 2 ^ 2 = bytes_pat b by omega]
    rw [bytes_find_pattern]
  have hg1 : storeaddr_layout.get_part "mode" W = some (m.get_bit_pattern, m.get_bit_pattern) := by
    unfold BitLayout.get_part storeaddr_layout
    simp only [get_part_scan, String.reduceEq, reduceIte]
    rw [show W / 2 ^ (32 - (5 + 2) - 2) % 2 ^ 2 = m.get_bit_pattern by omega]
    rw [lsmode_find_pattern]
  have hg2 : storeaddr_layout.get_part "operand" W = some (o, o) := by
    unfold BitLayout.get_part storeaddr_layout
    simp only [get_part_scan, String.reduceEq, reduceIte]
    rw [show W / 2 ^ (32 - (5 + 2 + 2) - 23) % 2 ^ 23 = o by omega]
  unfold decode_word
  rw [hbd, Option.some_bind]
  simp only [InstructionDecoder.decode,
    show storeaddr_layout.instruction_pseudoop = 3 from rfl,
    Nat.reduceEqDiff, reduceIte]
  simp [hg0, hg1, hg2, bytes_from_u8_get, lsmode_from_u8_get, Prod.ext_iff]

lemma encode_form_shift (b : NumberOfBytes) (d : ShiftDirection) (m : OperationMode) (sg : SignFlag) (o : Nat) (ho : o < 2 ^ 8) :
    encode_instruction (.BitShift b d m sg o) =
      some (4 * 2 ^ 27 + bytes_pat b * 2 ^ 25 + d.get_bit_pattern * 2 ^ 24 + m.get_bit_pattern * 2 ^ 23 + sg.get_bit_pattern * 2 ^ 22 + o * 2 ^ 14) := by
  have hp1 := bytes_pat_lt b
  have hp2 := dir_pat_lt d
  have hp3 := opmode_pat_lt m
  have hp4 := sign_pat_lt sg
  have hbe : begin_encode "shift" = some ⟨shift_layout, 4 * 2 ^ 27⟩ := by rfl
  simp [encode_instruction, hbe, InstructionEncoder.encode, InstructionEncoder.encode_bytes, encode_scan, shift_layout, delete_msb_bits, u32_from_le_bytes, InstructionEncoder.make, bytes_find_value, dir_find_value, opmode_find_value, sign_find_value]
  all_goals omega

lemma decode_form_shift (b : NumberOfBytes) (d : ShiftDirection) (m : OperationMode) (sg : SignFlag) (o : Nat) (ho : o < 2 ^ 8) :
    decode_word (4 * 2 ^ 27 + bytes_pat b * 2 ^ 25 + d.get_bit_pattern * 2 ^ 24 + m.get_bit_pattern * 2 ^ 23 + sg.get_bit_pattern * 2 ^ 22 + o * 2 ^ 14) = some (.BitShift b d m sg o) := by
  have hp1 := bytes_pat_lt b
  have hp2 := dir_pat_lt d
  have hp3 := opmode_pat_lt m
  have hp4 := sign_pat_lt sg
  generalize hW : 4 * 2 ^ 27 + bytes_pat b * 2 ^ 25 + d.get_bit_pattern * 2 ^ 24 + m.get_bit_pattern * 2 ^ 23 + sg.get_bit_pattern * 2 ^ 22 + o * 2 ^ 14 = W
  have hdiv : W / 2 ^ 27 = 4 := by omega
  have hbd : begin_decode W = some ⟨shift_layout, W⟩ := by
    unfold begin_decode
    rw [hdiv]
    rfl
  have hg0 : shift_layout.get_part "num bytes" W = some (b.get_bytes, bytes_pat b) := by
    unfold BitLayout.get_part shift_layout
    simp only [get_part_scan, String.reduceEq, reduceIte]
    rw [show W / 2 ^ (32 - 5 - 2) % 2 ^ 2 = bytes_pat b by omega]
    rw [bytes_find_pattern]
  have hg1 : shift_layout.get_part "direction" W = some (d.get_bit_pattern, d.get_bit_pattern) := by
    unfold BitLayout.get_part shift_layout
    simp only [get_part_scan, String.reduceEq, reduceIte]
    rw [show W / 2 ^ (32 - (5 + 2) - 1) % 2 ^ 1 = d.get_bit_pattern by omega]
    rw [dir_find_pattern]
  have hg2 : shift_layout.get_part "mode" W = some (m.get_bit_pattern, m.get_bit_pattern) := by
    unfold BitLayout.get_part shift_layout
    simp only [get_part_scan, String.reduceEq, reduceIte]
    rw [show W / 2 ^ (32 - (5 + 2 + 1) - 1) % 2 ^ 1 = m.get_bit_pattern by omega]
    rw [opmode_find_pattern]
  have hg3 : shift_layout.get_part "keep sign" W = some (sg.get_bit_pattern, sg.get_bit_pattern) := by
    unfold BitLayout.get_part shift_layout
    simp only [get_part_scan, String.reduceEq, reduceIte]
    rw [show W / 2 ^ (32 - (5 + 2 + 1 + 1) - 1) % 2 ^ 1 = sg.get_bit_pattern by omega]
    rw [sign_find_pattern]
  have hg4 : shift_layout.get_part "operand" W = some (o, o) := by
    unfold BitLayout.get_part shift_layout
    simp only [get_part_scan, String.reduceEq, reduceIte]
    rw [show W / 2 ^ (32 - (5 + 2 + 1 + 1 + 1) - 8) % 2 ^ 8 = o by omega]
  unfold decode_word
  rw [hbd, Option.some_bind]
  simp only [InstructionDecoder.decode,
    show shift_layout.instruction_pseudoop = 4 from rfl,
    Nat.reduceEqDiff, reduceIte]
  simp [hg0, hg1, hg2, hg3, hg4, bytes_from_u8_get, dir_from_u8_get, opmode_from_u8_get, sign_from_u8_get, Prod.ext_iff]
  all_goals omega

lemma encode_form_bitwise (b : NumberOfBytes) (op : BitwiseOperation) (sg : SignFlag) (m : OperationMode) (lo hi : Nat) (hlo : lo < 2 ^ 8) (hhi : hi < 2 ^ 8) :
    encode_instruction (.Bitwise b op sg m (lo, hi)) =
      some (5 * 2 ^ 27 + bytes_pat b * 2 ^ 25 + op.get_bit_pattern * 2 ^ 23 + sg.get_bit_pattern * 2 ^ 22 + m.get_bit_pattern * 2 ^ 21 + (lo + 256 * hi) * 2 ^ 5) := by
  have hp1 := bytes_pat_lt b
  have hp2 := bw_pat_lt op
  have hp3 := sign_pat_lt sg
  have hp4 := opmode_pat_lt m
  have hbe : begin_encode "bitwise" = some ⟨bitwise_layout, 5 * 2 ^ 27⟩ := by rfl
  simp [encode_instruction, hbe, InstructionEncoder.encode, InstructionEncoder.encode_bytes, encode_scan, bitwise_layout, delete_msb_bits, u32_from_le_bytes, InstructionEncoder.make, bytes_find_value, bw_find_value, sign_find_value, opmode_find_value]
  all_goals omega

lemma decode_form_bitwise (b : NumberOfBytes) (op : BitwiseOperation) (sg : SignFlag) (m : OperationMode) (lo hi : Nat) (hlo : lo < 2 ^ 8) (hhi : hi < 2 ^ 8) :
    decode_word (5 * 2 ^ 27 + bytes_pat b * 2 ^ 25 + op.get_bit_pattern * 2 ^ 23 + sg.get_bit_pattern * 2 ^ 22 + m.get_bit_pattern * 2 ^ 21 + (lo + 256 * hi) * 2 ^ 5) = some (.Bitwise b op sg m (lo, hi)) := by
  have hp1 := bytes_pat_lt b
  have hp2 := bw_pat_lt op
  have hp3 := sign_pat_lt sg
  have hp4 := opmode_pat_lt m
  generalize hW : 5 * 2 ^ 27 + bytes_pat b * 2 ^ 25 + op.get_bit_pattern * 2 ^ 23 + sg.get_bit_pattern * 2 ^ 22 + m.get_bit_pattern * 2 ^ 21 + (lo + 256 * hi) * 2 ^ 5 = W
  have hdiv : W / 2 ^ 27 = 5 := by omega
  have hbd : begin_decode W = some ⟨bitwise_layout, W⟩ := by
    unfold begin_decode
    rw [hdiv]
    rfl
  have hg0 : bitwise_layout.get_part "num bytes" W = some (b.get_bytes, bytes_pat b) := by
    unfold BitLayout.get_part bitwise_layout
    simp only [get_part_scan, String.reduceEq, reduceIte]
    rw [show W / 2 ^ (32 - 5 - 2) % 2 ^ 2 = bytes_pat b by omega]
    rw [bytes_find_pattern]
  have hg1 : bitwise_layout.get_part "operation" W = some (op.get_bit_pattern, op.get_bit_pattern) := by
    unfold BitLayout.get_part bitwise_layout
    simp only [get_part_scan, String.reduceEq, reduceIte]
    rw [show W / 2 ^ (32 - (5 + 2) - 2) % 2 ^ 2 = op.get_bit_pattern by omega]
    rw [bw_find_pattern]
  have hg2 : bitwise_layout.get_part "sign" W = some (sg.get_bit_pattern, sg.get_bit_pattern) := by
    unfold BitLayout.get_part bitwise_layout
    simp only [get_part_scan, String.reduceEq, reduceIte]
    rw [show W / 2 ^ (32 - (5 + 2 + 2) - 1) % 2 ^ 1 = sg.get_bit_pattern by omega]
    rw [sign_find_pattern]
  have hg3 : bitwise_layout.get_part "mode" W = some (m.get_bit_pattern, m.get_bit_pattern) := by
    unfold BitLayout.get_part bitwise_layout
    simp only [get_part_scan, String.reduceEq, reduceIte]
    rw [show W / 2 ^ (32 - (5 + 2 + 2 + 1) - 1) % 2 ^ 1 = m.get_bit_pattern by omega]
    rw [opmode_find_pattern]
  have hg4 : bitwise_layout.get_part "operand" W = some (lo + 256 * hi, lo + 256 * hi) := by
    unfold BitLayout.get_part bitwise_layout
    simp only [get_part_scan, String.reduceEq, reduceIte]
    rw [show W / 2 ^ (32 - (5 + 2 + 2 + 1 + 1) - 16) % 2 ^ 16 = lo + 256 * hi by omega]
  unfold decode_word
  rw [hbd, Option.some_bind]
  simp only [InstructionDecoder.decode,
    show bitwise_layout.instruction_pseudoop = 5 from rfl,
    Nat.reduceEqDiff, reduceIte]
  simp [hg0, hg1, hg2, hg3, hg4, bytes_from_u8_get, bw_from_u8_get, sign_from_u8_get, opmode_from_u8_get, Prod.ext_iff]
  all_goals omega

lemma encode_form_integer_binary_op (b : NumberOfBytes) (op : ArithmeticOperation) (sg : SignFlag) (m : OperationMode) (lo hi : Nat) (hlo : lo < 2 ^ 8) (hhi : hi < 2 ^ 8) :
    encode_instruction (.IntegerArithmetic b op sg m (lo, hi)) =
      some (6 * 2 ^ 27 + bytes_pat b * 2 ^ 25 + op.get_bit_pattern * 2 ^ 22 + sg.get_bit_pattern * 2 ^ 21 + m.get_bit_pattern * 2 ^ 20 + (lo + 256 * hi) * 2 ^ 4) := by
  have hp1 := bytes_pat_lt b
  have hp2 := arith_pat_lt op
  have hp3 := sign_pat_lt sg
  have hp4 := opmode_pat_lt m
  have hbe : begin_encode "integer_binary_op" = some ⟨integer_binary_op_layout, 6 * 2 ^ 27⟩ := by rfl
  simp [encode_instruction, hbe, InstructionEncoder.encode, InstructionEncoder.encode_bytes, encode_scan, integer_binary_op_layout, delete_msb_bits, u32_from_le_bytes, InstructionEncoder.make, bytes_find_value, arith_find_value, sign_find_value, opmode_find_value]
  all_goals omega

lemma decode_form_integer_binary_op (b : NumberOfBytes) (op : ArithmeticOperation) (sg : SignFlag) (m : OperationMode) (lo hi : Nat) (hlo : lo < 2 ^ 8) (hhi : hi < 2 ^ 8) :
    decode_word (6 * 2 ^ 27 + bytes_pat b * 2 ^ 25 + op.get_bit_pattern * 2 ^ 22 + sg.get_bit_pattern * 2 ^ 21 + m.get_bit_pattern * 2 ^ 20 + (lo + 256 * hi) * 2 ^ 4) = some (.IntegerArithmetic b op sg m (lo, hi)) := by
  have hp1 := bytes_pat_lt b
  have hp2 := arith_pat_lt op
  have hp3 := sign_pat_lt sg
  have hp4 := opmode_pat_lt m
  generalize hW : 6 * 2 ^ 27 + bytes_pat b * 2 ^ 25 + op.get_bit_pattern * 2 ^ 22 + sg.get_bit_pattern * 2 ^ 21 + m.get_bit_pattern * 2 ^ 20 + (lo + 256 * hi) * 2 ^ 4 = W
  have hdiv : W / 2 ^ 27 = 6 := by omega
  have hbd : begin_decode W = some ⟨integer_binary_op_layout, W⟩ := by
    unfold begin_decode
    rw [hdiv]
    rfl
  have hg0 : integer_binary_op_layout.get_part "num bytes" W = some (b.get_bytes, bytes_pat b) := by
    unfold BitLayout.get_part integer_binary_op_layout
    simp only [get_part_scan, String.reduceEq, reduceIte]
    rw [show W / 2 ^ (32 - 5 - 2) % 2 ^ 2 = bytes_pat b by omega]
    rw [bytes_find_pattern]
  have hg1 : integer_binary_op_layout.get_part "operation" W = some (op.get_bit_pattern, op.get_bit_pattern) := by
    unfold BitLayout.get_part integer_binary_op_layout
    simp only [get_part_scan, String.reduceEq, reduceIte]
    rw [show W / 2 ^ (32 - (5 + 2) - 3) % 2 ^ 3 = op.get_bit_pattern by omega]
    rw [arith_find_pattern]
  have hg2 : integer_binary_op_layout.get_part "sign" W = some (sg.get_bit_pattern, sg.get_bit_pattern) := by
    unfold BitLayout.get_part integer_binary_op_layout
    simp only [get_part_scan, String.reduceEq, reduceIte]
    rw [show W / 2 ^ (32 - (5 + 2 + 3) - 1) % 2 ^ 1 = sg.get_bit_pattern by omega]
    rw [sign_find_pattern]
  have hg3 : integer_binary_op_layout.get_part "mode" W = some (m.get_bit_pattern, m.get_bit_pattern) := by
    unfold BitLayout.get_part integer_binary_op_layout
    simp only [get_part_scan, String.reduceEq, reduceIte]
    rw [show W / 2 ^ (32 - (5 + 2 + 3 + 1) - 1) % 2 ^ 1 = m.get_bit_pattern by omega]
    rw [opmode_find_pattern]
  have hg4 : integer_binary_op_layout.get_part "operand" W = some (lo + 256 * hi, lo + 256 * hi) := by
    unfold BitLayout.get_part integer_binary_op_layout
    simp only [get_part_scan, String.reduceEq, reduceIte]
    rw [show W / 2 ^ (32 - (5 + 2 + 3 + 1 + 1) - 16) % 2 ^ 16 = lo + 256 * hi by omega]
  unfold decode_word
  rw [hbd, Option.some_bind]
  simp only [InstructionDecoder.decode,
    show integer_binary_op_layout.instruction_pseudoop = 6 from rfl,
    Nat.reduceEqDiff, reduceIte]
  simp [hg0, hg1, hg2, hg3, hg4, bytes_from_u8_get, arith_from_u8_get, sign_from_u8_get, opmode_from_u8_get, Prod.ext_iff]
  all_goals omega

lemma encode_form_integer_compare (b : NumberOfBytes) (op : CompareOperation) (sg : SignFlag) (m : OperationMode) (lo hi : Nat) (hlo : lo < 2 ^ 8) (hhi : hi < 2 ^ 8) :
    encode_instruction (.IntegerCompare b op sg m (lo, hi)) =
      some (7 * 2 ^ 27 + bytes_pat b * 2 ^ 25 + op.get_bit_pattern * 2 ^ 22 + sg.get_bit_pattern * 2 ^ 21 + m.get_bit_pattern * 2 ^ 20 + (lo + 256 * hi) * 2 ^ 4) := by
  have hp1 := bytes_pat_lt b
  have hp2 := cmp_pat_lt op
  have hp3 := sign_pat_lt sg
  have hp4 := opmode_pat_lt m
  have hbe : begin_encode "integer_compare" = some ⟨integer_compare_layout, 7 * 2 ^ 27⟩ := by rfl
  simp [encode_instruction, hbe, InstructionEncoder.encode, InstructionEncoder.encode_bytes, encode_scan, integer_compare_layout, delete_msb_bits, u32_from_le_bytes, InstructionEncoder.make, bytes_find_value, cmp_find_value, sign_find_value, opmode_find_value]
  all_goals omega

lemma decode_form_integer_compare (b : NumberOfBytes) (op : CompareOperation) (sg : SignFlag) (m : OperationMode) (lo hi : Nat) (hlo : lo < 2 ^ 8) (hhi : hi < 2 ^ 8) :
    decode_word (7 * 2 ^ 27 + bytes_pat b * 2 ^ 25 + op.get_bit_pattern * 2 ^ 22 + sg.get_bit_pattern * 2 ^ 21 + m.get_bit_pattern * 2 ^ 20 + (lo + 256 * hi) * 2 ^ 4) = some (.IntegerCompare b op sg m (lo, hi)) := by
  have hp1 := bytes_pat_lt b
  have hp2 := cmp_pat_lt op
  have hp3 := sign_pat_lt sg
  have hp4 := opmode_pat_lt m
  generalize hW : 7 * 2 ^ 27 + bytes_pat b * 2 ^ 25 + op.get_bit_pattern * 2 ^ 22 + sg.get_bit_pattern * 2 ^ 21 + m.get_bit_pattern * 2 ^ 20 + (lo + 256 * hi) * 2 ^ 4 = W
  have hdiv : W / 2 ^ 27 = 7 := by omega
  have hbd : begin_decode W = some ⟨integer_compare_layout, W⟩ := by
    unfold begin_decode
    rw [hdiv]
    rfl
  have hg0 : integer_compare_layout.get_part "num bytes" W = some (b.get_bytes, bytes_pat b) := by
    unfold BitLayout.get_part integer_compare_layout
    simp only [get_part_scan, String.reduceEq, reduceIte]
    rw [show W / 2 ^ (32 - 5 - 2) % 2 ^ 2 = bytes_pat b by omega]
    rw [bytes_find_pattern]
  have hg1 : integer_compare_layout.get_part "operation" W = some (op.get_bit_pattern, op.get_bit_pattern) := by
    unfold BitLayout.get_part integer_compare_layout
    simp only [get_part_scan, String.reduceEq, reduceIte]
    rw [show W / 2 ^ (32 - (5 + 2) - 3) % 2 ^ 3 = op.get_bit_pattern by omega]
    rw [cmp_find_pattern]
  have hg2 : integer_compare_layout.get_part "sign" W = some (sg.get_bit_pattern, sg.get_bit_pattern) := by
    unfold BitLayout.get_part integer_compare_layout
    simp only [get_part_scan, String.reduceEq, reduceIte]
    rw [show W / 2 ^ (32 - (5 + 2 + 3) - 1) % 2 ^ 1 = sg.get_bit_pattern by omega]
    rw [sign_find_pattern]
  have hg3 : integer_compare_layout.get_part "mode" W = some (m.get_bit_pattern, m.get_bit_pattern) := by
    unfold BitLayout.get_part integer_compare_layout
    simp only [get_part_scan, String.reduceEq, reduceIte]
    rw [show W / 2 ^ (32 - (5 + 2 + 3 + 1) - 1) % 2 ^ 1 = m.get_bit_pattern by omega]
    rw [opmode_find_pattern]
  have hg4 : integer_compare_layout.get_part "operand" W = some (lo + 256 * hi, lo + 256 * hi) := by
    unfold BitLayout.get_part integer_compare_layout
    simp only [get_part_scan, String.reduceEq, reduceIte]
    rw [show W / 2 ^ (32 - (5 + 2 + 3 + 1 + 1) - 16) % 2 ^ 16 = lo + 256 * hi by omega]
  unfold decode_word
  rw [hbd, Option.some_bind]
  simp only [InstructionDecoder.decode,
    show integer_compare_layout.instruction_pseudoop = 7 from rfl,
    Nat.reduceEqDiff, reduceIte]
  simp [hg0, hg1, hg2, hg3, hg4, bytes_from_u8_get, cmp_from_u8_get, sign_from_u8_get, opmode_from_u8_get, Prod.ext_iff]
  all_goals omega

lemma encode_form_float_binary_op (b : NumberOfBytes) (op : ArithmeticOperation) :
    encode_instruction (.FloatArithmetic b op) =
      some (8 * 2 ^ 27 + bytes_pat b * 2 ^ 25 + op.get_bit_pattern * 2 ^ 22) := by
  have hp1 := bytes_pat_lt b
  have hp2 := arith_pat_lt op
  have hbe : begin_encode "float_binary_op" = some ⟨float_binary_op_layout, 8 * 2 ^ 27⟩ := by rfl
  simp [encode_instruction, hbe, InstructionEncoder.encode, InstructionEncoder.encode_bytes, encode_scan, float_binary_op_layout, delete_msb_bits, u32_from_le_bytes, InstructionEncoder.make, bytes_find_value, arith_find_value]
  all_goals omega

lemma decode_form_float_binary_op (b : NumberOfBytes) (op : ArithmeticOperation) :
    decode_word (8 * 2 ^ 27 + bytes_pat b * 2 ^ 25 + op.get_bit_pattern * 2 ^ 22) = some (.FloatArithmetic b op) := by
  have hp1 := bytes_pat_lt b
  have hp2 := arith_pat_lt op
  generalize hW : 8 * 2 ^ 27 + bytes_pat b * 2 ^ 25 + op.get_bit_pattern * 2 ^ 22 = W
  have hdiv : W / 2 ^ 27 = 8 := by omega
  have hbd : begin_decode W = some ⟨float_binary_op_layout, W⟩ := by
    unfold begin_decode
    rw [hdiv]
    rfl
  have hg0 : float_binary_op_layout.get_part "num bytes" W = some (b.get_bytes, bytes_pat b) := by
    unfold BitLayout.get_part float_binary_op_layout
    simp only [get_part_scan, String.reduceEq, reduceIte]
    rw [show W / 2 ^ (32 - 5 - 2) % 2 ^ 2 = bytes_pat b by omega]
    rw [bytes_find_pattern]
  have hg1 : float_binary_op_layout.get_part "operation" W = some (op.get_bit_pattern, op.get_bit_pattern) := by
    unfold BitLayout.get_part float_binary_op_layout
    simp only [get_part_scan, String.reduceEq, reduceIte]
    rw [show W / 2 ^ (32 - (5 + 2) - 3) % 2 ^ 3 = op.get_bit_pattern by omega]
    rw [arith_find_pattern]
  unfold decode_word
  rw [hbd, Option.some_bind]
  simp only [InstructionDecoder.decode,
    show float_binary_op_layout.instruction_pseudoop = 8 from rfl,
    Nat.reduceEqDiff, reduceIte]
  simp [hg0, hg1, bytes_from_u8_get, arith_from_u8_get, Prod.ext_iff]

lemma encode_form_float_compare_op (b : NumberOfBytes) (op : CompareOperation) :
    encode_instruction (.FloatCompare b op) =
      some (9 * 2 ^ 27 + bytes_pat b * 2 ^ 25 + op.get_bit_pattern * 2 ^ 22) := by
  have hp1 := bytes_pat_lt b
  have hp2 := cmp_pat_lt op
  have hbe : begin_encode "float_compare_op" = some ⟨float_compare_op_layout, 9 * 2 ^ 27⟩ := by rfl
  simp [encode_instruction, hbe, InstructionEncoder.encode, InstructionEncoder.encode_bytes, encode_scan, float_compare_op_layout, delete_msb_bits, u32_from_le_bytes, InstructionEncoder.make, bytes_find_value, cmp_find_value]
  all_goals omega

lemma decode_form_float_compare_op (b : NumberOfBytes) (op : CompareOperation) :
    decode_word (9 * 2 ^ 27 + bytes_pat b * 2 ^ 25 + op.get_bit_pattern * 2 ^ 22) = some (.FloatCompare b op) := by
  have hp1 := bytes_pat_lt b
  have hp2 := cmp_pat_lt op
  generalize hW : 9 * 2 ^ 27 + bytes_pat b * 2 ^ 25 + op.get_bit_pattern * 2 ^ 22 = W
  have hdiv : W / 2 ^ 27 = 9 := by omega
  have hbd : begin_decode W = some ⟨float_compare_op_layout, W⟩ := by
    unfold begin_decode
    rw [hdiv]
    rfl
  have hg0 : float_compare_op_layout.get_part "num bytes" W = some (b.get_bytes, bytes_pat b) := by
    unfold BitLayout.get_part float_compare_op_layout
    simp only [get_part_scan, String.reduceEq, reduceIte]
    rw [show W / 2 ^ (32 - 5 - 2) % 2 ^ 2 = bytes_pat b by omega]
    rw [bytes_find_pattern]
  have hg1 : float_compare_op_layout.get_part "operation" W = some (op.get_bit_pattern, op.get_bit_pattern) := by
    unfold BitLayout.get_part float_compare_op_layout
    simp only [get_part_scan, String.reduceEq, reduceIte]
    rw [show W / 2 ^ (32 - (5 + 2) - 3) % 2 ^ 3 = op.get_bit_pattern by omega]
    rw [cmp_find_pattern]
  unfold decode_word
  rw [hbd, Option.some_bind]
  simp only [InstructionDecoder.decode,
    show float_compare_op_layout.instruction_pseudoop = 9 from rfl,
    Nat.reduceEqDiff, reduceIte]
  simp [hg0, hg1, bytes_from_u8_get, cmp_from_u8_get, Prod.ext_iff]

lemma encode_form_push_reg (r : ControlRegister) :
    encode_instruction (.PushFromRegister r) =
      some (10 * 2 ^ 27 + r.get_bit_pattern * 2 ^ 25) := by
  have hp1 := reg_pat_lt r
  have hbe : begin_encode "push_reg" = some ⟨push_reg_layout, 10 * 2 ^ 27⟩ := by rfl
  simp [encode_instruction, hbe, InstructionEncoder.encode, InstructionEncoder.encode_bytes, encode_scan, push_reg_layout, delete_msb_bits, u32_from_le_bytes, InstructionEncoder.make, reg_find_value]
  all_goals omega

lemma decode_form_push_reg (r : ControlRegister) :
    decode_word (10 * 2 ^ 27 + r.get_bit_pattern * 2 ^ 25) = some (.PushFromRegister r) := by
  have hp1 := reg_pat_lt r
  generalize hW : 10 * 2 ^ 27 + r.get_bit_pattern * 2 ^ 25 = W
  have hdiv : W / 2 ^ 27 = 10 := by omega
  have hbd : begin_decode W = some ⟨push_reg_layout, W⟩ := by
    unfold begin_decode
    rw [hdiv]
    rfl
  have hg0 : push_reg_layout.get_part "register" W = some (r.get_bit_pattern, r.get_bit_pattern) := by
    unfold BitLayout.get_part push_reg_layout
    simp only [get_part_scan, String.reduceEq, reduceIte]
    rw [show W / 2 ^ (32 - 5 - 2) % 2 ^ 2 = r.get_bit_pattern by omega]
    rw [reg_find_pattern]
  unfold decode_word
  rw [hbd, Option.some_bind]
  simp only [InstructionDecoder.decode,
    show push_reg_layout.instruction_pseudoop = 10 from rfl,
    Nat.reduceEqDiff, reduceIte]
  simp [hg0, reg_from_u8_get, Prod.ext_iff]

lemma encode_form_pop_reg (r : ControlRegister) :
    encode_instruction (.PopIntoRegister r) =
      some (11 * 2 ^ 27 + r.get_bit_pattern * 2 ^ 25) := by
  have hp1 := reg_pat_lt r
  have hbe : begin_encode "pop_reg" = some ⟨pop_reg_layout, 11 * 2 ^ 27⟩ := by rfl
  simp [encode_instruction, hbe, InstructionEncoder.encode, InstructionEncoder.encode_bytes, encode_scan, pop_reg_layout, delete_msb_bits, u32_from_le_bytes, InstructionEncoder.make, reg_find_value]
  all_goals omega

lemma decode_form_pop_reg (r : ControlRegister) :
    decode_word (11 * 2 ^ 27 + r.get_bit_pattern * 2 ^ 25) = some (.PopIntoRegister r) := by
  have hp1 := reg_pat_lt r
  generalize hW : 11 * 2 ^ 27 + r.get_bit_pattern * 2 ^ 25 = W
  have hdiv : W / 2 ^ 27 = 11 := by omega
  have hbd : begin_decode W = some ⟨pop_reg_layout, W⟩ := by
    unfold begin_decode
    rw [hdiv]
    rfl
  have hg0 : pop_reg_layout.get_part "register" W = some (r.get_bit_pattern, r.get_bit_pattern) := by
    unfold BitLayout.get_part pop_reg_layout
    simp only [get_part_scan, String.reduceEq, reduceIte]
    rw [show W / 2 ^ (32 - 5 - 2) % 2 ^ 2 = r.get_bit_pattern by omega]
    rw [reg_find_pattern]
  unfold decode_word
  rw [hbd, Option.some_bind]
  simp only [InstructionDecoder.decode,
    show pop_reg_layout.instruction_pseudoop = 11 from rfl,
    Nat.reduceEqDiff, reduceIte]
  simp [hg0, reg_from_u8_get, Prod.ext_iff]

lemma encode_form_pop (b : NumberOfBytes) :
    encode_instruction (.Pop b) =
      some (12 * 2 ^ 27 + bytes_pat b * 2 ^ 25) := by
  have hp1 := bytes_pat_lt b
  have hbe : begin_encode "pop" = some ⟨pop_layout, 12 * 2 ^ 27⟩ := by rfl
  simp [encode_instruction, hbe, InstructionEncoder.encode, InstructionEncoder.encode_bytes, encode_scan, pop_layout, delete_msb_bits, u32_from_le_bytes, InstructionEncoder.make, bytes_find_value]
  all_goals omega

lemma decode_form_pop (b : NumberOfBytes) :
    decode_word (12 * 2 ^ 27 + bytes_pat b * 2 ^ 25) = some (.Pop b) := by
  have hp1 := bytes_pat_lt b
  generalize hW : 12 * 2 ^ 27 + bytes_pat b * 2 ^ 25 = W
  have hdiv : W / 2 ^ 27 = 12 := by omega
  have hbd : begin_decode W = some ⟨pop_layout, W⟩ := by
    unfold begin_decode
    rw [hdiv]
    rfl
  have hg0 : pop_layout.get_part "num bytes" W = some (b.get_bytes, bytes_pat b) := by
    unfold BitLayout.get_part pop_layout
    simp only [get_part_scan, String.reduceEq, reduceIte]
    rw [show W / 2 ^ (32 - 5 - 2) % 2 ^ 2 = bytes_pat b by omega]
    rw [bytes_find_pattern]
  unfold decode_word
  rw [hbd, Option.some_bind]
  simp only [InstructionDecoder.decode,
    show pop_layout.instruction_pseudoop = 12 from rfl,
    Nat.reduceEqDiff, reduceIte]
  simp [hg0, bytes_from_u8_get, Prod.ext_iff]

lemma encode_form_call (s : AddressJumpAddressSource) (o : Nat) (ho : o < 2 ^ 26) :
    encode_instruction (.Call s o) =
      some (14 * 2 ^ 27 + s.get_bit_pattern * 2 ^ 26 + o) := by
  have hp1 := src_pat_lt s
  have hbe : begin_encode "call" = some ⟨call_layout, 14 * 2 ^ 27⟩ := by rfl
  simp [encode_instruction, hbe, InstructionEncoder.encode, InstructionEncoder.encode_bytes, encode_scan, call_layout, delete_msb_bits, u32_from_le_bytes, InstructionEncoder.make, src_find_value]
  all_goals omega

lemma decode_form_call (s : AddressJumpAddressSource) (o : Nat) (ho : o < 2 ^ 26) :
    decode_word (14 * 2 ^ 27 + s.get_bit_pattern * 2 ^ 26 + o) = some (.Call s o) := by
  have hp1 := src_pat_lt s
  generalize hW : 14 * 2 ^ 27 + s.get_bit_pattern * 2 ^ 26 + o = W
  have hdiv : W / 2 ^ 27 = 14 := by omega
  have hbd : begin_decode W = some ⟨call_layout, W⟩ := by
    unfold begin_decode
    rw [hdiv]
    rfl
  have hg0 : call_layout.get_part "source" W = some (s.get_bit_pattern, s.get_bit_pattern) := by
    unfold BitLayout.get_part call_layout
    simp only [get_part_scan, String.reduceEq, reduceIte]
    rw [show W / 2 ^ (32 - 5 - 1) % 2 ^ 1 = s.get_bit_pattern by omega]
    rw [src_find_pattern]
  have hg1 : call_layout.get_part "offset" W = some (o, o) := by
    unfold BitLayout.get_part call_layout
    simp only [get_part_scan, String.reduceEq, reduceIte]
    rw [show W / 2 ^ (32 - (5 + 1) - 26) % 2 ^ 26 = o by omega]
  unfold decode_word
  rw [hbd, Option.some_bind]
  simp only [InstructionDecoder.decode,
    show call_layout.instruction_pseudoop = 14 from rfl,
    Nat.reduceEqDiff, reduceIte]
  simp [hg0, hg1, src_from_u8_get, Prod.ext_iff]

lemma encode_form_return :
    encode_instruction (.Return) =
      some (15 * 2 ^ 27) := by
  have hbe : begin_encode "return" = some ⟨return_layout, 15 * 2 ^ 27⟩ := by rfl
  simp [encode_instruction, hbe, InstructionEncoder.encode, InstructionEncoder.encode_bytes, encode_scan, return_layout, delete_msb_bits, u32_from_le_bytes, InstructionEncoder.make]

lemma decode_form_return :
    decode_word (15 * 2 ^ 27) = some (.Return) := by
  generalize hW : 15 * 2 ^ 27 = W
  have hdiv : W / 2 ^ 27 = 15 := by omega
  have hbd : begin_decode W = some ⟨return_layout, W⟩ := by
    unfold begin_decode
    rw [hdiv]
    rfl
  unfold decode_word
  rw [hbd, Option.some_bind]
  simp only [InstructionDecoder.decode,
    show return_layout.instruction_pseudoop = 15 from rfl,
    Nat.reduceEqDiff, reduceIte]
/-- The legal domain of the codec (claim C1): instructions the encoder
accepts and the decoder can produce.  Enum fields are legal by type;
numeric operands must fit their layout slot, and `[u8; 2]` operands are
byte pairs.  The jump instructions and `Exit` have encode paths but no
decode arm, so the decoder can never produce them. -/
def legal_instruction : Instruction → Bool
  | .Noop => true
  | .StackOffset bytes => decide (bytes < 2 ^ 27)
  | .PushImmediate _ _ (lo, hi) => decide (lo < 2 ^ 8) && decide (hi < 2 ^ 8)
  | .LoadAddress _ _ operand => decide (operand < 2 ^ 23)
  | .StoreAddress _ _ operand => decide (operand < 2 ^ 23)
  | .BitShift _ _ _ _ operand => decide (operand < 2 ^ 8)
  | .Bitwise _ _ _ _ (lo, hi) => decide (lo < 2 ^ 8) && decide (hi < 2 ^ 8)
  | .IntegerArithmetic _ _ _ _ (lo, hi) =>
      decide (lo < 2 ^ 8) && decide (hi < 2 ^ 8)
  | .IntegerCompare _ _ _ _ (lo, hi) =>
      decide (lo < 2 ^ 8) && decide (hi < 2 ^ 8)
  | .FloatArithmetic _ _ => true
  | .FloatCompare _ _ => true
  | .PushFromRegister _ => true
  | .PopIntoRegister _ => true
  | .Pop _ => true
  | .Call _ offset => decide (offset < 2 ^ 26)
  | .JumpIfZero _ _ => false
  | .JumpIfNotZero _ _ => false
  | .JumpUnconditional _ _ => false
  | .Return => true
  | .Exit => false

/-- C1, amended: for every legal instruction `I` (one the encoder accepts
and the decoder can produce), `decode(encode(I)) = I`, and re-encoding
the decoded instruction reproduces the word; hence `encode(decode(W)) = W`
for every `W` in the image of `encode` on legal instructions — but not
for every word the decoder accepts (see the counterexample). -/
theorem freyr_codec_round_trip (I : Instruction)
    (h : legal_instruction I = true) :
    ∃ w, encode_instruction I = some w ∧ decode_word w = some I ∧
      (decode_word w).bind encode_instruction = some w := by
  cases I with
  | Noop => exact ⟨0, rfl, rfl, rfl⟩
  | StackOffset b =>
      simp only [legal_instruction, decide_eq_true_eq] at h
      refine ⟨_, encode_form_stackoffset b h, decode_form_stackoffset b h, ?_⟩
      rw [decode_form_stackoffset b h, Option.some_bind,
        encode_form_stackoffset b h]
  | PushImmediate b l imm =>
      obtain ⟨lo, hi⟩ := imm
      simp only [legal_instruction, Bool.and_eq_true, decide_eq_true_eq] at h
      obtain ⟨hlo, hhi⟩ := h
      refine ⟨_, encode_form_push_imm b l lo hi hlo hhi,
        decode_form_push_imm b l lo hi hlo hhi, ?_⟩
      rw [decode_form_push_imm b l lo hi hlo hhi, Option.some_bind,
        encode_form_push_imm b l lo hi hlo hhi]
  | LoadAddress b m o =>
      simp only [legal_instruction, decide_eq_true_eq] at h
      refine ⟨_, encode_form_loadaddr b m o h, decode_form_loadaddr b m o h, ?_⟩
      rw [decode_form_loadaddr b m o h, Option.some_bind,
        encode_form_loadaddr b m o h]
  | StoreAddress b m o =>
      simp only [legal_instruction, decide_eq_true_eq] at h
      refine ⟨_, encode_form_storeaddr b m o h, decode_form_storeaddr b m o h, ?_⟩
      rw [decode_form_storeaddr b m o h, Option.some_bind,
        encode_form_storeaddr b m o h]
  | BitShift b d m sg o =>
      simp only [legal_instruction, decide_eq_true_eq] at h
      refine ⟨_, encode_form_shift b d m sg o h, decode_form_shift b d m sg o h, ?_⟩
      rw [decode_form_shift b d m sg o h, Option.some_bind,
        encode_form_shift b d m sg o h]
  | Bitwise b op sg m imm =>
      obtain ⟨lo, hi⟩ := imm
      simp only [legal_instruction, Bool.and_eq_true, decide_eq_true_eq] at h
      obtain ⟨hlo, hhi⟩ := h
      refine ⟨_, encode_form_bitwise b op sg m lo hi hlo hhi,
        decode_form_bitwise b op sg m lo hi hlo hhi, ?_⟩
      rw [decode_form_bitwise b op sg m lo hi hlo hhi, Option.some_bind,
        encode_form_bitwise b op sg m lo hi hlo hhi]
  | IntegerArithmetic b op sg m imm =>
      obtain ⟨lo, hi⟩ := imm
      simp only [legal_instruction, Bool.and_eq_true, decide_eq_true_eq] at h
      obtain ⟨hlo, hhi⟩ := h
      refine ⟨_, encode_form_integer_binary_op b op sg m lo hi hlo hhi,
        decode_form_integer_binary_op b op sg m lo hi hlo hhi, ?_⟩
      rw [decode_form_integer_binary_op b op sg m lo hi hlo hhi, Option.some_bind,
        encode_form_integer_binary_op b op sg m lo hi hlo hhi]
  | IntegerCompare b op sg m imm =>
      obtain ⟨lo, hi⟩ := imm
      simp only [legal_instruction, Bool.and_eq_true, decide_eq_true_eq] at h
      obtain ⟨hlo, hhi⟩ := h
      refine ⟨_, encode_form_integer_compare b op sg m lo hi hlo hhi,
        decode_form_integer_compare b op sg m lo hi hlo hhi, ?_⟩
      rw [decode_form_integer_compare b op sg m lo hi hlo hhi, Option.some_bind,
        encode_form_integer_compare b op sg m lo hi hlo hhi]
  | FloatArithmetic b op =>
      refine ⟨_, encode_form_float_binary_op b op,
        decode_form_float_binary_op b op, ?_⟩
      rw [decode_form_float_binary_op b op, Option.some_bind,
        encode_form_float_binary_op b op]
  | FloatCompare b op =>
      refine ⟨_, encode_form_float_compare_op b op,
        decode_form_float_compare_op b op, ?_⟩
      rw [decode_form_float_compare_op b op, Option.some_bind,
        encode_form_float_compare_op b op]
  | PushFromRegister r =>
      refine ⟨_, encode_form_push_reg r, decode_form_push_reg r, ?_⟩
      rw [decode_form_push_reg r, Option.some_bind, encode_form_push_reg r]
  | PopIntoRegister r =>
      refine ⟨_, encode_form_pop_reg r, decode_form_pop_reg r, ?_⟩
      rw [decode_form_pop_reg r, Option.some_bind, encode_form_pop_reg r]
  | Pop b =>
      refine ⟨_, encode_form_pop b, decode_form_pop b, ?_⟩
      rw [decode_form_pop b, Option.some_bind, encode_form_pop b]
  | Call s o =>
      simp only [legal_instruction, decide_eq_true_eq] at h
      refine ⟨_, encode_form_call s o h, decode_form_call s o h, ?_⟩
      rw [decode_form_call s o h, Option.some_bind, encode_form_call s o h]
  | JumpIfZero s o => simp [legal_instruction] at h
  | JumpIfNotZero s o => simp [legal_instruction] at h
  | JumpUnconditional s o => simp [legal_instruction] at h
  | Return =>
      refine ⟨_, encode_form_return, decode_form_return, ?_⟩
      rw [decode_form_return, Option.some_bind, encode_form_return]
  | Exit => simp [legal_instruction] at h

/-- Witness for C1's amended theorem at a concrete legal instruction. -/
theorem freyr_codec_round_trip_witness :
    legal_instruction (.Call .FromOperand 151) = true ∧
    (∃ w, encode_instruction (.Call .FromOperand 151) = some w ∧
      decode_word w = some (.Call .FromOperand 151) ∧
      (decode_word w).bind encode_instruction = some w) :=
  ⟨by rfl, freyr_codec_round_trip (.Call .FromOperand 151) (by rfl)⟩

/-- C1 counterexample: the word 1 is in the codec's domain (the decoder
accepts it, yielding `Noop`), yet `encode(decode(1)) = 0 ≠ 1`, so
`encode(decode(W)) = W` fails on the decoder's full domain. -/
theorem freyr_codec_word_round_trip_fails :
    decode_word 1 = some Instruction.Noop ∧
    (decode_word 1).bind encode_instruction = some 0 ∧ (0 : Nat) ≠ 1 :=
  ⟨rfl, rfl, by decide⟩

/-- `truncate_to_bits(n, 27)` keeps exactly the low 27 bits. -/
lemma truncate_to_bits_27 (n : Nat) : truncate_to_bits n 27 = n % 2 ^ 27 := by
  unfold truncate_to_bits
  omega

/-- C10: for every `u32` offset, `encode_stackoffset(offset)` equals
`(0b01101 << 27) + (offset mod 2^27)`; an offset of `2^27` or more is
silently truncated modulo `2^27` rather than rejected. -/
theorem encode_stackoffset_truncates (offset : Nat) (h : offset < 2 ^ 32) :
    encode_stackoffset offset = 13 * 2 ^ 27 + offset % 2 ^ 27 := by
  unfold encode_stackoffset
  rw [truncate_to_bits_27]

/-- Witness for C10 at a concrete out-of-range offset (`2^27 + 5` is
truncated to 5, not rejected). -/
theorem encode_stackoffset_truncates_witness :
    2 ^ 27 + 5 < 2 ^ 32 ∧
    encode_stackoffset (2 ^ 27 + 5) = 13 * 2 ^ 27 + (2 ^ 27 + 5) % 2 ^ 27 :=
  ⟨by decide, encode_stackoffset_truncates (2 ^ 27 + 5) (by decide)⟩

/-- C7: encoding `StackOffset{bytes=12347}` yields a word whose top 5 bits
are `0b01101` and whose low 27 bits are 12347; decoding that word returns
`StackOffset{bytes=12347}`; and the `stackoffset` layout is a single
unsigned 27-bit immediate operand. -/
theorem stackoffset_12347_round_trip :
    encode_stackoffset 12347 / 2 ^ 27 = 13 ∧
    encode_stackoffset 12347 % 2 ^ 27 = 12347 ∧
    decode_word (encode_stackoffset 12347) =
      some (Instruction.StackOffset 12347) ∧
    stackoffset_layout.layout =
      [⟨"num bytes", 27, PartType.Immediate⟩] :=
  ⟨rfl, rfl, rfl, rfl⟩

/-- C2 counterexample: `InstructionEncoder::encode` masks the value with
`delete_msb_bits(value, bit_offset)` — keeping `32 - bit_offset` low bits,
not the part's length `L` — so a write whose value does not fit in `L`
bits escapes the part's slot.  Concretely, on a layout whose first part
"a" is a 2-bit immediate (slot = bits 25..26), writing value 4 from the
state `current = 2^27` yields `current = 2^28`: bit 27 (outside the slot)
flips, so the write did not affect only the part's 2 bits, and the value
was not masked to 2 bits (4 mod 2^2 = 0 would have left `current`
unchanged). -/
theorem encoder_write_escapes_slot :
    InstructionEncoder.encode
      ⟨⟨1, [⟨"a", 2, PartType.Immediate⟩, ⟨"b", 25, PartType.Immediate⟩]⟩,
        2 ^ 27⟩ "a" 4 =
      some ⟨⟨1, [⟨"a", 2, PartType.Immediate⟩, ⟨"b", 25, PartType.Immediate⟩]⟩,
        2 ^ 28⟩ ∧
    2 ^ 28 / 2 ^ 27 % 2 ≠ 2 ^ 27 / 2 ^ 27 % 2 :=
  ⟨rfl, by decide⟩


/-- The scan of `InstructionEncoder::encode` over a layout `pre ++ p :: post`
reaches the first part named `nm` at bit offset `off` plus the summed
lengths of the earlier parts, and an immediate write whose value fits in
`p.length` bits adds exactly `v * 2 ^ (32 - s - p.length)`: it fills the
part's slot and leaves the bits above (`a`) and below (`c`) unchanged. -/
lemma encode_scan_immediate_slot (pre : List LayoutPart) (p : LayoutPart)
    (post : List LayoutPart) (nm : String) (v a c : Nat) :
    ∀ (off s : Nat),
    p.name = nm →
    (∀ q ∈ pre, q.name ≠ nm) →
    p.layout_type = PartType.Immediate →
    s = off + (pre.map LayoutPart.length).sum →
    s + p.length ≤ 32 →
    a < 2 ^ s →
    v < 2 ^ p.length →
    c < 2 ^ (32 - s - p.length) →
    encode_scan (pre ++ p :: post) off nm v (a * 2 ^ (32 - s) + c) =
      some (a * 2 ^ (32 - s) + v * 2 ^ (32 - s - p.length) + c) := by
  induction pre with
  | nil =>
      intro off s hnm hpre himm hs hsl ha hv hc
      simp only [List.map_nil, List.sum_nil, Nat.add_zero] at hs
      subst hs
      simp only [List.nil_append, encode_scan, hnm, if_true, himm,
        delete_msb_bits]
      have hpow : (0 : Nat) < 2 ^ s := Nat.pos_pow_of_pos s (by decide)
      have e1 : 2 ^ s * 2 ^ (32 - s) = 2 ^ 32 := by
        rw [← Nat.pow_add]
        congr 1
        omega
      have e2 : 2 ^ p.length * 2 ^ (32 - s - p.length) = 2 ^ (32 - s) := by
        rw [← Nat.pow_add]
        congr 1
        omega
      have hvs : v * 2 ^ s < 2 ^ 32 := by
        have h1 : (v + 1) * 2 ^ s ≤ 2 ^ p.length * 2 ^ s :=
          Nat.mul_le_mul_right _ (by omega)
        have h2 : 2 ^ p.length * 2 ^ s ≤ 2 ^ 32 := by
          rw [← Nat.pow_add]
          exact Nat.pow_le_pow_right (by decide) (by omega)
        have h3 := Nat.le_trans h1 h2
        rw [Nat.add_mul, Nat.one_mul] at h3
        omega
      have hA : a * 2 ^ (32 - s) + 2 ^ (32 - s) ≤ 2 ^ 32 := by
        have h1 : (a + 1) * 2 ^ (32 - s) ≤ 2 ^ s * 2 ^ (32 - s) :=
          Nat.mul_le_mul_right _ (by omega)
        rw [e1, Nat.add_mul, Nat.one_mul] at h1
        exact h1
      have hV : v * 2 ^ (32 - s - p.length) + 2 ^ (32 - s - p.length) ≤
          2 ^ (32 - s) := by
        have h1 : (v + 1) * 2 ^ (32 - s - p.length) ≤
            2 ^ p.length * 2 ^ (32 - s - p.length) :=
          Nat.mul_le_mul_right _ (by omega)
        rw [e2, Nat.add_mul, Nat.one_mul] at h1
        exact h1
      rw [Nat.mod_eq_of_lt hvs, Nat.mul_div_cancel v hpow,
        Nat.mod_eq_of_lt (by omega), Nat.mod_eq_of_lt (by omega)]
      congr 1
      ring
  | cons q pre ih =>
      intro off s hnm hpre himm hs hsl ha hv hc
      have hq : q.name ≠ nm := hpre q (List.mem_cons_self q pre)
      simp only [List.cons_append, encode_scan]
      rw [if_neg hq]
      refine ih (off + q.length) s hnm ?_ himm ?_ hsl ha hv hc
      · intro r hr
        exact hpre r (List.mem_cons_of_mem q hr)
      · simp only [List.map_cons, List.sum_cons] at hs
        omega

/-- C2, amended: in `InstructionEncoder::encode` the start bit offset of a
part is 5 plus the summed lengths of all earlier parts in the layout, and
the value is masked with `delete_msb_bits(value, bit_offset)` — i.e. to
the `32 - start_bit` least-significant bits, not to the part's length —
then shifted left by `(32 - start_bit - L)` and added (not OR'd) into
`current`; when the value fits in the part's `L` bits and the slot bits of
`current` are clear, the addition coincides with OR and the write affects
exactly the `L` bits of the part's slot. -/
theorem encoder_write_slot (e : InstructionEncoder) (pre : List LayoutPart)
    (p : LayoutPart) (post : List LayoutPart) (nm : String) (v a c s : Nat)
    (hlay : e.layout.layout = pre ++ p :: post)
    (hnm : p.name = nm)
    (hpre : ∀ q ∈ pre, q.name ≠ nm)
    (himm : p.layout_type = PartType.Immediate)
    (hs : s = 5 + (pre.map LayoutPart.length).sum)
    (hsl : s + p.length ≤ 32)
    (hcur : e.current = a * 2 ^ (32 - s) + c)
    (ha : a < 2 ^ s) (hv : v < 2 ^ p.length)
    (hc : c < 2 ^ (32 - s - p.length)) :
    e.encode nm v =
      some { e with
        current := a * 2 ^ (32 - s) + v * 2 ^ (32 - s - p.length) + c } := by
  unfold InstructionEncoder.encode
  rw [hlay, hcur, encode_scan_immediate_slot pre p post nm v a c 5 s hnm hpre
    himm (by omega) hsl ha hv hc]

/-- Witness for C2's amended theorem: writing 1234 into the 16-bit
"operand" slot of the `bitwise` layout (start bit 11) from the fresh
encoder state. -/
theorem encoder_write_slot_witness :
    InstructionEncoder.encode ⟨bitwise_layout, 5 * 2 ^ 27⟩ "operand" 1234 =
      some ⟨bitwise_layout, 320 * 2 ^ 21 + 1234 * 2 ^ 5 + 0⟩ :=
  encoder_write_slot ⟨bitwise_layout, 5 * 2 ^ 27⟩
    [⟨"num bytes", 2, .BitPattern [⟨1, 0⟩, ⟨2, 1⟩, ⟨4, 2⟩, ⟨8, 3⟩]⟩,
     ⟨"operation", 2, .BitPattern [⟨0, 0⟩, ⟨1, 1⟩, ⟨2, 2⟩]⟩,
     ⟨"sign", 1, .BitPattern [⟨0, 0⟩, ⟨1, 1⟩]⟩,
     ⟨"mode", 1, .BitPattern [⟨0, 0⟩, ⟨1, 1⟩]⟩]
    ⟨"operand", 16, .Immediate⟩ [] "operand" 1234 320 0 11
    rfl rfl (by decide) rfl rfl (by decide) (by norm_num) (by decide)
    (by decide) (by decide)

/-! ## Semantic pipeline: data model

`src/semantic/hir.rs` in the provided sources is an earlier revision of
the HIR than the one `src/semantic/type_inference.rs` and
`src/semantic/undeclared_vars.rs` consume (those use typed trivial
expressions, per-node type slots and metadata fields).  The definitions
below embed the HIR shape those two passes use, reconstructed from their
field accesses and from spec §3; the older `hir.rs` lowering is embedded
separately (namespace `hir0`) for the lowering scenario. -/

/-- Modelled from the spec: the binary/unary operator enum of the lexer
(`src/ast/lexer.rs` is outside the provided sources); only the operators
the spec's scenarios use are listed. -/
inductive Operator where
  | Plus | Minus | Multiply | Divide | Mod
deriving DecidableEq

/-- The NaN-safe ordered float wrapper (`src/commons/float.rs`, outside
the provided sources): embedded as its raw bit payload. -/
structure FloatVal where
  bits : Nat
deriving DecidableEq

/-- `TrivialHIRExpr` from `src/semantic/hir.rs`: a literal, `None`, or a
variable name.  (`i128` literals are embedded as `Int`.) -/
inductive TrivialHIRExpr where
  | IntegerValue (i : Int)
  | FloatValue (f : FloatVal)
  | StringValue (s : String)
  | BooleanValue (b : Bool)
  | Variable (name : String)
  | None
deriving DecidableEq

/-- `HIRType` from `src/semantic/hir.rs`: the type as written in source. -/
inductive HIRType where
  | Simple (name : String)
  | Generic (name : String) (args : List HIRType)
  | Function (args : List HIRType) (ret : HIRType)

/-- `TypeId` from `src/semantic/hir.rs` (`usize`). -/
abbrev TypeId := Nat

/-- `TypeInstance` from `src/semantic/hir.rs`: a fully resolved type. -/
inductive TypeInstance where
  | Simple (id : TypeId)
  | Generic (id : TypeId) (args : List TypeInstance)
  | Function (args : List TypeInstance) (ret : TypeInstance)

/-- `HIRTypeDef` from `src/semantic/hir.rs`: the tri-state type slot. -/
inductive HIRTypeDef where
  | Pending
  | Unresolved (t : HIRType)
  | Resolved (t : TypeInstance)

/-- A typed trivial expression (`TypedTrivialHIRExpr(TrivialHIRExpr,
HIRTypeDef)` of the revision consumed by `type_inference.rs`). -/
structure TypedTrivialHIRExpr where
  expr : TrivialHIRExpr
  typedef : HIRTypeDef

/-- Opaque AST/expression metadata carried through the passes
(`meta`, `meta_ast`, `meta_expr` fields); every pass clones it. -/
abbrev HIRMeta := Option Unit

/-- `HIRExpr` of the revision consumed by `type_inference.rs`: composite
expressions over typed trivial leaves, each with a type slot and
metadata. -/
inductive HIRExpr where
  | Trivial (e : TypedTrivialHIRExpr) (meta : HIRMeta)
  | Cast (e : TypedTrivialHIRExpr) (typedef : HIRTypeDef) (meta : HIRMeta)
  | BinaryOperation (lhs : TypedTrivialHIRExpr) (op : Operator)
      (rhs : TypedTrivialHIRExpr) (typedef : HIRTypeDef) (meta : HIRMeta)
  | FunctionCall (f : TypedTrivialHIRExpr) (args : List TypedTrivialHIRExpr)
      (typedef : HIRTypeDef) (meta : HIRMeta)
  | UnaryExpression (op : Operator) (rhs : TypedTrivialHIRExpr)
      (typedef : HIRTypeDef) (meta : HIRMeta)
  | MemberAccess (obj : TypedTrivialHIRExpr) (name : String)
      (typedef : HIRTypeDef) (meta : HIRMeta)
  | Array (items : List TypedTrivialHIRExpr) (typedef : HIRTypeDef)
      (meta : HIRMeta)

/-- `HIRTypedBoundName` from `src/semantic/hir.rs`. -/
structure HIRTypedBoundName where
  name : String
  typename : HIRTypeDef

/-- `HIR` statements of the revision consumed by `type_inference.rs` and
`undeclared_vars.rs`. -/
inductive HIR where
  | Assign (path : List String) (expression : HIRExpr)
      (meta_ast meta_expr : HIRMeta)
  | Declare (var : String) (typedef : HIRTypeDef) (expression : HIRExpr)
      (meta_ast meta_expr : HIRMeta)
  | DeclareFunction (function_name : String)
      (parameters : List HIRTypedBoundName) (body : List HIR)
      (return_type : HIRTypeDef) (meta : HIRMeta)
  | StructDeclaration (struct_name : String)
      (body : List HIRTypedBoundName) (meta : HIRMeta)
  | FunctionCall (function : TypedTrivialHIRExpr)
      (args : List TypedTrivialHIRExpr) (meta : HIRMeta)
  | If (condition : TypedTrivialHIRExpr) (true_branch false_branch : List HIR)
      (meta : HIRMeta)
  | Return (expr : HIRExpr) (typedef : HIRTypeDef) (meta : HIRMeta)
  | EmptyReturn

/-- Modelled from the spec: `NameRegistry` (`src/semantic/name_registry.rs`
is not among the provided sources).  Spec §3: a mapping from name to
`HIRTypeDef` supporting insertion and shallow merge of another registry.
Embedded as an association list where the most recent insertion wins. -/
def NameRegistry : Type := List (String × HIRTypeDef)

/-- Modelled from the spec: `NameRegistry::new`. -/
def NameRegistry.new : NameRegistry := []

/-- Modelled from the spec: `NameRegistry::get`; a missing name is the
panic `"Could not find a name for {name}"` (message pinned by the
`self_decl_read` test in `src/semantic/analysis.rs`). -/
def NameRegistry.get (r : NameRegistry) (name : String) :
    Except String HIRTypeDef :=
  match r.find? (fun x => x.fst == name) with
  | some x => .ok x.snd
  | none => .error ("Could not find a name for " ++ name)

/-- Modelled from the spec: `NameRegistry::insert` (replaces an existing
binding, as a hash-map insert does). -/
def NameRegistry.insert (r : NameRegistry) (name : String)
    (t : HIRTypeDef) : NameRegistry :=
  (name, t) :: r

/-- Modelled from the spec: `NameRegistry::include`, the shallow merge of
another registry: every binding of the included registry is inserted into
`r`, so for a name present in both the included registry's binding wins,
and among the included registry's own bindings the most recent insertion
keeps priority (a hash-map insert holds only the replacement, so a
binding shadowed inside the included registry can never resurface). -/
def NameRegistry.include (r other : NameRegistry) : NameRegistry :=
  List.append other r

/-- Modelled from the spec: `NameRegistry::get_names`. -/
def NameRegistry.get_names (r : NameRegistry) : List String :=
  r.map (fun x => x.fst)

/-- Modelled from the spec: `GenericParameter(String)` of the type
database (`src/semantic/type_db.rs` is not among the provided sources). -/
abbrev GenericParameter := String

/-- Modelled from the spec: the type database's `Type` enum (named
`DbType` here because `Type` is reserved in Lean): a simple type is
either a free generic parameter (`Either::Left`, `Sum.inl`) or a resolved
type id (`Either::Right`, `Sum.inr`); `Generic` and `Function` nest. -/
inductive DbType where
  | Simple (v : Sum GenericParameter TypeId)
  | Generic (id : TypeId) (args : List DbType)
  | Function (args : List DbType) (ret : DbType)

/-- Modelled from the spec: a method signature record
(`FunctionSignature { name, type_args, args, return_type }`). -/
structure FunctionSignature where
  name : String
  type_args : List GenericParameter
  args : List DbType
  return_type : DbType

/-- Modelled from the spec: a field record (`{ name, type }`). -/
structure TypeRecordField where
  name : String
  field_type : DbType

/-- Modelled from the spec: one record of the type database, with its
registered unary and binary operator tables (operand types to result
type). -/
structure TypeRecord where
  id : TypeId
  name : String
  type_args : List GenericParameter
  fields : List TypeRecordField
  methods : List FunctionSignature
  binary_ops : List (Operator × TypeInstance × TypeInstance)
  unary_ops : List (Operator × TypeInstance)

/-- Modelled from the spec: `TypeRecord::as_type` — a parameterless
record is its simple type id; a parameterised record is its generic type
over its own parameters. -/
def TypeRecord.as_type (r : TypeRecord) : DbType :=
  if r.type_args.isEmpty then
    DbType.Simple (Sum.inr r.id)
  else
    DbType.Generic r.id (r.type_args.map (fun p => DbType.Simple (Sum.inl p)))

/-- Modelled from the spec: the type database — the list of records
created at construction and immutable thereafter. -/
def TypeDatabase : Type := List TypeRecord

/-- Modelled from the spec: `TypeDatabase::find` by id (the id always
exists in the source; a miss is embedded as an error). -/
def TypeDatabase.find (db : TypeDatabase) (id : TypeId) :
    Except String TypeRecord :=
  match db.find? (fun r => r.id == id) with
  | some r => .ok r
  | none => .error "TypeDatabase.find: type id not registered"

/-- Modelled from the spec: `TypeDatabase::expect_find_by_name`. -/
def TypeDatabase.expect_find_by_name (db : TypeDatabase) (name : String) :
    Except String TypeRecord :=
  match db.find? (fun r => r.name == name) with
  | some r => .ok r
  | none => .error ("Type " ++ name ++ " not registered")

mutual

/-- Structural equality test on `TypeInstance` (the `PartialEq` the
operator-table lookup of `type_inference.rs` relies on). -/
def TypeInstance.beq : TypeInstance → TypeInstance → Bool
  | .Simple a, .Simple b => a == b
  | .Generic a xs, .Generic b ys => a == b && TypeInstance.beqList xs ys
  | .Function xs r, .Function ys s =>
      TypeInstance.beqList xs ys && TypeInstance.beq r s
  | _, _ => false

/-- Elementwise `TypeInstance.beq` on argument lists. -/
def TypeInstance.beqList : List TypeInstance → List TypeInstance → Bool
  | [], [] => true
  | x :: xs, y :: ys => TypeInstance.beq x y && TypeInstance.beqList xs ys
  | _, _ => false

end

/-- Modelled from the spec: `TypeDatabase::get_binary_operations` — the
binary operator table registered for the base type of the operand. -/
def TypeDatabase.get_binary_operations (db : TypeDatabase)
    (t : TypeInstance) : List (Operator × TypeInstance × TypeInstance) :=
  match t with
  | .Simple id | .Generic id _ =>
      match db.find? (fun r => r.id == id) with
      | some r => r.binary_ops
      | none => []
  | .Function _ _ => []

/-- Modelled from the spec: `TypeDatabase::get_unary_operations`. -/
def TypeDatabase.get_unary_operations (db : TypeDatabase)
    (t : TypeInstance) : List (Operator × TypeInstance) :=
  match t with
  | .Simple id | .Generic id _ =>
      match db.find? (fun r => r.id == id) with
      | some r => r.unary_ops
      | none => []
  | .Function _ _ => []

/-- Modelled from the spec: `TypeDatabase::new` — the pre-registered
built-in types (`i32`, `u32`, `f32`, `bool`, `str`, `None`, `Void`,
`array`) with their operators; `array<TItem>` carries the method
`__index__(u32) -> TItem` (spelled out in the doc comments of
`type_inference.rs`) and the field `length: u32`. -/
def TypeDatabase.new : TypeDatabase :=
  [⟨0, "i32", [], [], [],
    [(.Plus, .Simple 0, .Simple 0), (.Minus, .Simple 0, .Simple 0),
     (.Multiply, .Simple 0, .Simple 0), (.Divide, .Simple 0, .Simple 0),
     (.Mod, .Simple 0, .Simple 0)],
    [(.Minus, .Simple 0)]⟩,
   ⟨1, "u32", [], [], [],
    [(.Plus, .Simple 1, .Simple 1), (.Minus, .Simple 1, .Simple 1),
     (.Multiply, .Simple 1, .Simple 1), (.Divide, .Simple 1, .Simple 1),
     (.Mod, .Simple 1, .Simple 1)],
    [(.Minus, .Simple 1)]⟩,
   ⟨2, "f32", [], [], [],
    [(.Plus, .Simple 2, .Simple 2), (.Minus, .Simple 2, .Simple 2),
     (.Multiply, .Simple 2, .Simple 2), (.Divide, .Simple 2, .Simple 2)],
    [(.Minus, .Simple 2)]⟩,
   ⟨3, "bool", [], [], [], [], []⟩,
   ⟨4, "str", [], [], [], [(.Plus, .Simple 4, .Simple 4)], []⟩,
   ⟨5, "None", [], [], [], [], []⟩,
   ⟨6, "Void", [], [], [], [], []⟩,
   ⟨7, "array", ["TItem"],
    [⟨"length", DbType.Simple (Sum.inr 1)⟩],
    [⟨"__index__", [], [DbType.Simple (Sum.inr 1)],
      DbType.Simple (Sum.inl "TItem")⟩],
    [], []⟩]

/-- The inner `type_to_instance` of `instantiate_type`
(`src/semantic/type_inference.rs`): only a database type that is a
resolved simple id converts; a free generic parameter, a generic or a
function type is a panic. -/
def type_to_instance (type_data : DbType) : Except String TypeInstance :=
  match type_data with
  | .Simple (Sum.inr id) => .ok (TypeInstance.Simple id)
  | .Simple (Sum.inl _) =>
      .error "as_type() method should not return a generic parameter"
  | .Generic _ _ => .error "Type in MIR is generic, bug in the compiler?"
  | .Function _ _ => .error "Function types should not be recorded in the database"

mutual

/-- `instantiate_type` from `src/semantic/type_inference.rs`: resolve an
`HIRType` as written in source against the type database. -/
def instantiate_type (type_db : TypeDatabase) : HIRType → Except String TypeInstance
  | .Simple type_name => do
      let type_record ← type_db.expect_find_by_name type_name
      type_to_instance type_record.as_type
  | .Generic type_name args => do
      let base ← type_db.expect_find_by_name type_name
      let insts ← instantiate_type_list type_db args
      return TypeInstance.Generic base.id insts
  | .Function args return_type => do
      let args_instances ← instantiate_type_list type_db args
      let ret ← instantiate_type type_db return_type
      return TypeInstance.Function args_instances ret

/-- `instantiate_type` mapped over a type-argument list. -/
def instantiate_type_list (type_db : TypeDatabase) :
    List HIRType → Except String (List TypeInstance)
  | [] => .ok []
  | x :: xs => do
      let i ← instantiate_type type_db x
      let is_ ← instantiate_type_list type_db xs
      return i :: is_

end

/-- `TypeResolution` from `src/semantic/type_inference.rs`: the object
type id and the positional generic arguments of its instance, used for
generic substitution. -/
structure TypeResolution where
  object_type_id : Option TypeId
  object_instance_generic_args : List TypeInstance

mutual

/-- `resolve_type` from `src/semantic/type_inference.rs`: resolve an
element of a (possibly generic) signature against the calling object's
type.  A free generic parameter is substituted by its positional index in
the declaring type's parameter list; substitution is recursive through
`Generic` and `Function` nodes. -/
def resolve_type (type_db : TypeDatabase) :
    DbType → TypeResolution → Except String TypeInstance
  | .Simple (Sum.inr type_id), _ => .ok (TypeInstance.Simple type_id)
  | .Simple (Sum.inl gen_param), res => do
      let obj_id ← match res.object_type_id with
        | some t => Except.ok t
        | none => Except.error "resolve_type: no object type id (unwrap on None)"
      let type_data ← type_db.find obj_id
      let index_of ← match type_data.type_args.findIdx? (fun p => p == gen_param) with
        | some i => Except.ok i
        | none => Except.error "resolve_type: generic parameter not found (unwrap)"
      match res.object_instance_generic_args.get? index_of with
      | some v => .ok v
      | none => .error "resolve_type: positional argument missing (unwrap)"
  | .Generic type_id type_args, res => do
      let all_args ← resolve_type_list type_db type_args
        ⟨some type_id, res.object_instance_generic_args⟩
      return TypeInstance.Generic type_id all_args
  | .Function fun_arg_types return_type, res => do
      let all_args ← resolve_type_list type_db fun_arg_types res
      let ret ← resolve_type type_db return_type res
      return TypeInstance.Function all_args ret

/-- `resolve_type` mapped over a signature's argument list. -/
def resolve_type_list (type_db : TypeDatabase) :
    List DbType → TypeResolution → Except String (List TypeInstance)
  | [], _ => .ok []
  | x :: xs, res => do
      let i ← resolve_type type_db x res
      let is_ ← resolve_type_list type_db xs res
      return i :: is_

end

/-- `HIRExpr::expect_trivial` from `src/semantic/hir.rs` (panic embedded
as an error). -/
def HIRExpr.expect_trivial : HIRExpr → Except String TypedTrivialHIRExpr
  | .Trivial e _ => .ok e
  | _ => .error "Expression is not trivial"

/-- `HIRTypeDef::expect_resolved` used by the array-literal rule. -/
def HIRTypeDef.expect_resolved : HIRTypeDef → Except String TypeInstance
  | .Resolved t => .ok t
  | _ => .error "Expected resolved type"

/-- The two `HIRExpr::Trivial` arms of `compute_and_infer_expr_type`
(`src/semantic/type_inference.rs`): a variable resolves through the scope
registry (re-resolving `Unresolved` and re-stamping `Resolved`; `Pending`
is a fatal bug), a literal gets its built-in type.  All recursive calls
of the source function are on freshly wrapped `HIRExpr::Trivial` values,
so they land in these two arms; the embedding makes that explicit. -/
def infer_trivial (type_db : TypeDatabase) (decls_in_scope : NameRegistry)
    (tt : TypedTrivialHIRExpr) (meta : HIRMeta) :
    Except String (HIRExpr × TypeInstance) :=
  match tt.expr with
  | .Variable var => do
      match ← decls_in_scope.get var with
      | .Pending =>
          .error ("Expr type inference bug: tried to resolve a type of variable "
            ++ var ++ " in expression, but variable still needs type inference.")
      | .Unresolved mir_type => do
          let instantiated ← instantiate_type type_db mir_type
          return (.Trivial ⟨.Variable var, .Resolved instantiated⟩ meta,
            instantiated)
      | .Resolved resolved =>
          return (.Trivial ⟨.Variable var, .Resolved resolved⟩ meta, resolved)
  | trivial_expr => do
      let typename ← match trivial_expr with
        | .IntegerValue _ => Except.ok "i32"
        | .FloatValue _ => Except.ok "f32"
        | .StringValue _ => Except.ok "str"
        | .BooleanValue _ => Except.ok "bool"
        | .None => Except.ok "None"
        | .Variable _ => Except.error "unreachable"
      let type_rec ← type_db.expect_find_by_name typename
      let type_instance := TypeInstance.Simple type_rec.id
      return (.Trivial ⟨trivial_expr, .Resolved type_instance⟩ meta,
        type_instance)

/-- `compute_and_infer_expr_type` from `src/semantic/type_inference.rs`:
returns the rewritten expression with every slot `Resolved` plus the
top-level `TypeInstance`.  Panics are embedded as errors. -/
def compute_and_infer_expr_type (type_db : TypeDatabase)
    (decls_in_scope : NameRegistry) (expression : HIRExpr)
    (type_hint : Option TypeInstance) :
    Except String (HIRExpr × TypeInstance) :=
  match expression with
  | .Trivial tt meta => infer_trivial type_db decls_in_scope tt meta
  | .BinaryOperation lhs op rhs _ meta => do
      let (lhs_expr, lhs_type) ← infer_trivial type_db decls_in_scope lhs meta
      let (rhs_expr, rhs_type) ← infer_trivial type_db decls_in_scope rhs meta
      if let TypeInstance.Function _ _ := lhs_type then
        Except.error "Cannot apply binary operation to function"
      else if let TypeInstance.Function _ _ := rhs_type then
        Except.error "Cannot apply binary operation to function"
      else
        let binary_operators := type_db.get_binary_operations lhs_type
        match binary_operators.find? (fun e =>
            e.fst == op && TypeInstance.beq e.snd.fst rhs_type) with
        | some e => do
            let l ← lhs_expr.expect_trivial
            let r ← rhs_expr.expect_trivial
            return (.BinaryOperation l op r (.Resolved e.snd.snd) meta,
              e.snd.snd)
        | none =>
            .error "Could not find implementation for operator between types"
  | .FunctionCall fun_expr fun_params _ meta => do
      let var ← match fun_expr.expr with
        | .Variable v => Except.ok v
        | _ => Except.error "Function should be bound to a name!"
      match ← decls_in_scope.get var with
      | .Pending =>
          .error ("Expr type inference bug: tried to resolve a type of variable "
            ++ var ++ " in expression, but variable still needs type inference.")
      | .Unresolved _ =>
          .error ("Expr type inference bug: Variable " ++ var
            ++ " still has unresolved type")
      | .Resolved resolved =>
          match resolved with
          | .Simple _ =>
              .error "Tried to resolve the return type of a function call, but the bound variable is not a function!"
          | .Generic _ _ =>
              .error "Tried to resolve the return type of a function call, but the bound variable is a generic type!"
          | .Function params return_type => do
              let fun_params_typed ← fun_params.mapM (fun x => do
                let (e, _) ← infer_trivial type_db decls_in_scope x meta
                e.expect_trivial)
              return (.FunctionCall
                ⟨.Variable var, .Resolved (.Function params return_type)⟩
                fun_params_typed (.Resolved return_type) meta, return_type)
  | .UnaryExpression op rhs _ meta => do
      let (rhs_expr, rhs_type) ← infer_trivial type_db decls_in_scope rhs meta
      if let TypeInstance.Function _ _ := rhs_type then
        Except.error "Cannot apply unary operation to function"
      else
        let unary_operators := type_db.get_unary_operations rhs_type
        match unary_operators.find? (fun e => e.fst == op) with
        | some e => do
            let r ← rhs_expr.expect_trivial
            return (.UnaryExpression op r (.Resolved e.snd) meta, e.snd)
        | none => .error "Could not determine type of expression"
  | .MemberAccess obj name _ meta => do
      let (obj_expr, typeof_obj) ← infer_trivial type_db decls_in_scope obj meta
      let (type_id, generics) ← match typeof_obj with
        | .Generic tid g => Except.ok (tid, g)
        | .Simple tid => Except.ok (tid, ([] : List TypeInstance))
        | .Function _ _ =>
            Except.error "Member access on functions is not defined"
      let type_data ← type_db.find type_id
      match type_data.methods.find? (fun s => s.name == name) with
      | some signature =>
          if signature.type_args.length != 0 then
            .error "Function type args not supported yet"
          else do
            let results ← resolve_type_list type_db signature.args
              ⟨some type_id, generics⟩
            let return_type ← resolve_type type_db signature.return_type
              ⟨some type_id, generics⟩
            let ob ← obj_expr.expect_trivial
            return (.MemberAccess ob name
              (.Resolved (.Function results return_type)) meta,
              .Function results return_type)
      | none =>
          match type_data.fields.find? (fun f => f.name == name) with
          | some field => do
              let resolved ← resolve_type type_db field.field_type
                ⟨some type_id, generics⟩
              let ob ← obj_expr.expect_trivial
              return (.MemberAccess ob name (.Resolved resolved) meta, resolved)
          | none =>
              .error ("Could not find member " ++ name ++ " on type "
                ++ type_data.name)
  | .Array array_items _ meta =>
      if array_items.length == 0 && type_hint.isNone then
        .error "Could not infer type of array declaration: no items were found, no type hint was given"
      else do
        let array_type ← type_db.expect_find_by_name "array"
        if array_items.length > 0 then do
          let items_typed ← array_items.mapM (fun x => do
            let (e, _) ← infer_trivial type_db decls_in_scope x meta
            e.expect_trivial)
          let first ← match items_typed with
            | f :: _ => Except.ok f
            | [] => Except.error "unreachable"
          let ft ← first.typedef.expect_resolved
          let replaced := TypeInstance.Generic array_type.id [ft]
          return (.Array items_typed (.Resolved replaced) meta, replaced)
        else do
          let hint ← match type_hint with
            | some h => Except.ok h
            | none => Except.error "unreachable (unwrap)"
          let replaced := TypeInstance.Generic array_type.id [hint]
          return (.Array [] (.Resolved replaced) meta, replaced)
  | .Cast _ _ _ => .error "Casts have not been figured out yet"

mutual

/-- `infer_types_in_body` from `src/semantic/type_inference.rs`; the
registry threaded through the statements is returned alongside the
rewritten statements (in the source it is the `&mut` parameter). -/
def infer_types_in_body (type_db : TypeDatabase)
    (decls_in_scope : NameRegistry) :
    List HIR → Except String (NameRegistry × List HIR)
  | [] => .ok (decls_in_scope, [])
  | node :: rest => do
      let (decls2, mir_node) ← infer_node type_db decls_in_scope node
      let (decls3, new_mir) ← infer_types_in_body type_db decls2 rest
      return (decls3, mir_node :: new_mir)

/-- One statement of `infer_types_in_body`: `Declare` inserts the
inferred type into the scope registry but emits the declared hint when
one is present; `If` branches are inferred in copies of the registry;
statement-level `FunctionCall` types only the arguments, cloning the
callee; all other statement kinds pass through unchanged. -/
def infer_node (type_db : TypeDatabase) (decls_in_scope : NameRegistry) :
    HIR → Except String (NameRegistry × HIR)
  | .Declare var type_hint expression meta_ast meta_expr => do
      let hint ← match type_hint with
        | .Pending => Except.ok Option.none
        | .Unresolved unresolved_type => do
            let i ← instantiate_type type_db unresolved_type
            Except.ok (some i)
        | .Resolved type_resolved => Except.ok (some type_resolved)
      let (typed_expr, typedef) ←
        compute_and_infer_expr_type type_db decls_in_scope expression hint
      let decls2 := decls_in_scope.insert var (.Resolved typedef)
      let decl_type := hint.getD typedef
      return (decls2,
        .Declare var (.Resolved decl_type) typed_expr meta_ast meta_expr)
  | .Assign path expression meta_ast meta_expr => do
      let (typed_expr, _) ←
        compute_and_infer_expr_type type_db decls_in_scope expression Option.none
      return (decls_in_scope, .Assign path typed_expr meta_ast meta_expr)
  | .FunctionCall function args meta => do
      let args2 ← args.mapM (fun x => do
        let (typed_expr, _) ← compute_and_infer_expr_type type_db decls_in_scope
          (.Trivial x Option.none) Option.none
        typed_expr.expect_trivial)
      return (decls_in_scope, .FunctionCall function args2 meta)
  | .If condition true_branch false_branch meta => do
      let (_, true_inferred) ←
        infer_types_in_body type_db decls_in_scope true_branch
      let (_, false_inferred) ←
        infer_types_in_body type_db decls_in_scope false_branch
      let (condition_expr, _) ← compute_and_infer_expr_type type_db
        decls_in_scope (.Trivial condition Option.none) Option.none
      let c ← condition_expr.expect_trivial
      return (decls_in_scope, .If c true_inferred false_inferred meta)
  | .Return expr _ meta => do
      let (typed_expr, type_def) ←
        compute_and_infer_expr_type type_db decls_in_scope expr Option.none
      return (decls_in_scope, .Return typed_expr (.Resolved type_def) meta)
  | other => .ok (decls_in_scope, other)

end

/-- `infer_variable_types_in_functions` from
`src/semantic/type_inference.rs`: seed the scope with the (original)
parameter bindings, include the globals, then infer the body. -/
def infer_variable_types_in_functions (type_db : TypeDatabase)
    (globals : NameRegistry) (parameters : List HIRTypedBoundName)
    (body : List HIR) : Except String (List HIR) := do
  let decls0 := parameters.foldl
    (fun acc p => acc.insert p.name p.typename) NameRegistry.new
  let decls_in_scope := decls0.include globals
  let (_, new_body) ← infer_types_in_body type_db decls_in_scope body
  return new_body

/-- `infer_function_parameter_types_and_return` from
`src/semantic/type_inference.rs`. -/
def infer_function_parameter_types_and_return (type_db : TypeDatabase)
    (parameters : List HIRTypedBoundName) (return_type : HIRTypeDef) :
    Except String (List HIRTypedBoundName × TypeInstance) := do
  let new_args ← parameters.mapM (fun node => do
    match node.typename with
    | .Pending => Except.error "Function parameters cannot have type inference"
    | .Unresolved mir_type => do
        let resolved ← instantiate_type type_db mir_type
        Except.ok (⟨node.name, .Resolved resolved⟩ : HIRTypedBoundName)
    | .Resolved resolved =>
        Except.ok (⟨node.name, .Resolved resolved⟩ : HIRTypedBoundName))
  let instance_ ← match return_type with
    | .Pending => Except.error "Function parameters cannot have type inference"
    | .Unresolved mir_type => instantiate_type type_db mir_type
    | .Resolved resolved => Except.ok resolved
  return (new_args, instance_)

/-- `infer_types` from `src/semantic/type_inference.rs`: for each
top-level `DeclareFunction`, resolve the signature, install it in the
globals registry (allowing recursion and calls from other functions),
then infer the body; every other top-level node is cloned unchanged.
The updated globals registry is returned (in the source it is `&mut`). -/
def infer_types (globals : NameRegistry) (type_db : TypeDatabase) :
    List HIR → Except String (NameRegistry × List HIR)
  | [] => .ok (globals, [])
  | node :: rest => do
      let (globals2, result) ← match node with
        | .DeclareFunction function_name parameters body return_type meta => do
            let (parameters_resolved, return_type_resolved) ←
              infer_function_parameter_types_and_return type_db parameters
                return_type
            let parameter_types ← parameters_resolved.mapM (fun f =>
              match f.typename with
              | .Resolved r => Except.ok r
              | _ => Except.error "Could not resolve parameter type for function")
            let globals2 := globals.insert function_name
              (.Resolved (.Function parameter_types return_type_resolved))
            let new_body ← infer_variable_types_in_functions type_db globals2
              parameters body
            Except.ok (globals2, HIR.DeclareFunction function_name
              parameters_resolved new_body (.Resolved return_type_resolved) meta)
        | other => Except.ok (globals, other)
      let (globals3, new_mir) ← infer_types globals2 type_db rest
      return (globals3, result :: new_mir)

/-- `check_trivial_expr` from `src/semantic/undeclared_vars.rs`. -/
def check_trivial_expr (declarations_found : List String)
    (function_name : String) (expr : TypedTrivialHIRExpr) :
    Except String Unit :=
  match expr.expr with
  | .Variable v =>
      if declarations_found.contains v then .ok ()
      else .error ("Variable " ++ v ++ " not found, function: " ++ function_name)
  | _ => .ok ()

/-- `check_expr` from `src/semantic/undeclared_vars.rs`: visits every
trivial leaf of a composite expression. -/
def check_expr (declarations_found : List String) (function_name : String) :
    HIRExpr → Except String Unit
  | .Trivial e _ => check_trivial_expr declarations_found function_name e
  | .BinaryOperation lhs _ rhs _ _ => do
      check_trivial_expr declarations_found function_name lhs
      check_trivial_expr declarations_found function_name rhs
  | .FunctionCall func_expr args _ _ => do
      check_trivial_expr declarations_found function_name func_expr
      for fun_arg in args do
        check_trivial_expr declarations_found function_name fun_arg
  | .UnaryExpression _ unary_expr _ _ =>
      check_trivial_expr declarations_found function_name unary_expr
  | .MemberAccess member_expr _ _ _ =>
      check_trivial_expr declarations_found function_name member_expr
  | .Array item_exprs _ _ => do
      for array_item in item_exprs do
        check_trivial_expr declarations_found function_name array_item
  | .Cast expr _ _ =>
      check_trivial_expr declarations_found function_name expr

mutual

/-- `detect_decl_errors_in_body` from `src/semantic/undeclared_vars.rs`
(the `&mut HashSet` of declared names is threaded and returned). -/
def detect_decl_errors_in_body (declarations_found : List String)
    (function_name : String) :
    List HIR → Except String (List String)
  | [] => .ok declarations_found
  | node :: rest => do
      let declarations2 ←
        detect_decl_errors_in_node declarations_found function_name node
      detect_decl_errors_in_body declarations2 function_name rest

/-- One statement of `detect_decl_errors_in_body`: `Declare` inserts the
name *before* checking its initializer expression; `Assign` requires the
head of the path to be declared; `If` branches are checked against copies
of the set. -/
def detect_decl_errors_in_node (declarations_found : List String)
    (function_name : String) : HIR → Except String (List String)
  | .Declare var _ expression _ _ => do
      if declarations_found.contains var then
        .error ("Variable " ++ var ++ " declared more than once")
      else
        let declarations2 := var :: declarations_found
        check_expr declarations2 function_name expression
        return declarations2
  | .Assign path expression _ _ => do
      let first ← match path with
        | p :: _ => Except.ok p
        | [] => Except.error "unwrap on empty path"
      if !(declarations_found.contains first) then
        .error ("Assign to undeclared variable " ++ first)
      else do
        check_expr declarations_found function_name expression
        return declarations_found
  | .FunctionCall function args _ => do
      check_expr declarations_found function_name
        (.Trivial function Option.none)
      for fun_arg in args do
        check_expr declarations_found function_name
          (.Trivial fun_arg Option.none)
      return declarations_found
  | .Return expr _ _ => do
      check_expr declarations_found function_name expr
      return declarations_found
  | .If _ true_branch false_branch _ => do
      let _ ← detect_decl_errors_in_body declarations_found function_name
        true_branch
      let _ ← detect_decl_errors_in_body declarations_found function_name
        false_branch
      return declarations_found
  | _ => .ok declarations_found

end

/-- `detect_declaration_errors_in_function` from
`src/semantic/undeclared_vars.rs`. -/
def detect_declaration_errors_in_function (declarations_found : List String)
    (function_name : String) (parameters : List HIRTypedBoundName)
    (body : List HIR) : Except String Unit := do
  let declarations2 := parameters.foldl
    (fun acc p => p.name :: acc) declarations_found
  let _ ← detect_decl_errors_in_body declarations2 function_name body
  return ()

/-- `detect_undeclared_vars_and_redeclarations` from
`src/semantic/undeclared_vars.rs`: seed the declared-name set with the
globals and every top-level function name, then check each function. -/
def detect_undeclared_vars_and_redeclarations (globals : NameRegistry)
    (mir : List HIR) : Except String Unit := do
  let declarations0 := globals.get_names.foldl
    (fun acc n => n :: acc) []
  let declarations_found := mir.foldl (fun acc node =>
    match node with
    | .DeclareFunction function_name _ _ _ _ => function_name :: acc
    | _ => acc) declarations0
  for node in mir do
    match node with
    | .DeclareFunction function_name parameters body _ _ =>
        detect_declaration_errors_in_function declarations_found
          function_name parameters body
    | _ => pure ()

/-- `HIRTypeDef::expect_unresolved` from `src/semantic/hir.rs`. -/
def HIRTypeDef.expect_unresolved : HIRTypeDef → Except String HIRType
  | .Pending => .error "Function parameters must have a type"
  | .Unresolved e => .ok e
  | .Resolved _ => .error "Cannot deal with resolved types at this point, this is a bug"

/-- Modelled from the spec (spec 4.2): the name-registry builder
(`src/semantic/name_registry.rs` is not among the provided sources)
inserts one entry per top-level `DeclareFunction`, initially as
`Unresolved(Function(params, return))`. -/
def build_name_registry (mir : List HIR) : Except String NameRegistry :=
  mir.foldlM (fun registry node =>
    match node with
    | .DeclareFunction function_name parameters _ return_type _ => do
        let param_types ← parameters.mapM (fun p => p.typename.expect_unresolved)
        let ret ← return_type.expect_unresolved
        return registry.insert function_name
          (.Unresolved (.Function param_types ret))
    | _ => return registry) NameRegistry.new


namespace hir0

/-- The parser's expression AST (`Expr` of `src/ast/parser.rs`, shape per
spec §6 and its uses in `src/semantic/hir.rs`). -/
inductive Expr where
  | IntegerValue (i : Int)
  | FloatValue (f : FloatVal)
  | StringValue (s : String)
  | BooleanValue (b : Bool)
  | None
  | Variable (name : String)
  | Parenthesized (e : Expr)
  | BinaryOperation (lhs : Expr) (op : Operator) (rhs : Expr)
  | FunctionCall (f : Expr) (args : List Expr)
  | IndexAccess (obj : Expr) (index : Expr)
  | MemberAccess (obj : Expr) (name : String)
  | UnaryExpression (op : Operator) (e : Expr)
  | Array (items : List Expr)

/-- `HIRExpr` of the `src/semantic/hir.rs` revision in the sources
(untyped trivial leaves). -/
inductive HIRExpr where
  | Trivial (e : TrivialHIRExpr)
  | Cast (t : HIRTypeDef) (e : TrivialHIRExpr)
  | BinaryOperation (lhs : TrivialHIRExpr) (op : Operator)
      (rhs : TrivialHIRExpr)
  | FunctionCall (f : TrivialHIRExpr) (args : List TrivialHIRExpr)
  | UnaryExpression (op : Operator) (e : TrivialHIRExpr)
  | MemberAccess (obj : TrivialHIRExpr) (name : String)
  | Array (items : List TrivialHIRExpr)

/-- `HIR` of the `src/semantic/hir.rs` revision in the sources. -/
inductive HIR where
  | Assign (path : List String) (expression : HIRExpr)
  | Declare (var : String) (typename : HIRTypeDef) (expression : HIRExpr)
  | DeclareFunction (function_name : String)
      (parameters : List HIRTypedBoundName) (body : List HIR)
      (return_type : HIRTypeDef)
  | StructDeclaration (struct_name : String)
      (body : List HIRTypedBoundName)
  | FunctionCall (function : TrivialHIRExpr) (args : List TrivialHIRExpr)
  | If (cond : List Expr) (branch : List Expr)
  | Return (e : HIRExpr)
  | EmptyReturn

/-- `make_intermediary` from `src/semantic/hir.rs`: the synthetic name
`$<counter>`. -/
def make_intermediary (intermediary : Int) : String :=
  "$" ++ toString intermediary

/-- `get_trivial_hir_expr` from `src/semantic/hir.rs`: `some` for a
literal/`None`/variable, `none` for composites; a `Parenthesized` node is
the panic, embedded as the error. -/
def get_trivial_hir_expr : Expr → Except String (Option TrivialHIRExpr)
  | .IntegerValue i => .ok (some (.IntegerValue i))
  | .FloatValue f => .ok (some (.FloatValue f))
  | .StringValue s => .ok (some (.StringValue s))
  | .BooleanValue b => .ok (some (.BooleanValue b))
  | .None => .ok (some .None)
  | .Variable v => .ok (some (.Variable v))
  | .Parenthesized _ =>
      .error "Sanity check: at this point no parenthesized expr should exist"
  | _ => .ok none

/-- `check_if_reducible` from `src/semantic/hir.rs`: trivial is not
reducible; a composite with all-trivial children is non-reducible; an
`IndexAccess` is always reducible (so it lowers to an `__index__` call);
anything else is reducible. -/
def check_if_reducible (expr : Expr) : Except String Bool := do
  let expr_trivial ← get_trivial_hir_expr expr
  if expr_trivial.isSome then
    return false
  else
    match expr with
    | .FunctionCall function_call_expr args_expr => do
        let f ← get_trivial_hir_expr function_call_expr
        if f.isNone then
          return true
        else do
          let args ← args_expr.mapM get_trivial_hir_expr
          return args.any (fun a => a.isNone)
    | .BinaryOperation left _ right => do
        let l ← get_trivial_hir_expr left
        if l.isNone then
          return true
        else do
          let r ← get_trivial_hir_expr right
          return r.isNone
    | .Array exprs => do
        let args ← exprs.mapM get_trivial_hir_expr
        return args.any (fun a => a.isNone)
    | .IndexAccess _ _ => return true
    | .MemberAccess path_expr _ => do
        let p ← get_trivial_hir_expr path_expr
        return p.isNone
    | .UnaryExpression _ e => do
        let p ← get_trivial_hir_expr e
        return p.isNone
    | _ => return true

mutual

/-- Termination measure for the lowering recursion: `IndexAccess` weighs
enough to cover its desugaring into a `FunctionCall` of an `__index__`
`MemberAccess`. -/
def exprSize : Expr → Nat
  | .IntegerValue _ | .FloatValue _ | .StringValue _ | .BooleanValue _
  | .None | .Variable _ => 1
  | .Parenthesized e => exprSize e + 1
  | .BinaryOperation l _ r => exprSize l + exprSize r + 1
  | .FunctionCall f args => exprSize f + exprListSize args + 1
  | .IndexAccess o i => exprSize o + exprSize i + 4
  | .MemberAccess o _ => exprSize o + 1
  | .UnaryExpression _ e => exprSize e + 1
  | .Array items => exprListSize items + 1

/-- Summed `exprSize` of a list, one extra per element. -/
def exprListSize : List Expr → Nat
  | [] => 0
  | e :: es => exprSize e + 1 + exprListSize es

end

mutual

/-- `reduce_expr_to_hir_declarations` from `src/semantic/hir.rs`: lower an
AST expression to an `HIRExpr`, pushing `Declare` statements with
`Pending` type and fresh `$n` names onto the accumulator for every
non-trivial child; when `is_reducing` the result itself is extracted into
a declaration and replaced by its synthetic variable.  Returns the
resulting expression, the number of intermediaries used, and the new
accumulator.  `IndexAccess(obj, i)` is rewritten to the call
`obj.__index__(i)` and lowered recursively. -/
def reduce_expr_to_hir_declarations (e : Expr) (intermediary : Int)
    (accum : List HIR) (is_reducing : Bool) :
    Except String ((HIRExpr × Int) × List HIR) := do
  match ← get_trivial_hir_expr e with
  | some x => return ((.Trivial x, 0), accum)
  | none =>
    match e with
    | .FunctionCall function_expr args => do
        let reducible ← check_if_reducible (.FunctionCall function_expr args)
        let ((fcall, total_used_interm), intermediary, accum) ←
          if reducible then do
            let ((lhs_expr, num_interm), accum) ←
              reduce_expr_to_hir_declarations function_expr intermediary
                accum true
            let intermediary2 := intermediary + num_interm
            let ((args_exprs, args_interm_used), intermediary3, accum) ←
              reduce_arg_list args intermediary2 accum
            let call_expr ← match lhs_expr with
              | .Trivial name => Except.ok name
              | _ => Except.error "Function call expression: should be bound to a name!"
            Except.ok ((HIRExpr.FunctionCall call_expr args_exprs,
              num_interm + args_interm_used), intermediary3, accum)
          else do
            let args_trivial ← args.mapM (fun x => do
              match ← get_trivial_hir_expr x with
              | some t => Except.ok t
              | none => Except.error "unwrap on non-trivial argument")
            let f ← match ← get_trivial_hir_expr function_expr with
              | some t => Except.ok t
              | none => Except.error "unwrap on non-trivial function"
            Except.ok ((HIRExpr.FunctionCall f args_trivial, 0),
              intermediary, accum)
        if is_reducing then
          let declare := HIR.Declare (make_intermediary intermediary)
            HIRTypeDef.Pending fcall
          return ((.Trivial (.Variable (make_intermediary intermediary)),
            total_used_interm + 1), accum ++ [declare])
        else
          return ((fcall, total_used_interm), accum)
    | .BinaryOperation lhs op rhs => do
        let reducible ← check_if_reducible (.BinaryOperation lhs op rhs)
        let ((binop, total_used_interm), intermediary, accum) ←
          if reducible then do
            let ((lhs_intermediary, lhs_num), accum) ←
              reduce_expr_to_hir_declarations lhs intermediary accum true
            let intermediary2 := intermediary + lhs_num
            let ((rhs_intermediary, rhs_num), accum) ←
              reduce_expr_to_hir_declarations rhs intermediary2 accum true
            let intermediary3 := intermediary2 + rhs_num
            let l ← match lhs_intermediary with
              | .Trivial t => Except.ok t
              | _ => Except.error "Expression is not trivial"
            let r ← match rhs_intermediary with
              | .Trivial t => Except.ok t
              | _ => Except.error "Expression is not trivial"
            Except.ok ((HIRExpr.BinaryOperation l op r, lhs_num + rhs_num),
              intermediary3, accum)
          else do
            let l ← match ← get_trivial_hir_expr lhs with
              | some t => Except.ok t
              | none => Except.error "unwrap on non-trivial lhs"
            let r ← match ← get_trivial_hir_expr rhs with
              | some t => Except.ok t
              | none => Except.error "unwrap on non-trivial rhs"
            Except.ok ((HIRExpr.BinaryOperation l op r, 0), intermediary, accum)
        if is_reducing then
          let declare := HIR.Declare (make_intermediary intermediary)
            HIRTypeDef.Pending binop
          return ((.Trivial (.Variable (make_intermediary intermediary)),
            total_used_interm + 1), accum ++ [declare])
        else
          return ((binop, total_used_interm), accum)
    | .Variable var =>
        return ((.Trivial (.Variable var), 0), accum)
    | .Array arr_exprs => do
        let reducible ← check_if_reducible (.Array arr_exprs)
        let ((array, total_used_interm), intermediary, accum) ←
          if reducible then do
            let ((item_exprs, item_interm), intermediary2, accum) ←
              reduce_arg_list arr_exprs intermediary accum
            Except.ok ((HIRExpr.Array item_exprs, item_interm),
              intermediary2, accum)
          else do
            let items ← arr_exprs.mapM (fun x => do
              match ← get_trivial_hir_expr x with
              | some t => Except.ok t
              | none => Except.error "unwrap on non-trivial item")
            Except.ok ((HIRExpr.Array items, 0), intermediary, accum)
        if is_reducing then
          let declare := HIR.Declare (make_intermediary intermediary)
            HIRTypeDef.Pending array
          return ((.Trivial (.Variable (make_intermediary intermediary)),
            total_used_interm + 1), accum ++ [declare])
        else
          return ((array, total_used_interm), accum)
    | .IndexAccess obj_expr index_expr => do
        let as_fcall := Expr.FunctionCall
          (.MemberAccess obj_expr "__index__") [index_expr]
        reduce_expr_to_hir_declarations as_fcall intermediary accum is_reducing
    | .UnaryExpression op expr => do
        let reducible ← check_if_reducible (.UnaryExpression op expr)
        let ((unaryop, total_used_interm), intermediary, accum) ←
          if reducible then do
            let ((expr_intermediary, num_intern), accum) ←
              reduce_expr_to_hir_declarations expr intermediary accum true
            let intermediary2 := intermediary + num_intern
            let t ← match expr_intermediary with
              | .Trivial t => Except.ok t
              | _ => Except.error "Expression is not trivial"
            Except.ok ((HIRExpr.UnaryExpression op t, num_intern),
              intermediary2, accum)
          else do
            let t ← match ← get_trivial_hir_expr expr with
              | some t => Except.ok t
              | none => Except.error "unwrap on non-trivial operand"
            Except.ok ((HIRExpr.UnaryExpression op t, 0), intermediary, accum)
        if is_reducing then
          let declare := HIR.Declare (make_intermediary intermediary)
            HIRTypeDef.Pending unaryop
          return ((.Trivial (.Variable (make_intermediary intermediary)),
            total_used_interm + 1), accum ++ [declare])
        else
          return ((unaryop, total_used_interm), accum)
    | .MemberAccess obj_expr name => do
        let reducible ← check_if_reducible obj_expr
        let ((member_access, total_used_interm), intermediary, accum) ←
          if reducible then do
            let ((expr_intermediary, num_intern), accum) ←
              reduce_expr_to_hir_declarations obj_expr intermediary accum true
            let intermediary2 := intermediary + num_intern
            let t ← match expr_intermediary with
              | .Trivial t => Except.ok t
              | _ => Except.error "Expression is not trivial"
            Except.ok ((HIRExpr.MemberAccess t name, num_intern),
              intermediary2, accum)
          else do
            let t ← match ← get_trivial_hir_expr obj_expr with
              | some t => Except.ok t
              | none => Except.error "unwrap on non-trivial object"
            Except.ok ((HIRExpr.MemberAccess t name, 0), intermediary, accum)
        if is_reducing then
          let declare := HIR.Declare (make_intermediary intermediary)
            HIRTypeDef.Pending member_access
          return ((.Trivial (.Variable (make_intermediary intermediary)),
            total_used_interm + 1), accum ++ [declare])
        else
          return ((member_access, total_used_interm), accum)
    | _ => .error "Expr to HIR not implemented"
termination_by exprSize e
decreasing_by
  all_goals simp [exprSize, exprListSize]
  all_goals omega

/-- The argument loop of the `FunctionCall`/`Array` arms: reduce each
element to a trivial, threading the counter and accumulator; a
non-trivial reduction result is the source's panic. -/
def reduce_arg_list (args : List Expr) (intermediary : Int)
    (accum : List HIR) :
    Except String ((List TrivialHIRExpr × Int) × Int × List HIR) := do
  match args with
  | [] => return (([], 0), intermediary, accum)
  | node :: rest => do
      let ((arg_expr, arg_num_interm), accum) ←
        reduce_expr_to_hir_declarations node intermediary accum true
      let intermediary2 := intermediary + arg_num_interm
      let arg ← match arg_expr with
        | .Trivial t => Except.ok t
        | _ => Except.error "after reduction, argument should be trivial!"
      let ((rest_exprs, rest_interm), intermediary3, accum) ←
        reduce_arg_list rest intermediary2 accum
      return ((arg :: rest_exprs, arg_num_interm + rest_interm),
        intermediary3, accum)
termination_by exprListSize args
decreasing_by
  all_goals simp [exprSize, exprListSize]
  all_goals omega

end

end hir0

/-- The promoted HIR of `def main(x:i32)->i32: y = y + 1` (spec scenario
4): lowering emits `Assign ["y"] (y + 1)` and first-assignment promotion
rewrites it into a `Declare` with `Pending` type, matching the
`self_decl_read` test of `src/semantic/analysis.rs`. -/
def self_decl_read_mir : List HIR :=
  [.DeclareFunction "main" [⟨"x", .Unresolved (.Simple "i32")⟩]
    [.Declare "y" .Pending
      (.BinaryOperation ⟨.Variable "y", .Pending⟩ .Plus
        ⟨.IntegerValue 1, .Pending⟩ .Pending Option.none)
      Option.none Option.none]
    (.Unresolved (.Simple "i32")) Option.none]

/-- C6 counterexample: on `def main(x:i32)->i32: y = y + 1` the
scope/declaration-checker pass succeeds — it raises no scope-check error
at all — because the promoted `Declare` inserts `y` before its
initializer is checked.  The pipeline's failure therefore does not come
from the scope checker. -/
theorem self_decl_read_passes_scope_check :
    (build_name_registry self_decl_read_mir >>= fun globals =>
      detect_undeclared_vars_and_redeclarations globals self_decl_read_mir) =
      Except.ok () := rfl

/-- C6, amended: on `def main(x:i32)->i32: y = y + 1` the analysis
pipeline fails with exactly the message "Could not find a name for y",
raised by the name-registry lookup during type inference (not by the
scope checker, which accepts the program). -/
theorem self_decl_read_fails_in_inference :
    (build_name_registry self_decl_read_mir >>= fun globals =>
      infer_types globals TypeDatabase.new self_decl_read_mir) =
      Except.error "Could not find a name for y" := rfl

/-- C8: in the scope/declaration checker, `Declare{var, expression}`
inserts `var` into the declared-name set before `expression` is checked,
so an initializer that reads the very variable being declared (the
promoted form of `y = y + 1`) passes this pass, the set gaining `var`. -/
theorem declare_inserts_name_before_checking_initializer
    (decls : List String) (fname var : String) (op : Operator) (n : Int)
    (t slot : HIRTypeDef) (ma me : HIRMeta)
    (h : decls.contains var = false) :
    detect_decl_errors_in_node decls fname
      (.Declare var t
        (.BinaryOperation ⟨.Variable var, slot⟩ op
          ⟨.IntegerValue n, slot⟩ slot Option.none) ma me) =
      Except.ok (var :: decls) := by
  have h' : var ∉ decls := by simpa using h
  simp [detect_decl_errors_in_node, h', check_expr, check_trivial_expr,
    bind, Except.bind, pure, Except.pure]

/-- Witness for C8 at the concrete promoted `y = y + 1` in `main`. -/
theorem declare_inserts_name_before_checking_initializer_witness :
    (["x", "main"] : List String).contains "y" = false ∧
    detect_decl_errors_in_node ["x", "main"] "main"
      (.Declare "y" .Pending
        (.BinaryOperation ⟨.Variable "y", .Pending⟩ .Plus
          ⟨.IntegerValue 1, .Pending⟩ .Pending Option.none)
        Option.none Option.none) =
      Except.ok ["y", "x", "main"] :=
  ⟨by decide, declare_inserts_name_before_checking_initializer
    ["x", "main"] "main" "y" .Plus 1 .Pending .Pending Option.none Option.none
    (by decide)⟩

/-- C9: a `Declare` with an explicit declared type emits the declaration
carrying the declared type unchanged, while the scope registry used for
subsequent statements records the expression's inferred type; no
agreement between the two is checked (nothing relates `Tdecl` and
`Texpr`). -/
theorem declare_emits_declared_type_registry_records_inferred
    (db : TypeDatabase) (reg : NameRegistry) (var : String) (t : HIRType)
    (e e' : HIRExpr) (ma me : HIRMeta) (Tdecl Texpr : TypeInstance)
    (hinst : instantiate_type db t = .ok Tdecl)
    (hexpr : compute_and_infer_expr_type db reg e (some Tdecl) =
      .ok (e', Texpr)) :
    infer_node db reg (.Declare var (.Unresolved t) e ma me) =
      .ok (reg.insert var (.Resolved Texpr),
        .Declare var (.Resolved Tdecl) e' ma me) ∧
    (reg.insert var (.Resolved Texpr)).get var = .ok (.Resolved Texpr) := by
  constructor
  · simp [infer_node, hinst, hexpr, bind, Except.bind, pure, Except.pure]
  · simp [NameRegistry.get, NameRegistry.insert, List.find?]

/-- Witness for C9: `x : str = 1` — declared type `str` (id 4) is kept in
the emitted slot, the registry records the inferred `i32` (id 0), and no
error is raised although the two differ. -/
theorem declare_emits_declared_type_witness :
    instantiate_type TypeDatabase.new (.Simple "str") = .ok (.Simple 4) ∧
    compute_and_infer_expr_type TypeDatabase.new NameRegistry.new
      (.Trivial ⟨.IntegerValue 1, .Pending⟩ Option.none)
      (some (.Simple 4)) =
      .ok (.Trivial ⟨.IntegerValue 1, .Resolved (.Simple 0)⟩ Option.none,
        .Simple 0) ∧
    (infer_node TypeDatabase.new NameRegistry.new
      (.Declare "x" (.Unresolved (.Simple "str"))
        (.Trivial ⟨.IntegerValue 1, .Pending⟩ Option.none)
        Option.none Option.none) =
      .ok (NameRegistry.new.insert "x" (.Resolved (.Simple 0)),
        .Declare "x" (.Resolved (.Simple 4))
          (.Trivial ⟨.IntegerValue 1, .Resolved (.Simple 0)⟩ Option.none)
          Option.none Option.none) ∧
    (NameRegistry.new.insert "x" (.Resolved (.Simple 0))).get "x" =
      .ok (.Resolved (.Simple 0))) :=
  ⟨rfl, rfl, declare_emits_declared_type_registry_records_inferred
    TypeDatabase.new NameRegistry.new "x" (.Simple "str")
    (.Trivial ⟨.IntegerValue 1, .Pending⟩ Option.none)
    (.Trivial ⟨.IntegerValue 1, .Resolved (.Simple 0)⟩ Option.none)
    Option.none Option.none (.Simple 4) (.Simple 0) rfl rfl⟩

/-- The promoted HIR of `def main(args: array<str>): my_var = args[0]`
restricted to the two statements `args[0]` lowers to (spec scenario 3 and
the `infer_generic_type_as_str` test of `src/semantic/analysis.rs`). -/
def array_index_mir : List HIR :=
  [.DeclareFunction "main"
    [⟨"args", .Unresolved (.Generic "array" [.Simple "str"])⟩]
    [.Declare "$0" .Pending
      (.MemberAccess ⟨.Variable "args", .Pending⟩ "__index__" .Pending
        Option.none)
      Option.none Option.none,
     .Declare "my_var" .Pending
      (.FunctionCall ⟨.Variable "$0", .Pending⟩ [⟨.IntegerValue 0, .Pending⟩]
        .Pending Option.none)
      Option.none Option.none]
    (.Unresolved (.Simple "Void")) Option.none]

/-- C3: lowering `args[0]` produces a call of `args.__index__` with the
single argument 0 (extracted through the synthetic `$0`), and for
`args : array<str>` inference types the member access `args.__index__` as
`Function([u32], str)` (ids 1 and 4) by substituting the generic
parameter `TItem` with the positional actual `str`, so the call's
inferred result type is `str`. -/
theorem array_index_lowering_and_inference :
    hir0.reduce_expr_to_hir_declarations
      (.IndexAccess (.Variable "args") (.IntegerValue 0)) 0 [] false =
      .ok ((.FunctionCall (.Variable "$0") [.IntegerValue 0], 1),
        [.Declare "$0" .Pending
          (.MemberAccess (.Variable "args") "__index__")]) ∧
    infer_types NameRegistry.new TypeDatabase.new array_index_mir =
      .ok (NameRegistry.new.insert "main"
          (.Resolved (.Function [.Generic 7 [.Simple 4]] (.Simple 6))),
        [.DeclareFunction "main"
          [⟨"args", .Resolved (.Generic 7 [.Simple 4])⟩]
          [.Declare "$0" (.Resolved (.Function [.Simple 1] (.Simple 4)))
            (.MemberAccess
              ⟨.Variable "args", .Resolved (.Generic 7 [.Simple 4])⟩
              "__index__" (.Resolved (.Function [.Simple 1] (.Simple 4)))
              Option.none)
            Option.none Option.none,
           .Declare "my_var" (.Resolved (.Simple 4))
            (.FunctionCall
              ⟨.Variable "$0", .Resolved (.Function [.Simple 1] (.Simple 4))⟩
              [⟨.IntegerValue 0, .Resolved (.Simple 0)⟩]
              (.Resolved (.Simple 4)) Option.none)
            Option.none Option.none]
          (.Resolved (.Simple 6)) Option.none]) := by
  constructor
  · simp [hir0.reduce_expr_to_hir_declarations, hir0.reduce_arg_list,
      hir0.get_trivial_hir_expr, hir0.check_if_reducible,
      hir0.make_intermediary, bind, Except.bind, pure, Except.pure]
    rfl
  · rfl

/-- A unit with a forward reference: `A`'s body calls `B`, declared
later. -/
def forward_reference_mir : List HIR :=
  [.DeclareFunction "A" []
    [.Return (.FunctionCall ⟨.Variable "B", .Pending⟩ [] .Pending Option.none)
      .Pending Option.none]
    (.Unresolved (.Simple "i32")) Option.none,
   .DeclareFunction "B" []
    [.Return (.Trivial ⟨.IntegerValue 1, .Pending⟩ Option.none)
      .Pending Option.none]
    (.Unresolved (.Simple "i32")) Option.none]

/-- C5 counterexample: a forward reference does not resolve.  With the
globals registry built by the name-registry builder (`B` present but
still `Unresolved`), inferring `A`'s body hits the `Unresolved` arm of
the function-call rule and the pipeline fails, because `B`'s resolved
signature is only installed when the loop later reaches `B`. -/
theorem forward_reference_fails :
    (build_name_registry forward_reference_mir >>= fun globals =>
      infer_types globals TypeDatabase.new forward_reference_mir) =
      Except.error
        "Expr type inference bug: Variable B still has unresolved type" := rfl

/-- A unit exercising both call directions the claim names: a function
`fname(x: i32) -> i32` whose body calls itself (recursion), followed by
`main() -> i32` whose body calls `fname`, declared earlier in the unit
(backward reference).  All slots start out as the pipeline produces
them: parameters and returns `Unresolved`, everything else `Pending`. -/
def c5_unit (fname : String) : List HIR :=
  [.DeclareFunction fname [⟨"x", .Unresolved (.Simple "i32")⟩]
    [.Return (.FunctionCall ⟨.Variable fname, .Pending⟩
      [⟨.Variable "x", .Pending⟩] .Pending Option.none)
      .Pending Option.none]
    (.Unresolved (.Simple "i32")) Option.none,
   .DeclareFunction "main" []
    [.Return (.FunctionCall ⟨.Variable fname, .Pending⟩
      [⟨.IntegerValue 1, .Pending⟩] .Pending Option.none)
      .Pending Option.none]
    (.Unresolved (.Simple "i32")) Option.none]

/-- C5, amended: with the globals registry the pipeline really supplies
(built by the name-registry builder, holding an `Unresolved` signature
per function), `infer_types` installs each function's resolved
`Function(params, ret)` signature in the globals registry before
inferring that function's body, so a recursive call from the function's
own body and a call to a function declared earlier in the unit both
resolve to the correct function type; forward references to functions
declared later do not resolve (see the counterexample). -/
theorem function_signature_installed_before_body (fname : String)
    (hx : fname ≠ "x") (hm : fname ≠ "main") :
    (build_name_registry (c5_unit fname) >>= fun globals =>
      infer_types globals TypeDatabase.new (c5_unit fname)) =
      .ok ((((NameRegistry.new.insert fname
            (.Unresolved (.Function [.Simple "i32"] (.Simple "i32")))).insert
          "main" (.Unresolved (.Function [] (.Simple "i32")))).insert
          fname (.Resolved (.Function [.Simple 0] (.Simple 0)))).insert
          "main" (.Resolved (.Function [] (.Simple 0))),
        [.DeclareFunction fname [⟨"x", .Resolved (.Simple 0)⟩]
          [.Return (.FunctionCall
            ⟨.Variable fname, .Resolved (.Function [.Simple 0] (.Simple 0))⟩
            [⟨.Variable "x", .Resolved (.Simple 0)⟩]
            (.Resolved (.Simple 0)) Option.none)
            (.Resolved (.Simple 0)) Option.none]
          (.Resolved (.Simple 0)) Option.none,
         .DeclareFunction "main" []
          [.Return (.FunctionCall
            ⟨.Variable fname, .Resolved (.Function [.Simple 0] (.Simple 0))⟩
            [⟨.IntegerValue 1, .Resolved (.Simple 0)⟩]
            (.Resolved (.Simple 0)) Option.none)
            (.Resolved (.Simple 0)) Option.none]
          (.Resolved (.Simple 0)) Option.none]) := by
  have hb1 : (fname == "x") = false := by simpa using hx
  have hb2 : ("x" == fname) = false := by simpa using (Ne.symm hx)
  have hb3 : (fname == "main") = false := by simpa using hm
  have hb4 : ("main" == fname) = false := by simpa using (Ne.symm hm)
  simp [c5_unit, build_name_registry, infer_types,
    infer_function_parameter_types_and_return,
    infer_variable_types_in_functions, infer_types_in_body, infer_node,
    compute_and_infer_expr_type, infer_trivial, NameRegistry.get,
    NameRegistry.insert, NameRegistry.include, NameRegistry.new,
    HIRExpr.expect_trivial, HIRTypeDef.expect_unresolved,
    instantiate_type, type_to_instance, TypeDatabase.expect_find_by_name,
    TypeDatabase.find, TypeRecord.as_type, TypeDatabase.new,
    List.find?, hb1, hb2, hb3, hb4, bind, Except.bind, pure, Except.pure,
    List.mapM, List.mapM.loop, List.foldlM]

/-- Witness for C5's amended theorem at the function name `sum`: the
recursive call inside `sum` and the backward reference from `main` both
come out `Resolved` with `sum`'s signature. -/
theorem function_signature_installed_before_body_witness :
    ("sum" : String) ≠ "x" ∧ ("sum" : String) ≠ "main" ∧
    (build_name_registry (c5_unit "sum") >>= fun globals =>
      infer_types globals TypeDatabase.new (c5_unit "sum")) =
      .ok ((((NameRegistry.new.insert "sum"
            (.Unresolved (.Function [.Simple "i32"] (.Simple "i32")))).insert
          "main" (.Unresolved (.Function [] (.Simple "i32")))).insert
          "sum" (.Resolved (.Function [.Simple 0] (.Simple 0)))).insert
          "main" (.Resolved (.Function [] (.Simple 0))),
        [.DeclareFunction "sum" [⟨"x", .Resolved (.Simple 0)⟩]
          [.Return (.FunctionCall
            ⟨.Variable "sum", .Resolved (.Function [.Simple 0] (.Simple 0))⟩
            [⟨.Variable "x", .Resolved (.Simple 0)⟩]
            (.Resolved (.Simple 0)) Option.none)
            (.Resolved (.Simple 0)) Option.none]
          (.Resolved (.Simple 0)) Option.none,
         .DeclareFunction "main" []
          [.Return (.FunctionCall
            ⟨.Variable "sum", .Resolved (.Function [.Simple 0] (.Simple 0))⟩
            [⟨.IntegerValue 1, .Resolved (.Simple 0)⟩]
            (.Resolved (.Simple 0)) Option.none)
            (.Resolved (.Simple 0)) Option.none]
          (.Resolved (.Simple 0)) Option.none]) :=
  ⟨by decide, by decide,
    function_signature_installed_before_body "sum" (by decide) (by decide)⟩

/-- A type slot is fully inferred when it is `Resolved`. -/
def slot_resolved : HIRTypeDef → Bool
  | .Resolved _ => true
  | _ => false

/-- Resolvedness of a typed trivial expression: its one type slot. -/
def ttriv_resolved (t : TypedTrivialHIRExpr) : Bool :=
  slot_resolved t.typedef

/-- Resolvedness of every type slot inside an `HIRExpr`: each leaf slot
and the node's own slot. -/
def expr_resolved : HIRExpr → Bool
  | .Trivial e _ => ttriv_resolved e
  | .Cast e t _ => ttriv_resolved e && slot_resolved t
  | .BinaryOperation l _ r t _ =>
      ttriv_resolved l && ttriv_resolved r && slot_resolved t
  | .FunctionCall f args t _ =>
      ttriv_resolved f && args.all ttriv_resolved && slot_resolved t
  | .UnaryExpression _ r t _ => ttriv_resolved r && slot_resolved t
  | .MemberAccess o _ t _ => ttriv_resolved o && slot_resolved t
  | .Array items t _ => items.all ttriv_resolved && slot_resolved t

mutual

/-- What `infer_node` actually guarantees for one output statement:
expressions and declared/return slots come out `Resolved`, but the callee
slot of a statement-level `FunctionCall` is cloned from the input, and a
nested `DeclareFunction`/`StructDeclaration` passes through unchanged, so
those carry no guarantee. -/
def guaranteed_stmt : HIR → Bool
  | .Declare _ t e _ _ => slot_resolved t && expr_resolved e
  | .Assign _ e _ _ => expr_resolved e
  | .DeclareFunction _ _ _ _ _ => true
  | .StructDeclaration _ _ _ => true
  | .FunctionCall _ args _ => args.all ttriv_resolved
  | .If c tb fb _ =>
      ttriv_resolved c && guaranteed_list tb && guaranteed_list fb
  | .Return e t _ => slot_resolved t && expr_resolved e
  | .EmptyReturn => true

/-- Pointwise `guaranteed_stmt` over a statement list. -/
def guaranteed_list : List HIR → Bool
  | [] => true
  | s :: ss => guaranteed_stmt s && guaranteed_list ss

end

/-- What `infer_types` actually guarantees for one top-level node: a
`DeclareFunction` gets resolved parameter and return slots and a body
satisfying `guaranteed_list`; every other top-level node is cloned
unchanged, so it carries no guarantee. -/
def guaranteed_top : HIR → Bool
  | .DeclareFunction _ params body ret _ =>
      params.all (fun p => slot_resolved p.typename) && slot_resolved ret &&
        guaranteed_list body
  | _ => true

mutual

/-- The property claimed of the whole output: every type slot reachable
in a statement, including the callee slot of a statement-level call,
every slot of nested and top-level `DeclareFunction`/`StructDeclaration`
signatures, and every expression slot, is `Resolved`. -/
def all_slots_stmt : HIR → Bool
  | .Assign _ e _ _ => expr_resolved e
  | .Declare _ t e _ _ => slot_resolved t && expr_resolved e
  | .DeclareFunction _ params body ret _ =>
      params.all (fun p => slot_resolved p.typename) && all_slots_list body &&
        slot_resolved ret
  | .StructDeclaration _ fields _ =>
      fields.all (fun p => slot_resolved p.typename)
  | .FunctionCall f args _ => ttriv_resolved f && args.all ttriv_resolved
  | .If c tb fb _ => ttriv_resolved c && all_slots_list tb && all_slots_list fb
  | .Return e t _ => slot_resolved t && expr_resolved e
  | .EmptyReturn => true

/-- Pointwise `all_slots_stmt` over a statement list. -/
def all_slots_list : List HIR → Bool
  | [] => true
  | s :: ss => all_slots_stmt s && all_slots_list ss

end

/-- Successful bind in `Except`, split into its two stages. -/
lemma except_bind_ok {ε α β : Type} (x : Except ε α) (f : α → Except ε β)
    (b : β) : (x >>= f) = .ok b ↔ ∃ a, x = .ok a ∧ f a = .ok b := by
  cases x <;> simp [Bind.bind, Except.bind]

/-- Every successful `infer_trivial` result is a `Trivial` node whose
slot is `Resolved` with the returned instance. -/
lemma infer_trivial_shape (db : TypeDatabase) (reg : NameRegistry)
    (tt : TypedTrivialHIRExpr) (meta : HIRMeta) (e' : HIRExpr)
    (T : TypeInstance)
    (h : infer_trivial db reg tt meta = .ok (e', T)) :
    ∃ te, e' = .Trivial ⟨te, .Resolved T⟩ meta := by
  unfold infer_trivial at h
  rcases tt with ⟨te, ts⟩
  cases te <;> simp only at h
  case Variable v =>
    rw [except_bind_ok] at h
    obtain ⟨a, ha, h⟩ := h
    cases a <;> simp only at h
    case Pending => exact absurd h (by simp)
    case Unresolved mt =>
      rw [except_bind_ok] at h
      obtain ⟨i, hi, h⟩ := h
      simp only [pure, Except.pure, Except.ok.injEq, Prod.mk.injEq] at h
      obtain ⟨he, hT⟩ := h
      exact ⟨.Variable v, by rw [← he, hT]⟩
    case Resolved r =>
      simp only [pure, Except.pure, Except.ok.injEq, Prod.mk.injEq] at h
      obtain ⟨he, hT⟩ := h
      exact ⟨.Variable v, by rw [← he, hT]⟩
  all_goals (
    rw [except_bind_ok] at h
    obtain ⟨a, ha, h⟩ := h
    try (rw [except_bind_ok] at h; obtain ⟨r, hr, h⟩ := h)
    simp only [pure, Except.pure, Except.ok.injEq, Prod.mk.injEq] at h
    obtain ⟨he, hT⟩ := h
    exact ⟨_, by rw [← he, hT]⟩)

/-- The per-argument step used by both `mapM` call sites of the
inference pass yields a resolved trivial expression. -/
lemma infer_trivial_arg_resolved (db : TypeDatabase) (reg : NameRegistry)
    (x : TypedTrivialHIRExpr) (meta : HIRMeta) (tt : TypedTrivialHIRExpr)
    (h : (do
        let (e, _) ← infer_trivial db reg x meta
        e.expect_trivial) = Except.ok tt) :
    ttriv_resolved tt = true := by
  rw [except_bind_ok] at h
  obtain ⟨⟨e, T⟩, he, h⟩ := h
  obtain ⟨te, rfl⟩ := infer_trivial_shape db reg x meta e T he
  simp only [HIRExpr.expect_trivial, Except.ok.injEq] at h
  rw [← h]
  rfl

/-- A successful `mapM` whose step preserves `P` yields a list that is
all `P`. -/
lemma mapM_all_of_ok {α β : Type} (P : β → Bool) (f : α → Except String β)
    (hf : ∀ x y, f x = .ok y → P y = true) :
    ∀ (xs : List α) (ys : List β), xs.mapM f = .ok ys → ys.all P = true := by
  intro xs
  induction xs with
  | nil =>
      intro ys h
      simp only [List.mapM_nil, pure, Except.pure, Except.ok.injEq] at h
      rw [← h]
      rfl
  | cons x xs ih =>
      intro ys h
      rw [List.mapM_cons] at h
      rw [except_bind_ok] at h
      obtain ⟨y, hy, h⟩ := h
      rw [except_bind_ok] at h
      obtain ⟨ys2, hys2, h⟩ := h
      simp only [pure, Except.pure, Except.ok.injEq] at h
      rw [← h]
      simp only [List.all_cons, Bool.and_eq_true]
      exact ⟨hf x y hy, ih ys2 hys2⟩

/-- Combining `infer_trivial_shape` with `expect_trivial`: the extracted
trivial expression has a `Resolved` slot. -/
lemma expect_of_infer_resolved (db : TypeDatabase) (reg : NameRegistry)
    (x : TypedTrivialHIRExpr) (meta : HIRMeta) (e : HIRExpr)
    (T : TypeInstance) (l : TypedTrivialHIRExpr)
    (h1 : infer_trivial db reg x meta = .ok (e, T))
    (h2 : HIRExpr.expect_trivial e = .ok l) :
    ttriv_resolved l = true := by
  obtain ⟨te, rfl⟩ := infer_trivial_shape db reg x meta e T h1
  simp only [HIRExpr.expect_trivial, Except.ok.injEq] at h2
  rw [← h2]
  rfl

/-- Every expression that `compute_and_infer_expr_type` returns
successfully has all of its type slots `Resolved`. -/
lemma compute_resolved (db : TypeDatabase) (reg : NameRegistry)
    (expression : HIRExpr) (hint : Option TypeInstance) (e' : HIRExpr)
    (T : TypeInstance)
    (h : compute_and_infer_expr_type db reg expression hint = .ok (e', T)) :
    expr_resolved e' = true := by
  cases expression with
  | Trivial tt meta =>
      simp only [compute_and_infer_expr_type] at h
      obtain ⟨te, rfl⟩ := infer_trivial_shape db reg tt meta e' T h
      rfl
  | Cast e t meta =>
      simp only [compute_and_infer_expr_type] at h
      exact absurd h (by simp)
  | BinaryOperation lhs op rhs t meta =>
      simp only [compute_and_infer_expr_type] at h
      rw [except_bind_ok] at h
      obtain ⟨⟨le, lt⟩, h1, h⟩ := h
      simp only at h
      rw [except_bind_ok] at h
      obtain ⟨⟨re, rt⟩, h2, h⟩ := h
      simp only at h
      split at h
      · exact absurd h (by simp)
      · split at h
        · exact absurd h (by simp)
        · split at h
          · rw [except_bind_ok] at h
            obtain ⟨l, hl, h⟩ := h
            rw [except_bind_ok] at h
            obtain ⟨r, hr, h⟩ := h
            simp only [pure, Except.pure, Except.ok.injEq,
              Prod.mk.injEq] at h
            obtain ⟨he, _⟩ := h
            rw [← he]
            simp only [expr_resolved, Bool.and_eq_true]
            exact ⟨⟨expect_of_infer_resolved db reg lhs meta le lt l h1 hl,
              expect_of_infer_resolved db reg rhs meta re rt r h2 hr⟩, rfl⟩
          · exact absurd h (by simp)
  | FunctionCall fun_expr fun_params t meta =>
      simp only [compute_and_infer_expr_type] at h
      split at h
      rotate_left
      · simp [Bind.bind, Except.bind] at h
      rw [except_bind_ok] at h
      obtain ⟨var, hvar, h⟩ := h
      rw [except_bind_ok] at h
      obtain ⟨a, ha, h⟩ := h
      cases a <;> simp only at h
      case Pending => exact absurd h (by simp)
      case Unresolved mt => exact absurd h (by simp)
      case Resolved resolved =>
        cases resolved <;> simp only at h
        case Simple tid => exact absurd h (by simp)
        case Generic tid g => exact absurd h (by simp)
        case Function params return_type =>
          rw [except_bind_ok] at h
          obtain ⟨args2, hargs, h⟩ := h
          simp only [pure, Except.pure, Except.ok.injEq,
            Prod.mk.injEq] at h
          obtain ⟨he, _⟩ := h
          rw [← he]
          simp only [expr_resolved, Bool.and_eq_true]
          refine ⟨⟨rfl, ?_⟩, rfl⟩
          exact mapM_all_of_ok ttriv_resolved _
            (fun x y hy => infer_trivial_arg_resolved db reg x meta y hy)
            fun_params args2 hargs
  | UnaryExpression op rhs t meta =>
      simp only [compute_and_infer_expr_type] at h
      rw [except_bind_ok] at h
      obtain ⟨⟨re, rt⟩, h1, h⟩ := h
      simp only at h
      split at h
      · exact absurd h (by simp)
      · split at h
        · rw [except_bind_ok] at h
          obtain ⟨r, hr, h⟩ := h
          simp only [pure, Except.pure, Except.ok.injEq, Prod.mk.injEq] at h
          obtain ⟨he, _⟩ := h
          rw [← he]
          simp only [expr_resolved, Bool.and_eq_true]
          exact ⟨expect_of_infer_resolved db reg rhs meta re rt r h1 hr, rfl⟩
        · exact absurd h (by simp)
  | MemberAccess obj name t meta =>
      simp only [compute_and_infer_expr_type] at h
      rw [except_bind_ok] at h
      obtain ⟨⟨oe, ot⟩, h1, h⟩ := h
      simp only at h
      cases ot
      case Function a b => simp [Bind.bind, Except.bind] at h
      all_goals (
        simp only at h
        rw [except_bind_ok] at h
        obtain ⟨y, hy, h⟩ := h
        rw [except_bind_ok] at h
        obtain ⟨td, htd, h⟩ := h
        split at h
        · split at h
          · exact absurd h (by simp)
          · rw [except_bind_ok] at h
            obtain ⟨results, hres, h⟩ := h
            rw [except_bind_ok] at h
            obtain ⟨ret, hret, h⟩ := h
            rw [except_bind_ok] at h
            obtain ⟨ob, hob, h⟩ := h
            simp only [pure, Except.pure, Except.ok.injEq, Prod.mk.injEq] at h
            obtain ⟨he, _⟩ := h
            rw [← he]
            simp only [expr_resolved, Bool.and_eq_true]
            exact ⟨expect_of_infer_resolved db reg obj meta oe _ ob h1 hob, rfl⟩
        · split at h
          · rw [except_bind_ok] at h
            obtain ⟨resolved, hresv, h⟩ := h
            rw [except_bind_ok] at h
            obtain ⟨ob, hob, h⟩ := h
            simp only [pure, Except.pure, Except.ok.injEq, Prod.mk.injEq] at h
            obtain ⟨he, _⟩ := h
            rw [← he]
            simp only [expr_resolved, Bool.and_eq_true]
            exact ⟨expect_of_infer_resolved db reg obj meta oe _ ob h1 hob, rfl⟩
          · exact absurd h (by simp))
  | Array array_items t meta =>
      simp only [compute_and_infer_expr_type] at h
      split at h
      · exact absurd h (by simp)
      · rw [except_bind_ok] at h
        obtain ⟨array_type, hat, h⟩ := h
        split at h
        · rw [except_bind_ok] at h
          obtain ⟨items_typed, hit, h⟩ := h
          split at h
          rotate_left
          · simp [Bind.bind, Except.bind] at h
          rw [except_bind_ok] at h
          obtain ⟨first, hfst, h⟩ := h
          rw [except_bind_ok] at h
          obtain ⟨ft, hft, h⟩ := h
          simp only [pure, Except.pure, Except.ok.injEq, Prod.mk.injEq] at h
          obtain ⟨he, _⟩ := h
          rw [← he]
          simp only [expr_resolved, Bool.and_eq_true]
          refine ⟨?_, rfl⟩
          exact mapM_all_of_ok ttriv_resolved _
            (fun x y hy => infer_trivial_arg_resolved db reg x meta y hy)
            array_items _ hit
        · split at h
          rotate_left
          · simp [Bind.bind, Except.bind] at h
          rw [except_bind_ok] at h
          obtain ⟨hv, hhv, h⟩ := h
          simp only [pure, Except.pure, Except.ok.injEq, Prod.mk.injEq] at h
          obtain ⟨he, _⟩ := h
          rw [← he]
          rfl

mutual

/-- Every statement list that `infer_types_in_body` returns successfully
satisfies `guaranteed_list`. -/
theorem infer_body_guaranteed (db : TypeDatabase) (reg : NameRegistry)
    (body : List HIR) (reg2 : NameRegistry) (out : List HIR)
    (h : infer_types_in_body db reg body = .ok (reg2, out)) :
    guaranteed_list out = true := by
  cases body with
  | nil =>
      simp only [infer_types_in_body, Except.ok.injEq, Prod.mk.injEq] at h
      obtain ⟨-, rfl⟩ := h
      rfl
  | cons node rest =>
      simp only [infer_types_in_body] at h
      rw [except_bind_ok] at h
      obtain ⟨⟨decls2, mir_node⟩, h1, h⟩ := h
      simp only at h
      rw [except_bind_ok] at h
      obtain ⟨⟨decls3, new_mir⟩, h2, h⟩ := h
      simp only [pure, Except.pure, Except.ok.injEq, Prod.mk.injEq] at h
      obtain ⟨-, ho⟩ := h
      rw [← ho]
      simp only [guaranteed_list, Bool.and_eq_true]
      exact ⟨infer_node_guaranteed db reg node decls2 mir_node h1,
        infer_body_guaranteed db decls2 rest decls3 new_mir h2⟩

/-- Every statement that `infer_node` returns successfully satisfies
`guaranteed_stmt`. -/
theorem infer_node_guaranteed (db : TypeDatabase) (reg : NameRegistry)
    (node : HIR) (reg2 : NameRegistry) (out : HIR)
    (h : infer_node db reg node = .ok (reg2, out)) :
    guaranteed_stmt out = true := by
  cases node with
  | Declare var type_hint expression ma me =>
      simp only [infer_node] at h
      cases type_hint with
      | Pending =>
          simp only at h
          rw [except_bind_ok] at h
          obtain ⟨hv, hhv, h⟩ := h
          rw [except_bind_ok] at h
          obtain ⟨⟨te, td⟩, hc, h⟩ := h
          simp only [pure, Except.pure, Except.ok.injEq, Prod.mk.injEq] at h
          obtain ⟨-, ho⟩ := h
          rw [← ho]
          simp only [guaranteed_stmt, Bool.and_eq_true]
          exact ⟨rfl, compute_resolved db reg expression hv te td hc⟩
      | Unresolved mt =>
          simp only at h
          rw [except_bind_ok] at h
          obtain ⟨i, hi, h⟩ := h
          rw [except_bind_ok] at h
          obtain ⟨hv, hhv, h⟩ := h
          rw [except_bind_ok] at h
          obtain ⟨⟨te, td⟩, hc, h⟩ := h
          simp only [pure, Except.pure, Except.ok.injEq, Prod.mk.injEq] at h
          obtain ⟨-, ho⟩ := h
          rw [← ho]
          simp only [guaranteed_stmt, Bool.and_eq_true]
          exact ⟨rfl, compute_resolved db reg expression hv te td hc⟩
      | Resolved r =>
          simp only at h
          rw [except_bind_ok] at h
          obtain ⟨hv, hhv, h⟩ := h
          rw [except_bind_ok] at h
          obtain ⟨⟨te, td⟩, hc, h⟩ := h
          simp only [pure, Except.pure, Except.ok.injEq, Prod.mk.injEq] at h
          obtain ⟨-, ho⟩ := h
          rw [← ho]
          simp only [guaranteed_stmt, Bool.and_eq_true]
          exact ⟨rfl, compute_resolved db reg expression hv te td hc⟩
  | Assign path expression ma me =>
      simp only [infer_node] at h
      rw [except_bind_ok] at h
      obtain ⟨⟨te, td⟩, hc, h⟩ := h
      simp only [pure, Except.pure, Except.ok.injEq, Prod.mk.injEq] at h
      obtain ⟨-, ho⟩ := h
      rw [← ho]
      exact compute_resolved db reg expression Option.none te td hc
  | FunctionCall function args meta =>
      simp only [infer_node] at h
      rw [except_bind_ok] at h
      obtain ⟨args2, hargs, h⟩ := h
      simp only [pure, Except.pure, Except.ok.injEq, Prod.mk.injEq] at h
      obtain ⟨-, ho⟩ := h
      rw [← ho]
      simp only [guaranteed_stmt]
      exact mapM_all_of_ok ttriv_resolved _
        (fun x y hy => infer_trivial_arg_resolved db reg x Option.none y hy)
        args args2 hargs
  | If condition tb fb meta =>
      simp only [infer_node] at h
      rw [except_bind_ok] at h
      obtain ⟨⟨r1, ti⟩, h1, h⟩ := h
      simp only at h
      rw [except_bind_ok] at h
      obtain ⟨⟨r2, fi⟩, h2, h⟩ := h
      simp only at h
      rw [except_bind_ok] at h
      obtain ⟨⟨ce, ct⟩, h3, h⟩ := h
      simp only at h
      rw [except_bind_ok] at h
      obtain ⟨c, hc, h⟩ := h
      simp only [pure, Except.pure, Except.ok.injEq, Prod.mk.injEq] at h
      obtain ⟨-, ho⟩ := h
      rw [← ho]
      simp only [guaranteed_stmt, Bool.and_eq_true]
      exact ⟨⟨expect_of_infer_resolved db reg condition Option.none ce ct c
          h3 hc,
        infer_body_guaranteed db reg tb r1 ti h1⟩,
        infer_body_guaranteed db reg fb r2 fi h2⟩
  | Return expr t meta =>
      simp only [infer_node] at h
      rw [except_bind_ok] at h
      obtain ⟨⟨te, td⟩, hc, h⟩ := h
      simp only [pure, Except.pure, Except.ok.injEq, Prod.mk.injEq] at h
      obtain ⟨-, ho⟩ := h
      rw [← ho]
      simp only [guaranteed_stmt, Bool.and_eq_true]
      exact ⟨rfl, compute_resolved db reg expr Option.none te td hc⟩
  | DeclareFunction fn params body rt meta =>
      simp only [infer_node, Except.ok.injEq, Prod.mk.injEq] at h
      obtain ⟨-, ho⟩ := h
      rw [← ho]
      rfl
  | StructDeclaration sn body meta =>
      simp only [infer_node, Except.ok.injEq, Prod.mk.injEq] at h
      obtain ⟨-, ho⟩ := h
      rw [← ho]
      rfl
  | EmptyReturn =>
      simp only [infer_node, Except.ok.injEq, Prod.mk.injEq] at h
      obtain ⟨-, ho⟩ := h
      rw [← ho]
      rfl

end

/-- Parameters returned by `infer_function_parameter_types_and_return`
all carry `Resolved` slots. -/
lemma infer_params_resolved (db : TypeDatabase)
    (params : List HIRTypedBoundName) (rt : HIRTypeDef)
    (pr : List HIRTypedBoundName) (ri : TypeInstance)
    (h : infer_function_parameter_types_and_return db params rt =
      .ok (pr, ri)) :
    pr.all (fun p => slot_resolved p.typename) = true := by
  simp only [infer_function_parameter_types_and_return] at h
  rw [except_bind_ok] at h
  obtain ⟨new_args, hargs, h⟩ := h
  have hpr : pr = new_args := by
    cases rt <;> simp only at h
    case Pending => exact absurd h (by simp [Bind.bind, Except.bind])
    case Unresolved mt =>
        rw [except_bind_ok] at h
        obtain ⟨i, hi, h⟩ := h
        simp only [pure, Except.pure, Except.ok.injEq, Prod.mk.injEq] at h
        exact h.1.symm
    case Resolved r =>
        rw [except_bind_ok] at h
        obtain ⟨i, hi, h⟩ := h
        simp only [pure, Except.pure, Except.ok.injEq, Prod.mk.injEq] at h
        exact h.1.symm
  rw [hpr]
  refine mapM_all_of_ok _ _ ?_ params new_args hargs
  intro x y hy
  rcases x with ⟨nm, tn⟩
  cases tn <;> simp only at hy
  case Pending => exact absurd hy (by simp)
  case Unresolved mt =>
      rw [except_bind_ok] at hy
      obtain ⟨r, hr, hy⟩ := hy
      simp only [Except.ok.injEq] at hy
      rw [← hy]
      rfl
  case Resolved r =>
      simp only [Except.ok.injEq] at hy
      rw [← hy]
      rfl

/-- A function body returned by `infer_variable_types_in_functions`
satisfies `guaranteed_list`. -/
lemma infer_vars_guaranteed (db : TypeDatabase) (g : NameRegistry)
    (ps : List HIRTypedBoundName) (b : List HIR) (nb : List HIR)
    (h : infer_variable_types_in_functions db g ps b = .ok nb) :
    guaranteed_list nb = true := by
  simp only [infer_variable_types_in_functions] at h
  rw [except_bind_ok] at h
  obtain ⟨⟨r, body2⟩, h1, h⟩ := h
  simp only [pure, Except.pure, Except.ok.injEq] at h
  rw [← h]
  exact infer_body_guaranteed db _ b r body2 h1

/-- C4 (counterexample): `infer_types` can succeed while its output still
contains `Pending` slots.  A top-level `Declare` outside any function is
cloned unchanged (slot and initializer still `Pending`), and inside a
function body the callee slot of a statement-level `FunctionCall` is
cloned from the input, so `print`'s slot survives as `Pending` even
though the call's argument is rewritten to `Resolved`. -/
theorem infer_types_output_keeps_pending_slots :
    infer_types NameRegistry.new TypeDatabase.new
      [.Declare "g" .Pending (.Trivial ⟨.IntegerValue 1, .Pending⟩
          Option.none) Option.none Option.none,
        .DeclareFunction "main" []
          [.FunctionCall ⟨.Variable "print", .Pending⟩
            [⟨.IntegerValue 10, .Pending⟩] Option.none]
          (.Resolved (.Simple 6)) Option.none] =
      .ok (NameRegistry.new.insert "main"
          (.Resolved (.Function [] (.Simple 6))),
        [.Declare "g" .Pending (.Trivial ⟨.IntegerValue 1, .Pending⟩
            Option.none) Option.none Option.none,
          .DeclareFunction "main" []
            [.FunctionCall ⟨.Variable "print", .Pending⟩
              [⟨.IntegerValue 10, .Resolved (.Simple 0)⟩] Option.none]
            (.Resolved (.Simple 6)) Option.none]) ∧
    all_slots_list
      [.Declare "g" .Pending (.Trivial ⟨.IntegerValue 1, .Pending⟩
          Option.none) Option.none Option.none,
        .DeclareFunction "main" []
          [.FunctionCall ⟨.Variable "print", .Pending⟩
            [⟨.IntegerValue 10, .Resolved (.Simple 0)⟩] Option.none]
          (.Resolved (.Simple 6)) Option.none] = false :=
  ⟨by rfl, by rfl⟩

/-- C4 (amended): whenever `infer_types` succeeds, every top-level
`DeclareFunction` in the output has `Resolved` parameter and return
slots and a body in which every `Declare`, `Assign` and `Return`
expression slot, every statement-level call argument and every `If`
condition is `Resolved`; no such guarantee holds for top-level
non-function nodes or for the callee slot of a statement-level call,
which are cloned unchanged. -/
theorem infer_types_resolves_function_signatures_and_bodies
    (globals : NameRegistry) (type_db : TypeDatabase)
    (mir : List HIR) (g2 : NameRegistry) (out : List HIR)
    (h : infer_types globals type_db mir = .ok (g2, out)) :
    out.all guaranteed_top = true := by
  induction mir generalizing globals g2 out with
  | nil =>
      simp only [infer_types, Except.ok.injEq, Prod.mk.injEq] at h
      rw [← h.2]
      rfl
  | cons node rest ih =>
      cases node
      case DeclareFunction fn params body rt meta =>
        simp only [infer_types] at h
        rw [except_bind_ok] at h
        obtain ⟨⟨pr, rtr⟩, hsig, h⟩ := h
        simp only at h
        rw [except_bind_ok] at h
        obtain ⟨ptypes, hpt, h⟩ := h
        rw [except_bind_ok] at h
        obtain ⟨new_body, hbody, h⟩ := h
        rw [except_bind_ok] at h
        obtain ⟨y, hy, h⟩ := h
        simp only [Except.ok.injEq] at hy
        rw [← hy] at h
        simp only at h
        rw [except_bind_ok] at h
        obtain ⟨⟨g3, nm⟩, hrest, h⟩ := h
        simp only [pure, Except.pure, Except.ok.injEq, Prod.mk.injEq] at h
        obtain ⟨-, ho⟩ := h
        rw [← ho]
        simp only [List.all_cons, Bool.and_eq_true]
        refine ⟨?_, ih _ g3 nm hrest⟩
        simp only [guaranteed_top, Bool.and_eq_true]
        exact ⟨⟨infer_params_resolved type_db params rt pr rtr hsig, rfl⟩,
          infer_vars_guaranteed type_db _ params body new_body hbody⟩
      all_goals (
        simp only [infer_types] at h
        rw [except_bind_ok] at h
        obtain ⟨y, hy, h⟩ := h
        simp only [Except.ok.injEq] at hy
        rw [← hy] at h
        simp only at h
        rw [except_bind_ok] at h
        obtain ⟨⟨g3, nm⟩, hrest, h⟩ := h
        simp only [pure, Except.pure, Except.ok.injEq, Prod.mk.injEq] at h
        obtain ⟨-, ho⟩ := h
        rw [← ho]
        simp only [List.all_cons, Bool.and_eq_true]
        exact ⟨rfl, ih _ g3 nm hrest⟩)

/-- Witness for C4's amended theorem at a one-function unit. -/
theorem infer_types_resolves_function_signatures_and_bodies_witness :
    ([.DeclareFunction "main" [] [.EmptyReturn] (.Resolved (.Simple 6))
      Option.none] : List HIR).all guaranteed_top = true :=
  infer_types_resolves_function_signatures_and_bodies NameRegistry.new
    TypeDatabase.new
    [.DeclareFunction "main" [] [.EmptyReturn] (.Resolved (.Simple 6))
      Option.none]
    (NameRegistry.new.insert "main" (.Resolved (.Function [] (.Simple 6))))
    [.DeclareFunction "main" [] [.EmptyReturn] (.Resolved (.Simple 6))
      Option.none]
    (by rfl)
